import Mathlib

/-!
# Basler camera adapter: acquisition engine and image processors

A shallow embedding of the acquisition part of `Basler.cpp` / `Basler.h`
(class `CBaslerCamera`, its worker `MySequenceThread` and the fault injector
`DemoHub::GenerateRandomError`) and of the pixel loops of `MedianFilter` and
`TransposeProcessor`, followed by theorems about them.

Conventions of the embedding

* C++ `int`/`long` values are `Int`, `unsigned` values are `Nat`; a conversion
  from `long` to `unsigned` is `toUnsigned` (reduction modulo `2^32`), and the
  subtraction `numImages_-1` of the worker loop is `longPred`, which wraps
  around at `LONG_MIN`.
* A stored `double` (an exposure, the error rate) is the rational it denotes.
  The quotient of the pacing test is computed on doubles: `Double` models
  IEEE 754 binary64 with rounding to nearest, ties to even.
* Everything the camera obtains from outside (the C library `rand()`, the
  clock, the circular buffer of the core, the frame grabber, a concurrent
  `Stop()` request) is an oracle stream in `Host`, read through a cursor.
* Busy-wait loops take a fuel argument `spin` and return `none` when the fuel
  runs out before the loop condition fails.
* Pixel buffers are lists; the image processors return `none` when an access
  falls outside a buffer.
-/

namespace Basler

/-! ## Constants -/

/-- Success code of the device interface (`MMDeviceConstants.h`). -/
def DEVICE_OK : Int := 0
/-- Generic error code of the device interface (`MMDeviceConstants.h`). -/
def DEVICE_ERR : Int := 1
/-- Code with which the circular buffer reports an overflow (`MMDeviceConstants.h`). -/
def DEVICE_BUFFER_OVERFLOW : Int := 22
/-- Code for a mutation attempted during a sequence (`MMDeviceConstants.h`). -/
def DEVICE_CAMERA_BUSY_ACQUIRING : Int := 30
/-- Value of `#define ERR_UNKNOWN_MODE 102`. -/
def ERR_UNKNOWN_MODE : Int := 102
/-- Value of `#define SIMULATED_ERROR 200`. -/
def SIMULATED_ERROR : Int := 200

/-- Pixel type name `g_PixelType_8bit`. -/
def g_PixelType_8bit : String := "8bit"
/-- Pixel type name `g_PixelType_16bit`. -/
def g_PixelType_16bit : String := "16bit"
/-- Pixel type name `g_PixelType_32bitRGB`. -/
def g_PixelType_32bitRGB : String := "32bitRGB"
/-- Pixel type name `g_PixelType_64bitRGB`. -/
def g_PixelType_64bitRGB : String := "64bitRGB"
/-- Pixel type name `g_PixelType_32bit` (floating point greyscale). -/
def g_PixelType_32bit : String := "32bit"

/-- Conversion of a `long` to `unsigned` (32 bits). -/
def toUnsigned (z : Int) : Nat := (z % 4294967296).toNat

/-! ## Data model -/

/-- The property action kinds of `MM::ActionType`. -/
inductive ActionType where
  | NoAction
  | BeforeGet
  | AfterSet
  deriving DecidableEq, Repr

/-- The fields of `DemoHub` the camera reads. -/
structure DemoHub where
  errorRate_ : ℚ
  deriving DecidableEq

/-- Geometry of `ImgBuffer img_`: width, height and bytes per pixel. -/
structure ImgBuffer where
  width : Nat
  height : Nat
  depth : Nat
  deriving DecidableEq, Repr

/-- The call `ImgBuffer::Resize(xSize, ySize, pixDepth)`. -/
def ImgBuffer.Resize3 (_b : ImgBuffer) (x y d : Nat) : ImgBuffer :=
  { width := x, height := y, depth := d }

/-- The call `ImgBuffer::Resize(xSize, ySize)`, which keeps the pixel depth. -/
def ImgBuffer.Resize (b : ImgBuffer) (x y : Nat) : ImgBuffer :=
  { b with width := x, height := y }

/-- What one call of the frame fetch (`reconstruct` and the copy into the
buffer) does: it completes, or it raises. -/
inductive Fetch where
  | done
  | cmmError (code : Int)
  | unknownException
  deriving DecidableEq, Repr

/-- The metadata `InsertImage` attaches to a frame, times in microseconds; the
constant device label is left out. `binning` is `none` when reading the
Binning property failed and the text buffer was left unset. -/
structure Metadata where
  startTime : Int
  elapsed : Int
  roiX : Nat
  roiY : Nat
  binning : Option Int
  deriving DecidableEq, Repr

/-- One frame as handed to the core: whether the pixel pointer is non-null,
which fetch filled the buffer, the geometry read through the getters, and the
metadata. -/
structure Frame where
  pixelsValid : Bool
  content : Nat
  w : Nat
  h : Nat
  b : Nat
  md : Metadata
  deriving DecidableEq, Repr

/-- Observable actions of the camera on its host, in the order they happen. -/
inductive Event where
  /-- `ThreadRun` was entered. -/
  | threadRun
  /-- The trigger device was pulsed. -/
  | trigger
  /-- The core callback `InsertImage` was called with this frame, this
  processing flag, and answered with this code. -/
  | push (f : Frame) (flag : Bool) (result : Int)
  /-- The core callback `ClearImageBuffer` was called. -/
  | clearImageBuffer
  /-- The worker logged that the sequence was interrupted. -/
  | interrupted
  /-- The worker logged a caught exception. -/
  | exceptionLogged
  /-- `OnThreadExiting` ran; `stopped` is the value `IsStopped()` had then,
  `notified` tells whether `AcqFinished` was delivered to a core callback. -/
  | threadExiting (stopped : Bool) (notified : Bool)
  /-- The core was told that a property changed (`OnPropertyChanged`). -/
  | propertyChanged (name : String) (value : Int)
  /-- The core was told that the properties changed (`OnPropertiesChanged`). -/
  | propertiesChanged
  deriving DecidableEq, Repr

/-- Everything outside the camera object. Each stream is read through its own
cursor, which advances by one per read. -/
structure Host where
  /-- Results of successive `rand()` calls. -/
  rand : Nat → Nat
  randIx : Nat
  /-- Results of successive `GetCurrentMMTime()` calls, in microseconds. -/
  clock : Nat → Int
  clockIx : Nat
  /-- Answers of the core to successive `InsertImage` callbacks. -/
  sink : Nat → Int
  sinkIx : Nat
  /-- Outcomes of successive frame fetches. -/
  fetch : Nat → Fetch
  fetchIx : Nat
  /-- Whether a concurrent `Stop()` has arrived before the worker's k-th poll
  of `IsStopped()`. -/
  stopReq : Nat → Bool
  pollIx : Nat
  /-- Answer of the core to `PrepareForAcq`. -/
  prepareForAcq : Int
  /-- Result of `IsCallbackRegistered()`. -/
  callbackRegistered : Bool
  /-- Whether `GetDevice(name)` finds a device. -/
  hasDevice : String → Bool
  /-- What an out-of-range read of the exposure vector yields. -/
  wild : ℚ
  /-- What an unset text buffer holds when it is read as a pixel type. -/
  staleText : String
  /-- The actions observed so far, oldest first. -/
  log : List Event

/-- State of `MySequenceThread`. -/
structure MySequenceThread where
  intervalMs_ : ℚ
  numImages_ : Int
  imageCounter_ : Int
  stop_ : Bool
  suspend_ : Bool
  startTime_ : Int
  actualDuration_ : Int
  lastFrameTime_ : Int
  deriving DecidableEq

/-- State of `CBaslerCamera` together with its hub, its worker, the cached
values of the properties it reads back, and its host. -/
structure Camera where
  /-- The parent hub, `GetParentHub()`; `none` is the null pointer. -/
  hub : Option DemoHub
  img_ : ImgBuffer
  initialized_ : Bool
  readoutUs_ : Int
  readoutStartTime_ : Int
  scanMode_ : Int
  bitDepth_ : Int
  roiX_ : Nat
  roiY_ : Nat
  sequenceStartTime_ : Int
  isSequenceable_ : Bool
  sequenceMaxLength_ : Int
  sequenceRunning_ : Bool
  sequenceIndex_ : Nat
  exposureSequence_ : List ℚ
  imageCounter_ : Int
  binSize_ : Int
  cameraCCDXSize_ : Int
  cameraCCDYSize_ : Int
  triggerDevice_ : String
  stopOnOverflow_ : Bool
  fastImage_ : Bool
  nComponents_ : Int
  /-- Number of fetches that have filled the buffer. -/
  frameContent : Nat
  /-- Stored value of the Exposure property; `none` before it is created. -/
  propExposure : Option ℚ
  /-- Stored value of the PixelType property. -/
  propPixelType : String
  /-- Stored value of the Binning property. -/
  propBinning : Int
  /-- Allowed values published for the Binning property. -/
  allowedBinning : List Int
  thd_ : MySequenceThread
  host : Host

/-! ## Fault injector -/

/-- The divisor `(int) (1.0 / errorRate_)`: the reciprocal of the rate, which
is its denominator over its numerator, truncated toward zero. -/
def errorDivisor (rate : ℚ) : Int := Int.tdiv (rate.den : Int) rate.num

/-- The method `DemoHub::GenerateRandomError`, given the value `rand()` returns
when it is called. With a divisor of zero (an error rate above 1) the C++
remainder is undefined; here it is the `Int.tmod` convention. -/
def DemoHub.GenerateRandomError (h : DemoHub) (r : Nat) : Bool :=
  if h.errorRate_ = 0 then false
  else decide (Int.tmod (r : Int) (errorDivisor h.errorRate_) = 0)

/-- The entry guard `pHub && pHub->GenerateRandomError()`: its value and the
camera afterwards. `rand()` is consumed only when it is called, that is with
a hub whose error rate is not zero. -/
def hubError (c : Camera) : Bool × Camera :=
  (match c.hub with
   | none => false
   | some h => h.GenerateRandomError (c.host.rand c.host.randIx),
   { c with host := { c.host with randIx := c.host.randIx +
      (match c.hub with
       | none => 0
       | some h => if h.errorRate_ = 0 then 0 else 1) } })

/-! ## Exposure and the exposure sequence -/

/-- The method `CBaslerCamera::GetExposure`: the fault code when the injector
triggers, `0.0` when the property cannot be read, else the property value. -/
def GetExposure (c : Camera) : ℚ × Camera :=
  let g := hubError c
  if g.1 then ((SIMULATED_ERROR : ℚ), g.2)
  else
    match g.2.propExposure with
    | none => (0, g.2)
    | some v => (v, g.2)

/-- The method `CBaslerCamera::GetSequenceExposure`. -/
def GetSequenceExposure (c : Camera) : ℚ × Camera :=
  if c.exposureSequence_.length = 0 then GetExposure c
  else
    let exposure := c.exposureSequence_.getD c.sequenceIndex_ c.host.wild
    let c1 := { c with sequenceIndex_ := c.sequenceIndex_ + 1 }
    let c2 := if c1.sequenceIndex_ ≥ c1.exposureSequence_.length
              then { c1 with sequenceIndex_ := 0 } else c1
    (exposure, c2)

/-- The camera after `k` successive calls of `GetSequenceExposure`. -/
def afterSequenceCalls : Nat → Camera → Camera
  | 0, c => c
  | k + 1, c => afterSequenceCalls k (GetSequenceExposure c).2

/-! ## Image getters -/

/-- The method `CBaslerCamera::IsCapturing`. -/
def IsCapturing (c : Camera) : Bool := !c.thd_.stop_

/-- One call of `GetCurrentMMTime()`. -/
def GetCurrentMMTime (c : Camera) : Int × Camera :=
  (c.host.clock c.host.clockIx,
   { c with host := { c.host with clockIx := c.host.clockIx + 1 } })

/-- Append an event to the log of the host. -/
def Camera.emit (c : Camera) (e : Event) : Camera :=
  { c with host := { c.host with log := c.host.log ++ [e] } }

/-- The method `CBaslerCamera::GetImageWidth`. -/
def GetImageWidth (c : Camera) : Nat × Camera :=
  let g := hubError c
  if g.1 then (0, g.2) else (g.2.img_.width, g.2)

/-- The method `CBaslerCamera::GetImageHeight`. -/
def GetImageHeight (c : Camera) : Nat × Camera :=
  let g := hubError c
  if g.1 then (0, g.2) else (g.2.img_.height, g.2)

/-- The method `CBaslerCamera::GetImageBytesPerPixel`. -/
def GetImageBytesPerPixel (c : Camera) : Nat × Camera :=
  let g := hubError c
  if g.1 then (0, g.2) else (g.2.img_.depth, g.2)

/-- The method `CBaslerCamera::GetBitDepth`. -/
def GetBitDepth (c : Camera) : Nat × Camera :=
  let g := hubError c
  if g.1 then (0, g.2) else (toUnsigned g.2.bitDepth_, g.2)

/-- The method `CBaslerCamera::GetImageBufferSize`; the product is computed
in `unsigned`. -/
def GetImageBufferSize (c : Camera) : Int × Camera :=
  let g := hubError c
  if g.1 then (0, g.2)
  else
    let b := GetImageBytesPerPixel g.2
    (((g.2.img_.width * g.2.img_.height * b.1) % 4294967296 : Nat), b.2)

/-- The readout gate of `GetImageBuffer`:
`while (readoutTime > (GetCurrentMMTime() - readoutStartTime_)) {}`. -/
def readoutGate : Nat → Camera → Option Camera
  | 0, _ => none
  | spin + 1, c =>
    let t := GetCurrentMMTime c
    if c.readoutUs_ > t.1 - c.readoutStartTime_ then readoutGate spin t.2
    else some t.2

/-- The method `CBaslerCamera::GetImageBuffer`: whether the returned pointer is
non-null, and the camera afterwards. -/
def GetImageBuffer (spin : Nat) (c : Camera) : Option (Bool × Camera) :=
  let g := hubError c
  if g.1 then some (false, g.2)
  else (readoutGate spin g.2).map (fun c1 => (true, c1))

/-- The method `CBaslerCamera::GetROI`: the code and the four outputs. -/
def GetROI (c : Camera) : Int × Option (Nat × Nat × Nat × Nat) × Camera :=
  let g := hubError c
  if g.1 then (SIMULATED_ERROR, none, g.2)
  else (DEVICE_OK, some (g.2.roiX_, g.2.roiY_, g.2.img_.width, g.2.img_.height), g.2)

/-! ## Property handlers and the property system

The property objects live in the device base class. Reading a property with
`GetProperty` runs its handler with `BeforeGet` and, when the handler
succeeds, copies the value of the property object; writing one with
`SetProperty` checks the allowed values, stores the value in the property
object and runs the handler with `AfterSet`. -/

/-- Code of the property system for a value outside the allowed values
(`MMDeviceConstants.h`). -/
def DEVICE_INVALID_PROPERTY_VALUE : Int := 3

/-- Result of a property handler: its return code, the value the property
object holds afterwards, and the camera afterwards. -/
structure Handled (α : Type) where
  ret : Int
  prop : α
  cam : Camera

/-- The handler `CBaslerCamera::OnBinning`; `pProp` is the value held by the
property object. -/
def OnBinning (pProp : Int) (eAct : ActionType) (c : Camera) : Handled Int :=
  let g := hubError c
  if g.1 then ⟨SIMULATED_ERROR, pProp, g.2⟩
  else
    match eAct with
    | .AfterSet =>
      if IsCapturing g.2 then ⟨DEVICE_CAMERA_BUSY_ACQUIRING, pProp, g.2⟩
      else
        let binFactor := pProp
        if binFactor > 0 ∧ binFactor < 10 then
          let c1 := { g.2 with
            img_ := g.2.img_.Resize (toUnsigned (Int.tdiv g.2.cameraCCDXSize_ binFactor))
                      (toUnsigned (Int.tdiv g.2.cameraCCDYSize_ binFactor)),
            binSize_ := binFactor }
          ⟨DEVICE_OK, pProp, c1.emit (.propertyChanged "Binning" c1.binSize_)⟩
        else ⟨DEVICE_ERR, pProp, g.2⟩
    | .BeforeGet => ⟨DEVICE_OK, g.2.binSize_, g.2⟩
    | .NoAction => ⟨DEVICE_ERR, pProp, g.2⟩

/-- The handler `CBaslerCamera::OnPixelType`. -/
def OnPixelType (pProp : String) (eAct : ActionType) (c : Camera) : Handled String :=
  let g := hubError c
  if g.1 then ⟨SIMULATED_ERROR, pProp, g.2⟩
  else
    match eAct with
    | .AfterSet =>
      if IsCapturing g.2 then ⟨DEVICE_CAMERA_BUSY_ACQUIRING, pProp, g.2⟩
      else
        let pixelType := pProp
        let w := g.2.img_.width
        let h := g.2.img_.height
        if pixelType = g_PixelType_8bit then
          ⟨DEVICE_OK, pProp,
            { g.2 with nComponents_ := 1, img_ := g.2.img_.Resize3 w h 1, bitDepth_ := 8 }⟩
        else if pixelType = g_PixelType_16bit then
          ⟨DEVICE_OK, pProp, { g.2 with nComponents_ := 1, img_ := g.2.img_.Resize3 w h 2 }⟩
        else if pixelType = g_PixelType_32bitRGB then
          ⟨DEVICE_OK, pProp, { g.2 with nComponents_ := 4, img_ := g.2.img_.Resize3 w h 4 }⟩
        else if pixelType = g_PixelType_64bitRGB then
          ⟨DEVICE_OK, pProp, { g.2 with nComponents_ := 4, img_ := g.2.img_.Resize3 w h 8 }⟩
        else if pixelType = g_PixelType_32bit then
          ⟨DEVICE_OK, pProp, { g.2 with nComponents_ := 1, img_ := g.2.img_.Resize3 w h 4 }⟩
        else
          ⟨ERR_UNKNOWN_MODE, g_PixelType_8bit,
            { g.2 with nComponents_ := 1, img_ := g.2.img_.Resize3 w h 1 }⟩
    | .BeforeGet =>
      let bpp := GetImageBytesPerPixel g.2
      let bytesPerPixel := bpp.1
      let c1 := bpp.2
      if bytesPerPixel = 1 then ⟨DEVICE_OK, g_PixelType_8bit, c1⟩
      else if bytesPerPixel = 2 then ⟨DEVICE_OK, g_PixelType_8bit, c1⟩
      else if bytesPerPixel = 4 then
        if c1.nComponents_ = 4 then ⟨DEVICE_OK, g_PixelType_32bitRGB, c1⟩
        else if c1.nComponents_ = 1 then ⟨DEVICE_OK, g_PixelType_32bit, c1⟩
        else ⟨DEVICE_OK, pProp, c1⟩
      else if bytesPerPixel = 8 then ⟨DEVICE_OK, g_PixelType_64bitRGB, c1⟩
      else ⟨DEVICE_OK, g_PixelType_8bit, c1⟩
    | .NoAction => ⟨DEVICE_ERR, pProp, g.2⟩

/-- The call `GetProperty(MM::g_Keyword_PixelType, buf)`: the code, the text
copied into `buf` (`none` when the call fails and `buf` stays as it was), and
the camera afterwards. -/
def GetPropertyPixelType (c : Camera) : Int × Option String × Camera :=
  let r := OnPixelType c.propPixelType .BeforeGet c
  let c1 := { r.cam with propPixelType := r.prop }
  if r.ret ≠ DEVICE_OK then (r.ret, none, c1) else (DEVICE_OK, some r.prop, c1)

/-- The allowed values of the PixelType property set in `Initialize`. -/
def pixelTypeValues : List String :=
  [g_PixelType_8bit, g_PixelType_16bit, g_PixelType_32bitRGB, g_PixelType_64bitRGB,
   g_PixelType_32bit]

/-- The call `SetProperty(MM::g_Keyword_PixelType, value)`. -/
def SetPropertyPixelType (value : String) (c : Camera) : Int × Camera :=
  if value ∈ pixelTypeValues then
    let r := OnPixelType value .AfterSet { c with propPixelType := value }
    (r.ret, { r.cam with propPixelType := r.prop })
  else (DEVICE_INVALID_PROPERTY_VALUE, c)

/-- The call `GetProperty(MM::g_Keyword_Binning, buf)`. -/
def GetPropertyBinning (c : Camera) : Int × Option Int × Camera :=
  let r := OnBinning c.propBinning .BeforeGet c
  let c1 := { r.cam with propBinning := r.prop }
  if r.ret ≠ DEVICE_OK then (r.ret, none, c1) else (DEVICE_OK, some r.prop, c1)

/-- The byte depth both `OnBitDepth` and `ResizeImageBuffer` associate with a
pixel type name that is not `8bit`; `dflt` is the value the variable was
initialised with. -/
def bytesOfPixelType (pixelType : String) (dflt : Nat) : Nat :=
  if pixelType = g_PixelType_16bit then 2
  else if pixelType = g_PixelType_32bitRGB then 4
  else if pixelType = g_PixelType_32bit then 4
  else if pixelType = g_PixelType_64bitRGB then 8
  else dflt

/-- The handler `CBaslerCamera::OnBitDepth`. -/
def OnBitDepth (pProp : Int) (eAct : ActionType) (c : Camera) : Handled Int :=
  let g := hubError c
  if g.1 then ⟨SIMULATED_ERROR, pProp, g.2⟩
  else
    match eAct with
    | .AfterSet =>
      if IsCapturing g.2 then ⟨DEVICE_CAMERA_BUSY_ACQUIRING, pProp, g.2⟩
      else
        let bitDepth := pProp
        -- the switch: bytes per component, stored depth, code, property value
        let sw : Nat × Int × Int × Int :=
          if bitDepth = 8 then (1, 8, DEVICE_OK, pProp)
          else if bitDepth = 10 then (2, 10, DEVICE_OK, pProp)
          else if bitDepth = 12 then (2, 12, DEVICE_OK, pProp)
          else if bitDepth = 14 then (2, 14, DEVICE_OK, pProp)
          else if bitDepth = 16 then (1, 8, DEVICE_OK, pProp)
          else if bitDepth = 32 then (4, 32, DEVICE_OK, pProp)
          else (1, 8, ERR_UNKNOWN_MODE, 8)
        let bytesPerComponent := sw.1
        let c1 := { g.2 with bitDepth_ := sw.2.1 }
        let gp := GetPropertyPixelType c1
        let pixelType := gp.2.1.getD gp.2.2.host.staleText
        let c2 := gp.2.2
        let r : Nat × Camera :=
          if pixelType = g_PixelType_8bit then
            if bytesPerComponent = 2 then
              (2, (SetPropertyPixelType g_PixelType_16bit c2).2)
            else if bytesPerComponent = 4 then
              (4, (SetPropertyPixelType g_PixelType_32bit c2).2)
            else (1, c2)
          else (bytesOfPixelType pixelType 1, c2)
        let c3 := r.2
        ⟨sw.2.2.1, sw.2.2.2,
          { c3 with img_ := c3.img_.Resize3 c3.img_.width c3.img_.height r.1 }⟩
    | .BeforeGet => ⟨DEVICE_OK, g.2.bitDepth_, g.2⟩
    | .NoAction => ⟨DEVICE_ERR, pProp, g.2⟩

/-- The handler `CBaslerCamera::OnCameraCCDXSize`. -/
def OnCameraCCDXSize (pProp : Int) (eAct : ActionType) (c : Camera) : Handled Int :=
  let g := hubError c
  if g.1 then ⟨SIMULATED_ERROR, pProp, g.2⟩
  else
    match eAct with
    | .BeforeGet => ⟨DEVICE_OK, g.2.cameraCCDXSize_, g.2⟩
    | .AfterSet =>
      let value := pProp
      if value < 16 ∨ 33000 < value then ⟨DEVICE_ERR, pProp, g.2⟩
      else if value ≠ g.2.cameraCCDXSize_ then
        let c1 := { g.2 with cameraCCDXSize_ := value }
        ⟨DEVICE_OK, pProp,
          { c1 with img_ := c1.img_.Resize (toUnsigned (Int.tdiv c1.cameraCCDXSize_ c1.binSize_))
                      (toUnsigned (Int.tdiv c1.cameraCCDYSize_ c1.binSize_)) }⟩
      else ⟨DEVICE_OK, pProp, g.2⟩
    | .NoAction => ⟨DEVICE_OK, pProp, g.2⟩

/-- The handler `CBaslerCamera::OnCameraCCDYSize`. -/
def OnCameraCCDYSize (pProp : Int) (eAct : ActionType) (c : Camera) : Handled Int :=
  let g := hubError c
  if g.1 then ⟨SIMULATED_ERROR, pProp, g.2⟩
  else
    match eAct with
    | .BeforeGet => ⟨DEVICE_OK, g.2.cameraCCDYSize_, g.2⟩
    | .AfterSet =>
      let value := pProp
      if value < 16 ∨ 33000 < value then ⟨DEVICE_ERR, pProp, g.2⟩
      else if value ≠ g.2.cameraCCDYSize_ then
        let c1 := { g.2 with cameraCCDYSize_ := value }
        ⟨DEVICE_OK, pProp,
          { c1 with img_ := c1.img_.Resize (toUnsigned (Int.tdiv c1.cameraCCDXSize_ c1.binSize_))
                      (toUnsigned (Int.tdiv c1.cameraCCDYSize_ c1.binSize_)) }⟩
      else ⟨DEVICE_OK, pProp, g.2⟩
    | .NoAction => ⟨DEVICE_OK, pProp, g.2⟩

/-! ## Region of interest -/

/-- The method `CBaslerCamera::ResizeImageBuffer`. -/
def ResizeImageBuffer (c : Camera) : Int × Camera :=
  let g := hubError c
  if g.1 then (SIMULATED_ERROR, g.2)
  else
    let gp := GetPropertyPixelType g.2
    if gp.1 ≠ DEVICE_OK then (gp.1, gp.2.2)
    else
      let pixelType := gp.2.1.getD gp.2.2.host.staleText
      let c1 := gp.2.2
      let byteDepth : Nat :=
        if pixelType = g_PixelType_8bit then 1 else bytesOfPixelType pixelType 0
      (DEVICE_OK,
        { c1 with img_ := c1.img_.Resize3 (toUnsigned (Int.tdiv c1.cameraCCDXSize_ c1.binSize_))
                    (toUnsigned (Int.tdiv c1.cameraCCDYSize_ c1.binSize_)) byteDepth })

/-- The method `CBaslerCamera::SetROI`. -/
def SetROI (x y xSize ySize : Nat) (c : Camera) : Int × Camera :=
  let g := hubError c
  if g.1 then (SIMULATED_ERROR, g.2)
  else if xSize = 0 ∧ ySize = 0 then
    let c1 := (ResizeImageBuffer g.2).2
    (DEVICE_OK, { c1 with roiX_ := 0, roiY_ := 0 })
  else
    (DEVICE_OK, { g.2 with img_ := g.2.img_.Resize xSize ySize, roiX_ := x, roiY_ := y })

/-- The method `CBaslerCamera::ClearROI`. -/
def ClearROI (c : Camera) : Int × Camera :=
  let g := hubError c
  if g.1 then (SIMULATED_ERROR, g.2)
  else
    let c1 := (ResizeImageBuffer g.2).2
    (DEVICE_OK, { c1 with roiX_ := 0, roiY_ := 0 })

/-! ## Exposure sequence operations -/

/-- The method `CBaslerCamera::ClearExposureSequence`. -/
def ClearExposureSequence (c : Camera) : Int × Camera :=
  (DEVICE_OK, { c with exposureSequence_ := [] })

/-- The method `CBaslerCamera::AddToExposureSequence`. -/
def AddToExposureSequence (exposureTime_ms : ℚ) (c : Camera) : Int × Camera :=
  (DEVICE_OK, { c with exposureSequence_ := c.exposureSequence_ ++ [exposureTime_ms] })

/-- The method `CBaslerCamera::StartExposureSequence`. -/
def StartExposureSequence (c : Camera) : Int × Camera :=
  (DEVICE_OK, { c with sequenceRunning_ := true })

/-- The method `CBaslerCamera::StopExposureSequence`. -/
def StopExposureSequence (c : Camera) : Int × Camera :=
  (DEVICE_OK, { c with sequenceRunning_ := false, sequenceIndex_ := 0 })

/-! ## Frame hand-off -/

/-- The core callback `InsertImage(this, pI, w, h, b, md, flag)`: the answer
of the core, recorded in the log. -/
def coreInsertImage (f : Frame) (flag : Bool) (c : Camera) : Int × Camera :=
  let result := c.host.sink c.host.sinkIx
  (result,
   ({ c with host := { c.host with sinkIx := c.host.sinkIx + 1 } }).emit (.push f flag result))

/-- The method `CBaslerCamera::InsertImage`. -/
def InsertImage (spin : Nat) (c : Camera) : Option (Int × Camera) :=
  let g := hubError c
  if g.1 then some (SIMULATED_ERROR, g.2)
  else
    let t := GetCurrentMMTime g.2
    let timeStamp := t.1
    let c1 := t.2
    let startTime := c1.sequenceStartTime_
    let elapsed := timeStamp - c1.sequenceStartTime_
    let roiX := c1.roiX_
    let roiY := c1.roiY_
    let c2 := { c1 with imageCounter_ := c1.imageCounter_ + 1 }
    let gb := GetPropertyBinning c2
    let md : Metadata := ⟨startTime, elapsed, roiX, roiY, gb.2.1⟩
    match GetImageBuffer spin gb.2.2 with
    | none => none
    | some (pI, c3) =>
      let w := GetImageWidth c3
      let h := GetImageHeight w.2
      let b := GetImageBytesPerPixel h.2
      let frame : Frame := ⟨pI, b.2.frameContent, w.1, h.1, b.1, md⟩
      let p := coreInsertImage frame true b.2
      if !p.2.stopOnOverflow_ ∧ p.1 = DEVICE_BUFFER_OVERFLOW then
        some (coreInsertImage frame false (p.2.emit .clearImageBuffer))
      else some p

/-! ## The capture step -/

/-- How a call made by the worker ends: it returns a code, or it raises. -/
inductive Outcome where
  | ret (code : Int)
  | cmmError (code : Int)
  | unknownException
  deriving DecidableEq, Repr

/-- The method `CBaslerCamera::GetCameraImage`: nothing for an empty buffer,
else one fetch into the buffer. -/
def GetCameraImage (c : Camera) : Fetch × Camera :=
  if c.img_.height = 0 ∨ c.img_.width = 0 ∨ c.img_.depth = 0 then (.done, c)
  else
    let f := c.host.fetch c.host.fetchIx
    let c1 := { c with host := { c.host with fetchIx := c.host.fetchIx + 1 } }
    match f with
    | .done => (.done, { c1 with frameContent := c1.frameContent + 1 })
    | e => (e, c1)

/-- The number of binary digits of `n`, the recursion bounded by `fuel`. -/
def bitLengthAux : Nat → Nat → Nat
  | 0, _ => 0
  | fuel + 1, n => if n = 0 then 0 else bitLengthAux fuel (n / 2) + 1

/-- The number of binary digits of `n`: 0 for 0, else the `b` with
`2^(b-1) <= n < 2^b`. -/
def bitLength (n : Nat) : Nat := bitLengthAux n n

/-- The integer nearest to `n / d`, a tie going to the even one. -/
def roundHalfEven (n d : Nat) : Nat :=
  if 2 * (n % d) < d then n / d
  else if d < 2 * (n % d) then n / d + 1
  else if (n / d) % 2 = 0 then n / d else n / d + 1

/-- A value of type `double` (IEEE 754 binary64), by what division and
comparison see of it: a finite value `significand * 2^exponent`, an infinity,
or a NaN. The sign of a zero is not kept: the zeros that occur as divisors
below come from an integer and are positive. -/
inductive Double where
  | finite (significand : Int) (exponent : Int)
  | posInf
  | negInf
  | nan
  deriving DecidableEq, Repr

/-- The double nearest to `num / den` (`den > 0`), a tie going to the even
significand: 53 significant bits, the exponent of the last bit not below -1074
(gradual underflow), an infinity from `2^1024` on. -/
def Double.ofRatio (num : Int) (den : Nat) : Double :=
  let n := num.natAbs
  if n = 0 then .finite 0 0
  else
    let k : Int := (bitLength n : Int) - (bitLength den : Int)
    let l : Int := if den * 2 ^ k.toNat ≤ n * 2 ^ (-k).toNat then k else k - 1
    let e : Int := max (l - 52) (-1074)
    let m := roundHalfEven (n * 2 ^ (-e).toNat) (den * 2 ^ e.toNat)
    if 971 < e ∨ (e = 971 ∧ m = 2 ^ 53) then (if 0 < num then .posInf else .negInf)
    else .finite (if 0 < num then (m : Int) else -(m : Int)) e

/-- Largest value of `long`. The type is taken as 32 bits wide, like
`unsigned long` in the image processors; `LONG_MIN` is `-LONG_MAX - 1`. -/
def LONG_MAX : Int := 2147483647

/-- The conversion of a `long` to `double`: exact below `2^53`, which covers
every `long`, and rounded to nearest from there on. -/
def Double.ofLong (z : Int) : Double :=
  if z.natAbs < 2 ^ 53 then .finite z 0 else Double.ofRatio z 1

/-- The division of two doubles: the double nearest to the exact quotient;
a non-zero value over zero is an infinity, zero over zero and infinity over
infinity are NaN. -/
def Double.div : Double → Double → Double
  | .nan, _ => .nan
  | _, .nan => .nan
  | .finite ma ea, .finite mb eb =>
    if mb = 0 then (if ma = 0 then .nan else if 0 < ma then .posInf else .negInf)
    else Double.ofRatio (ma * mb.sign * 2 ^ (ea - eb).toNat) (mb.natAbs * 2 ^ (eb - ea).toNat)
  | .finite _ _, _ => .finite 0 0
  | .posInf, .finite mb _ => if 0 ≤ mb then .posInf else .negInf
  | .negInf, .finite mb _ => if 0 ≤ mb then .negInf else .posInf
  | _, _ => .nan

/-- The comparison `a < x` of a double `a` with a finite double whose value
is `x`; a NaN is below nothing. -/
def Double.lt (a : Double) (x : ℚ) : Bool :=
  match a with
  | .finite m e => decide (m * 2 ^ e.toNat * (x.den : Int) < x.num * 2 ^ (-e).toNat)
  | .posInf => false
  | .negInf => true
  | .nan => false

/-- The call `getMsec()` on an interval of `us` microseconds: the interval
in milliseconds as a double, `us / 1000` rounded to nearest. (`MM::MMTime`
belongs to the device interface the adapter is built against.) -/
def getMsec (us : Int) : Double := Double.ofRatio us 1000

/-- The left side of the pacing test,
`(double) (now - startTime).getMsec() / imageCounter_`: the counter, a `long`,
is converted to `double` and the division is made on doubles. -/
def pacingQuotient (elapsedUs : Int) (imageCounter : Int) : Double :=
  Double.div (getMsec elapsedUs) (Double.ofLong imageCounter)

/-- The pacing test
`(double) (now - startTime).getMsec() / imageCounter_ < exposure`, on the
elapsed time in microseconds; `exposure` is the value of the double the
quotient is compared with. Division by a zero counter follows the
floating-point rules: the quotient is an infinity with the sign of the elapsed
time, or a NaN, and only the negative infinity is below the exposure. -/
def pacingBehind (elapsedUs : Int) (imageCounter : Int) (exposure : ℚ) : Bool :=
  Double.lt (pacingQuotient elapsedUs imageCounter) exposure

/-- The pacing loop of `ThreadRun`:
`while (elapsed / imageCounter_ < GetSequenceExposure()) SleepMs(1);`. -/
def pacingWait (startTime : Int) : Nat → Camera → Option Camera
  | 0, _ => none
  | spin + 1, c =>
    let t := GetCurrentMMTime c
    let e := GetSequenceExposure t.2
    if pacingBehind (t.1 - startTime) e.2.imageCounter_ e.1 then pacingWait startTime spin e.2
    else some e.2

/-- The trigger block of `ThreadRun`: with a trigger device named and found,
its Trigger property is pulsed. -/
def pulseTrigger (c : Camera) : Camera :=
  if c.triggerDevice_.length > 0 ∧ c.host.hasDevice c.triggerDevice_ then c.emit .trigger
  else c

/-- The fetch block of `ThreadRun`: `if (!fastImage_) GetCameraImage(img_)`. -/
def fetchUnlessFast (c : Camera) : Fetch × Camera :=
  if !c.fastImage_ then GetCameraImage c else (Fetch.done, c)

/-- The method `CBaslerCamera::ThreadRun`. -/
def ThreadRun (spin : Nat) (startTime : Int) (c : Camera) : Option (Outcome × Camera) :=
  let g := hubError (c.emit .threadRun)
  if g.1 then some (.ret SIMULATED_ERROR, g.2)
  else
    let f := fetchUnlessFast (pulseTrigger g.2)
    match f.1 with
    | .cmmError code => some (.cmmError code, f.2)
    | .unknownException => some (.unknownException, f.2)
    | .done =>
      match InsertImage spin f.2 with
      | none => none
      | some (ret, c2) =>
        match pacingWait startTime spin c2 with
        | none => none
        | some c3 => some (.ret ret, c3)

/-! ## The worker thread -/

/-- The method `MySequenceThread::Stop`. -/
def MySequenceThread.Stop (t : MySequenceThread) : MySequenceThread :=
  { t with stop_ := true }

/-- The method `MySequenceThread::IsStopped`. -/
def MySequenceThread.IsStopped (t : MySequenceThread) : Bool := t.stop_

/-- The method `MySequenceThread::Start`; `activate()` makes the worker
runnable, which the cleared `stop_` records. -/
def MySequenceThread.Start (numImages : Int) (intervalMs : ℚ) (c : Camera) : Camera :=
  let t := GetCurrentMMTime c
  { t.2 with thd_ :=
    { t.2.thd_ with
      numImages_ := numImages, intervalMs_ := intervalMs, imageCounter_ := 0,
      stop_ := false, suspend_ := false, actualDuration_ := 0,
      startTime_ := t.1, lastFrameTime_ := 0 } }

/-- One evaluation of `IsStopped()` by the worker: a `Stop()` the foreground
issued since the previous poll has set `stop_` first. -/
def pollIsStopped (c : Camera) : Bool × Camera :=
  let c1 := if c.host.stopReq c.host.pollIx then { c with thd_ := c.thd_.Stop } else c
  (c1.thd_.IsStopped, { c1 with host := { c1.host with pollIx := c1.host.pollIx + 1 } })

/-- The method `CBaslerCamera::OnThreadExiting`. -/
def OnThreadExiting (c : Camera) : Camera :=
  c.emit (.threadExiting c.thd_.IsStopped c.host.callbackRegistered)

/-- How the do-while loop of `svc` ends: its condition failed with this last
code, or an exception left it; `caughtOther` carries the code `ret` held. -/
inductive LoopEnd where
  | finished (ret : Int)
  | caughtCMM (code : Int)
  | caughtOther (ret : Int)
  deriving DecidableEq, Repr

/-- What one pass of the do-while loop of `svc` leads to: another pass, with
the code `ret` now holds, or the end of the loop. -/
inductive Pass where
  | again (ret : Int) (c : Camera)
  | leave (e : LoopEnd) (c : Camera)

/-- The subtraction `n - 1` on `long`, as in `numImages_-1`. For `n = LONG_MIN`
the difference is not a `long`: the language leaves the overflow undefined, and
two's-complement arithmetic wraps around to `LONG_MAX`, which is what the
model takes. For every other `long` the result is `n - 1`. -/
def longPred (n : Int) : Int :=
  if n - 1 < -LONG_MAX - 1 then n - 1 + 2 * (LONG_MAX + 1) else n - 1

/-- One pass of the do-while loop of `MySequenceThread::svc`, body and
condition: `do ret = ThreadRun(startTime_) while (DEVICE_OK == ret &&
!IsStopped() && imageCounter_++ < numImages_-1)`; `ret` is the code the
variable holds on entry. A counter that starts at 0 is below
`numImages_-1 <= LONG_MAX` on every pass that asks for another one, so its
increment stays in the range of `long` as long as the loop goes on; the
increment is taken on the integers (it could leave the range only on the pass
that ends the loop with the counter at `LONG_MAX`, after `2^31` passes). -/
def svcPass (spin : Nat) (ret : Int) (c : Camera) : Option Pass :=
  match ThreadRun spin c.thd_.startTime_ c with
  | none => none
  | some (.cmmError code, c1) => some (.leave (.caughtCMM code) c1)
  | some (.unknownException, c1) => some (.leave (.caughtOther ret) c1)
  | some (.ret r, c1) =>
    if r = DEVICE_OK then
      let p := pollIsStopped c1
      if !p.1 then
        let c2 := { p.2 with thd_ := { p.2.thd_ with imageCounter_ := p.2.thd_.imageCounter_ + 1 } }
        if p.2.thd_.imageCounter_ < longPred p.2.thd_.numImages_ then some (.again r c2)
        else some (.leave (.finished r) c2)
      else some (.leave (.finished r) p.2)
    else some (.leave (.finished r) c1)

/-- The do-while loop of `MySequenceThread::svc`; the first argument bounds
the number of passes. -/
def svcLoop (spin : Nat) : Nat → Int → Camera → Option (LoopEnd × Camera)
  | 0, _, _ => none
  | passes + 1, ret, c =>
    match svcPass spin ret c with
    | none => none
    | some (.again r c2) => svcLoop spin passes r c2
    | some (.leave e c1) => some (e, c1)

/-- The number of passes the loop of `svc` can make from this state: one, plus
one for each value of the counter still below `numImages_ - 1`. -/
def passBound (c : Camera) : Nat :=
  (longPred c.thd_.numImages_ - c.thd_.imageCounter_).toNat + 1

/-- The method `MySequenceThread::svc`. -/
def svc (spin : Nat) (c : Camera) : Option (Int × Camera) :=
  match svcLoop spin (passBound c) DEVICE_ERR c with
  | none => none
  | some (e, c1) =>
    let r : Int × Camera :=
      match e with
      | .finished ret =>
        let p := pollIsStopped c1
        (ret, if p.1 then p.2.emit .interrupted else p.2)
      | .caughtCMM code => (code, c1.emit .exceptionLogged)
      | .caughtOther ret => (ret, c1.emit .exceptionLogged)
    let c2 := { r.2 with thd_ := { r.2.thd_ with stop_ := true } }
    let t := GetCurrentMMTime c2
    let c3 := { t.2 with thd_ := { t.2.thd_ with actualDuration_ := t.1 - t.2.thd_.startTime_ } }
    some (r.1, OnThreadExiting c3)

/-! ## Starting and stopping a sequence -/

/-- The method `CBaslerCamera::StartSequenceAcquisition(numImages, interval_ms,
stopOnOverflow)`. -/
def StartSequenceAcquisition (numImages : Int) (interval_ms : ℚ) (stopOnOverflow : Bool)
    (c : Camera) : Int × Camera :=
  let g := hubError c
  if g.1 then (SIMULATED_ERROR, g.2)
  else if IsCapturing g.2 then (DEVICE_CAMERA_BUSY_ACQUIRING, g.2)
  else
    let ret := g.2.host.prepareForAcq
    if ret ≠ DEVICE_OK then (ret, g.2)
    else
      let t := GetCurrentMMTime g.2
      let c1 := { t.2 with sequenceStartTime_ := t.1, imageCounter_ := 0 }
      let c2 := MySequenceThread.Start numImages interval_ms c1
      (DEVICE_OK, { c2 with stopOnOverflow_ := stopOnOverflow })

/-- The method `CBaslerCamera::StopSequenceAcquisition`. The join `wait()`
returns when the worker has left `svc`; the worker is taken at the top of its
loop body. -/
def StopSequenceAcquisition (spin : Nat) (c : Camera) : Option (Int × Camera) :=
  let g := if c.host.callbackRegistered then hubError c else (false, c)
  if g.1 then some (SIMULATED_ERROR, g.2)
  else if !g.2.thd_.IsStopped then
    let c1 := { g.2 with thd_ := g.2.thd_.Stop }
    match svc spin c1 with
    | none => none
    | some (_, c2) => some (DEVICE_OK, c2)
  else some (DEVICE_OK, g.2)

/-! ## Sequence length, scan mode and allowed binning -/

/-- The method `CBaslerCamera::GetExposureSequenceMaxLength`: the code and the
value written to `nrEvents`. -/
def GetExposureSequenceMaxLength (c : Camera) : Int × Int :=
  (DEVICE_OK, c.sequenceMaxLength_)

/-- Code of the device base class for a notification sent while no core
callback is registered (`MMDeviceConstants.h`). -/
def DEVICE_NO_CALLBACK_REGISTERED : Int := 13

/-- The call `SetProperty(MM::g_Keyword_Binning, value)`; a property for which
no allowed values are published accepts any value. -/
def SetPropertyBinning (value : Int) (c : Camera) : Int × Camera :=
  if value ∈ c.allowedBinning ∨ c.allowedBinning = [] then
    let r := OnBinning value .AfterSet { c with propBinning := value }
    (r.ret, { r.cam with propBinning := r.prop })
  else (DEVICE_INVALID_PROPERTY_VALUE, c)

/-- The method `CBaslerCamera::SetAllowedBinning`. -/
def SetAllowedBinning (c : Camera) : Int × Camera :=
  let g := hubError c
  if g.1 then (SIMULATED_ERROR, g.2)
  else
    let binValues : List Int :=
      [1, 2] ++ (if g.2.scanMode_ < 3 then [4] else []) ++
        (if g.2.scanMode_ < 2 then [8] else [])
    let c1 :=
      if g.2.binSize_ = 8 ∧ g.2.scanMode_ = 3 then (SetPropertyBinning 2 g.2).2
      else if g.2.binSize_ = 8 ∧ g.2.scanMode_ = 2 then (SetPropertyBinning 4 g.2).2
      else if g.2.binSize_ = 4 ∧ g.2.scanMode_ = 3 then (SetPropertyBinning 2 g.2).2
      else g.2
    (DEVICE_OK, { c1 with allowedBinning := binValues })

/-- The call `OnPropertiesChanged()` of the device base class: the
notification reaches the core when a callback is registered. -/
def OnPropertiesChanged (c : Camera) : Int × Camera :=
  if c.host.callbackRegistered then (DEVICE_OK, c.emit .propertiesChanged)
  else (DEVICE_NO_CALLBACK_REGISTERED, c)

/-- The handler `CBaslerCamera::OnScanMode`. -/
def OnScanMode (pProp : Int) (eAct : ActionType) (c : Camera) : Handled Int :=
  let g := hubError c
  if g.1 then ⟨SIMULATED_ERROR, pProp, g.2⟩
  else
    match eAct with
    | .AfterSet =>
      let c1 := { g.2 with scanMode_ := pProp }
      let c2 := (SetAllowedBinning c1).2
      if c2.initialized_ then
        let r := OnPropertiesChanged c2
        if r.1 ≠ DEVICE_OK then ⟨r.1, pProp, r.2⟩ else ⟨DEVICE_OK, pProp, r.2⟩
      else ⟨DEVICE_OK, pProp, c2⟩
    | .BeforeGet => ⟨DEVICE_OK, g.2.scanMode_, g.2⟩
    | .NoAction => ⟨DEVICE_OK, pProp, g.2⟩

/-! ## Runs, logs and mutation sequences -/

/-- The operations on the exposure sequence: the four public methods and the
private reader `GetSequenceExposure`. -/
inductive SequenceOp where
  | add (exposureTime_ms : ℚ)
  | clear
  | get
  | start
  | stop

/-- Run one exposure-sequence operation. -/
def SequenceOp.run : SequenceOp → Camera → Camera
  | .add v, c => (AddToExposureSequence v c).2
  | .clear, c => (ClearExposureSequence c).2
  | .get, c => (GetSequenceExposure c).2
  | .start, c => (StartExposureSequence c).2
  | .stop, c => (StopExposureSequence c).2

/-- Run a list of exposure-sequence operations in order. -/
def runSequenceOps : List SequenceOp → Camera → Camera
  | [], c => c
  | op :: ops, c => runSequenceOps ops (op.run c)

/-- The cameras a run of the worker loop started at `c` has at the top of
the loop body: `c` itself, and the camera each pass that asks for another pass
ends with. -/
inductive LoopReaches (spin : Nat) (c : Camera) : Camera → Prop where
  | start : LoopReaches spin c c
  | next {ck c2 : Camera} {ret r : Int} :
      LoopReaches spin c ck → svcPass spin ret ck = some (.again r c2) →
      LoopReaches spin c c2

/-- Number of capture steps (entries of `ThreadRun`) in a log. -/
def captureSteps (log : List Event) : Nat := log.count .threadRun

/-- Whether an event is a callback `InsertImage` of the core. -/
def Event.isPush : Event → Bool
  | .push _ _ _ => true
  | _ => false

/-- Whether an event is a frame the core accepted. -/
def Event.isAccepted : Event → Bool
  | .push _ _ result => decide (result = DEVICE_OK)
  | _ => false

/-- Whether an event is a run of `OnThreadExiting`. -/
def Event.isExit : Event → Bool
  | .threadExiting _ _ => true
  | _ => false

/-- Number of frames the core accepted in a log. -/
def acceptedPushes (log : List Event) : Nat := log.countP Event.isAccepted

/-- Whether an event is the first push of a frame (processing flag `true`),
as opposed to the repeated push after an overflow. -/
def Event.isFirstPush : Event → Bool
  | .push _ flag _ => flag
  | _ => false

/-- Number of frames handed to the core in a log, repeated pushes not counted. -/
def framesPushed (log : List Event) : Nat := log.countP Event.isFirstPush

/-- Number of runs of `OnThreadExiting` in a log. -/
def exitHooks (log : List Event) : Nat := log.countP Event.isExit

/-- The format mutations: the two ROI methods and the `AfterSet` action of
the five property handlers, with the requested value. -/
inductive FormatOp where
  | setROI (x y xSize ySize : Nat)
  | clearROI
  | binning (value : Int)
  | pixelType (value : String)
  | bitDepth (value : Int)
  | ccdXSize (value : Int)
  | ccdYSize (value : Int)
  deriving DecidableEq, Repr

/-- Run one format mutation: its return code and the camera afterwards. -/
def FormatOp.run : FormatOp → Camera → Int × Camera
  | .setROI x y xSize ySize, c => SetROI x y xSize ySize c
  | .clearROI, c => ClearROI c
  | .binning v, c => let r := OnBinning v .AfterSet c; (r.ret, r.cam)
  | .pixelType v, c => let r := OnPixelType v .AfterSet c; (r.ret, r.cam)
  | .bitDepth v, c => let r := OnBitDepth v .AfterSet c; (r.ret, r.cam)
  | .ccdXSize v, c => let r := OnCameraCCDXSize v .AfterSet c; (r.ret, r.cam)
  | .ccdYSize v, c => let r := OnCameraCCDYSize v .AfterSet c; (r.ret, r.cam)

/-- Run a sequence of format mutations in order: the return codes and the
camera at the end. -/
def runAll : List FormatOp → Camera → List Int × Camera
  | [], c => ([], c)
  | op :: ops, c =>
    let r := op.run c
    let rest := runAll ops r.2
    (r.1 :: rest.1, rest.2)

/-! ## Concrete hosts and cameras -/

/-- A host whose clock advances by 10 ms per reading, whose core accepts
every frame, whose fetches complete, and in which nobody requests a stop. -/
def quietHost : Host :=
  { rand := fun _ => 0, randIx := 0,
    clock := fun k => 1000000 + 10000 * (k : Int), clockIx := 0,
    sink := fun _ => DEVICE_OK, sinkIx := 0,
    fetch := fun _ => .done, fetchIx := 0,
    stopReq := fun _ => false, pollIx := 0,
    prepareForAcq := DEVICE_OK, callbackRegistered := true,
    hasDevice := fun _ => false, wild := 0, staleText := "", log := [] }

/-- The worker as `MySequenceThread::MySequenceThread` builds it. -/
def idleThread : MySequenceThread :=
  { intervalMs_ := 100, numImages_ := 1, imageCounter_ := 0, stop_ := true,
    suspend_ := false, startTime_ := 0, actualDuration_ := 0, lastFrameTime_ := 0 }

/-- The camera as the constructor and `Initialize` leave it (2040 x 1088
sensor, one byte per pixel, exposure 2.5 ms), without a parent hub. -/
def idleCamera : Camera :=
  { hub := none, img_ := ⟨2040, 1088, 1⟩, initialized_ := true, readoutUs_ := 0,
    readoutStartTime_ := 0, scanMode_ := 1, bitDepth_ := 8, roiX_ := 0, roiY_ := 0,
    sequenceStartTime_ := 0, isSequenceable_ := false, sequenceMaxLength_ := 100,
    sequenceRunning_ := false, sequenceIndex_ := 0, exposureSequence_ := [],
    imageCounter_ := 0, binSize_ := 1, cameraCCDXSize_ := 2040, cameraCCDYSize_ := 1088,
    triggerDevice_ := "", stopOnOverflow_ := false, fastImage_ := false, nComponents_ := 1,
    frameContent := 0, propExposure := some (mkRat 5 2), propPixelType := g_PixelType_8bit,
    propBinning := 1, allowedBinning := [1, 2, 4, 8], thd_ := idleThread, host := quietHost }

/-- The initial camera on a host whose core reports an overflow at the first
push and accepts the second. -/
def overflowingCamera : Camera :=
  { idleCamera with
    host := { quietHost with sink := fun k => if k = 0 then DEVICE_BUFFER_OVERFLOW else DEVICE_OK } }

/-- The initial camera under a hub whose error rate is 1.0. -/
def faultyCamera : Camera := { idleCamera with hub := some ⟨1⟩ }

/-- The initial camera with the exposure list 5, 10, 15 loaded. -/
def sequencedCamera : Camera := { idleCamera with exposureSequence_ := [5, 10, 15] }

/-- The initial camera with a sequence in flight. -/
def runningCamera : Camera :=
  { idleCamera with thd_ := { idleThread with stop_ := false, numImages_ := 3 } }

/-- A camera with a sequence in flight and a 100 x 100 region of interest at
(5, 5). -/
def runningRoiCamera : Camera :=
  { runningCamera with img_ := ⟨100, 100, 1⟩, roiX_ := 5, roiY_ := 5 }

/-- The camera under a hub of error rate 1.0, with the exposure list 5, 10, 15
loaded and no core callback registered. -/
def faultySequencedCamera : Camera :=
  { faultyCamera with
    exposureSequence_ := [5, 10, 15], sequenceIndex_ := 2,
    host := { quietHost with callbackRegistered := false } }

/-- The initial camera with an exposure list of the maximum length 100. -/
def fullSequenceCamera : Camera :=
  { idleCamera with exposureSequence_ := List.replicate 100 5 }

/-- The initial camera in scan mode 3, whose published binning values are
1 and 2. -/
def scanMode3Camera : Camera :=
  { idleCamera with scanMode_ := 3, allowedBinning := [1, 2] }

/-- A camera with a 100 x 100 region of interest at (5, 5), under a hub of
error rate 0.5 whose first `rand()` is odd (no fault) and whose later ones are
even (fault). -/
def secondDrawFaultRoiCamera : Camera :=
  { idleCamera with
    hub := some ⟨mkRat 1 2⟩, img_ := ⟨100, 100, 1⟩, roiX_ := 5, roiY_ := 5,
    host := { quietHost with rand := fun k => if k = 0 then 1 else 0 } }

/-- The initial camera at binning 8 (buffer 255 x 136). -/
def binning8Camera : Camera :=
  { idleCamera with binSize_ := 8, propBinning := 8, img_ := ⟨255, 136, 1⟩ }

/-- The camera at binning 8 with a sequence in flight. -/
def binning8RunningCamera : Camera :=
  { binning8Camera with thd_ := { idleThread with stop_ := false, numImages_ := 3 } }

/-- The camera at binning 8 under a hub of error rate 0.5 whose first `rand()`
is odd (no fault) and whose later ones are even (fault). -/
def binning8SecondDrawFaultCamera : Camera :=
  { binning8Camera with
    hub := some ⟨mkRat 1 2⟩,
    host := { quietHost with rand := fun k => if k = 0 then 1 else 0 } }

/-! ## Relations and checkers used in the proofs -/

/-- The second camera is the first one up to the `rand()` and clock cursors
and the stored value of the Binning property. -/
def CursorsMoved (c c' : Camera) : Prop :=
  ∃ r k X, c' = { c with propBinning := X, host := { c.host with randIx := r, clockIx := k } }

/-- The second camera has the worker state, the stop requests and the callback
registration of the first, and its log is the log of the first followed by
`evs`. -/
def Logged (c c' : Camera) (evs : List Event) : Prop :=
  c'.thd_ = c.thd_ ∧ c'.host.log = c.host.log ++ evs ∧ c'.host.stopReq = c.host.stopReq ∧
  c'.host.pollIx = c.host.pollIx ∧ c'.host.callbackRegistered = c.host.callbackRegistered

/-- The camera a pass ends with. -/
def Pass.cam : Pass → Camera
  | .again _ c => c
  | .leave _ c => c

/-- The camera the next pass of the worker loop starts from, when there is
one. -/
def nextPass (spin : Nat) (c : Camera) : Option Camera :=
  match svcPass spin DEVICE_OK c with
  | some (.again _ c2) => some c2
  | _ => none

/-- Whether the capture step at this camera returns `DEVICE_OK` and the poll
after it sees no stop. -/
def stepOk (spin : Nat) (c : Camera) : Bool :=
  match ThreadRun spin c.thd_.startTime_ c with
  | some (.ret r, c1) => decide (r = DEVICE_OK) && !(pollIsStopped c1).1
  | _ => false

/-- Whether `stepOk` holds at this camera and at every camera obtained from it
by following `nextPass`, for at most `fuel` passes. -/
def chainOk (spin : Nat) : Nat → Camera → Bool
  | 0, _ => false
  | fuel + 1, c =>
    stepOk spin c &&
      (match nextPass spin c with
       | none => true
       | some c' => chainOk spin fuel c')

/-- Whether the fault injector triggers at the `k`-th consultation made from
this state on, counting from 0. -/
def hubErrorAt (c : Camera) (k : Nat) : Bool :=
  match c.hub with
  | none => false
  | some h => h.GenerateRandomError (c.host.rand (c.host.randIx + k))

/-- The fault injector triggers at none of the consultations made from this
state on. -/
def NoFaultAhead (c : Camera) : Prop := ∀ k, hubErrorAt c k = false

/-- The second camera has the hub and the `rand()` stream of the first, and
its `rand()` cursor is not before that of the first. -/
def Drawn (c c' : Camera) : Prop :=
  c'.hub = c.hub ∧ c'.host.rand = c.host.rand ∧ c.host.randIx ≤ c'.host.randIx

/-- The second camera has the buffer width and height, the sensor sizes, the
binning factor and the worker state of the first, and is `Drawn` from it. -/
def GeometryKept (c c' : Camera) : Prop :=
  c'.img_.width = c.img_.width ∧ c'.img_.height = c.img_.height ∧
  c'.cameraCCDXSize_ = c.cameraCCDXSize_ ∧ c'.cameraCCDYSize_ = c.cameraCCDYSize_ ∧
  c'.binSize_ = c.binSize_ ∧ c'.thd_ = c.thd_ ∧ Drawn c c'

/-- The type name the `BeforeGet` action of `OnPixelType` gives the property
when no fault interferes: a function of the bytes per pixel of the buffer, of
the component count and, for four bytes with an odd component count, of the
value held before. -/
def reportedPixelType (c : Camera) : String :=
  if c.img_.depth = 1 then g_PixelType_8bit
  else if c.img_.depth = 2 then g_PixelType_8bit
  else if c.img_.depth = 4 then
    if c.nComponents_ = 4 then g_PixelType_32bitRGB
    else if c.nComponents_ = 1 then g_PixelType_32bit
    else c.propPixelType
  else if c.img_.depth = 8 then g_PixelType_64bitRGB
  else g_PixelType_8bit

/-- The binning values `SetAllowedBinning` publishes for a scan mode. -/
def allowedBinningFor (scanMode : Int) : List Int :=
  [1, 2] ++ (if scanMode < 3 then [4] else []) ++ (if scanMode < 2 then [8] else [])

/-- The binning factor `SetAllowedBinning` leaves for a scan mode. -/
def clampedBinning (binSize scanMode : Int) : Int :=
  if binSize = 8 ∧ scanMode = 3 then 2
  else if binSize = 8 ∧ scanMode = 2 then 4
  else if binSize = 4 ∧ scanMode = 3 then 2
  else binSize

/-- The ROI size that counts as set after a format mutation that returned
`ret` from camera `c`, given the one that counted before. -/
def roiAfter (op : FormatOp) (ret : Int) (c : Camera) (roi : Option (Nat × Nat)) :
    Option (Nat × Nat) :=
  if ret ≠ DEVICE_OK then roi
  else
    match op with
    | .setROI _ _ xSize ySize => if xSize = 0 ∧ ySize = 0 then none else some (xSize, ySize)
    | .clearROI => none
    | .binning _ => none
    | .pixelType _ => roi
    | .bitDepth _ => roi
    | .ccdXSize v => if v ≠ c.cameraCCDXSize_ then none else roi
    | .ccdYSize v => if v ≠ c.cameraCCDYSize_ then none else roi

/-- The ROI size that counts as set after a sequence of format mutations. -/
def trackRoi : List FormatOp → Camera → Option (Nat × Nat) → Option (Nat × Nat)
  | [], _, roi => roi
  | op :: ops, c, roi => trackRoi ops (op.run c).2 (roiAfter op (op.run c).1 c roi)

/-- The buffer width and height the geometry rule gives. -/
def expectedGeometry (c : Camera) (roi : Option (Nat × Nat)) : Nat × Nat :=
  match roi with
  | some size => size
  | none => (toUnsigned (Int.tdiv c.cameraCCDXSize_ c.binSize_),
             toUnsigned (Int.tdiv c.cameraCCDYSize_ c.binSize_))

/-- The buffer has the width and height the geometry rule gives. -/
def GeometryInvariant (c : Camera) (roi : Option (Nat × Nat)) : Prop :=
  (c.img_.width, c.img_.height) = expectedGeometry c roi

/-- A camera in the 16-bit format at bit depth 12. -/
def depth12Camera : Camera :=
  { idleCamera with
    img_ := ⟨2040, 1088, 2⟩, bitDepth_ := 12, propPixelType := g_PixelType_16bit }

/-- A camera in the RGB format (4 components, 4 bytes per pixel). -/
def rgbCamera : Camera :=
  { idleCamera with
    img_ := ⟨2040, 1088, 4⟩, nComponents_ := 4, propPixelType := g_PixelType_32bitRGB }

/-- The polls of the pacing loop of `ThreadRun` that find the run ahead of its
pace and lead to another poll: `PacingPolls startTime c ck` holds when the
loop entered at `c` is at the top of a poll at `ck`. -/
inductive PacingPolls (startTime : Int) : Camera → Camera → Prop where
  | here (c : Camera) : PacingPolls startTime c c
  | behind {c ck : Camera} :
      pacingBehind ((GetCurrentMMTime c).1 - startTime)
        (GetSequenceExposure (GetCurrentMMTime c).2).2.imageCounter_
        (GetSequenceExposure (GetCurrentMMTime c).2).1 = true →
      PacingPolls startTime (GetSequenceExposure (GetCurrentMMTime c).2).2 ck →
      PacingPolls startTime c ck

/-- The initial camera with the exposure list 35, 50, 20 loaded. -/
def pacedSequenceCamera : Camera := { idleCamera with exposureSequence_ := [35, 50, 20] }

/-- The camera with the `intervalMs_` field of its worker replaced. -/
def Camera.withInterval (x : ℚ) (c : Camera) : Camera :=
  { c with thd_ := { c.thd_ with intervalMs_ := x } }

/-- A pass of the worker loop with the `intervalMs_` field replaced in the
camera it carries. -/
def Pass.withInterval (x : ℚ) : Pass → Pass
  | .again r c => .again r (c.withInterval x)
  | .leave e c => .leave e (c.withInterval x)

/-! ## Image processors

`MedianFilter::Filter` and `TransposeProcessor::TransposeRectangleOutOfPlace`
work on a pixel buffer and a scratch block. A buffer is the list of its
elements, which are natural numbers for every pixel type; an access outside a
buffer is undefined behaviour and makes the call yield `none`. -/

/-- Modulus of `unsigned long` arithmetic. The type is taken as 32 bits wide,
as in the data model of the toolchain the adapter is written for (`Process`
selects the 4-byte pixel with `sizeof(unsigned long)`); below `2^31` a 64-bit
`unsigned long` gives the same values. -/
def ULONG_MOD : Nat := 4294967296

/-- Conversion of an `unsigned` to `int` (32 bits, two's complement). -/
def toInt32 (n : Nat) : Int :=
  if n % 4294967296 < 2147483648 then ((n % 4294967296 : Nat) : Int)
  else ((n % 4294967296 : Nat) : Int) - 4294967296

/-- What the C library hands to one call of an image processor: whether
`malloc` succeeds, and the values found in a block before it is written. -/
structure Heap where
  mallocOk : Bool
  stale : Nat → Nat

/-- The fields of `MedianFilter` that `Filter` uses: the scratch block
(`none` is the null pointer, otherwise its capacity in bytes) and the size
recorded for it. -/
structure MedianFilter where
  pSmoothedIm_ : Option Nat
  sizeOfSmoothedIm_ : Nat
  deriving DecidableEq, Repr

/-- The method `MedianFilter::FindMedian`: sort, then `values[size >> 1]`. -/
def MedianFilter.FindMedian (values : List Nat) : Option Nat :=
  (values.insertionSort (· ≤ ·))[values.length >>> 1]?

/-- The offsets with which `Filter` fills `x[0..8]` and `y[0..8]`. -/
def windowOffsets : List (Int × Int) :=
  [(-1, -1), (0, -1), (1, -1), (-1, 0), (0, 0), (1, 0), (-1, 1), (0, 1), (1, 1)]

/-- The truncation of a window coordinate in `Filter`:
`if (v < 0) v = 0; else if (int(size-1) < v) v = int(size-1);`. -/
def clampWindow (v : Int) (size : Nat) : Int :=
  if v < 0 then 0
  else if toInt32 (toUnsigned ((size : Int) - 1)) < v then toInt32 (toUnsigned ((size : Int) - 1))
  else v

/-- The loop of `Filter` that fills the window: for each offset the
coordinates `x = i + dx`, `y = j + dy` are computed in `unsigned`, stored as
`int`, truncated, and `pI[x + width*y]` is pushed. A read outside `pI` gives
`none`. -/
def MedianFilter.readWindow (pI : List Nat) (width height i j : Nat) :
    List (Int × Int) → Option (List Nat)
  | [] => some []
  | d :: ds =>
    let x := clampWindow (toInt32 (toUnsigned ((i : Int) + d.1))) width
    let y := clampWindow (toInt32 (toUnsigned ((j : Int) + d.2))) height
    match pI[(toUnsigned x + width * toUnsigned y) % 4294967296]? with
    | none => none
    | some v => (MedianFilter.readWindow pI width height i j ds).map (fun vs => v :: vs)

/-- The body of the two loops of `Filter` for one pixel:
`pSmooth[i + j*width] = FindMedian(windo)`. A write outside `pSmooth` gives
`none`. -/
def MedianFilter.filterPixel (pI : List Nat) (width height i j : Nat) (pSmooth : List Nat) :
    Option (List Nat) :=
  match MedianFilter.readWindow pI width height i j windowOffsets with
  | none => none
  | some windo =>
    match MedianFilter.FindMedian windo with
    | none => none
    | some m =>
      if (i + j * width) % 4294967296 < pSmooth.length then
        some (pSmooth.set ((i + j * width) % 4294967296) m)
      else none

/-- The method `MedianFilter::Filter` on a buffer of elements of `elemSize`
bytes: the code, the buffer afterwards and the filter afterwards; `none` when
an access falls outside a buffer. -/
def MedianFilter.Filter (elemSize : Nat) (heap : Heap) (pI : List Nat) (width height : Nat)
    (m : MedianFilter) : Option (Int × List Nat × MedianFilter) :=
  let thisSize := (elemSize * width * height) % ULONG_MOD
  let m1 : MedianFilter :=
    if thisSize ≠ m.sizeOfSmoothedIm_ then
      let m0 : MedianFilter :=
        if m.pSmoothedIm_.isSome then { m with sizeOfSmoothedIm_ := 0 } else m
      if heap.mallocOk then { pSmoothedIm_ := some thisSize, sizeOfSmoothedIm_ := thisSize }
      else { m0 with pSmoothedIm_ := none }
    else m
  match m1.pSmoothedIm_ with
  | none => some (DEVICE_ERR, pI, m1)
  | some capacity =>
    let pSmooth := (List.range (capacity / elemSize)).map heap.stale
    match (List.range width).foldlM (fun s i =>
        (List.range height).foldlM (fun s j => MedianFilter.filterPixel pI width height i j s) s)
        pSmooth with
    | none => none
    | some smoothed =>
      if thisSize / elemSize ≤ smoothed.length ∧ thisSize / elemSize ≤ pI.length then
        some (DEVICE_OK, smoothed.take (thisSize / elemSize) ++ pI.drop (thisSize / elemSize), m1)
      else none

/-- The fields of `TransposeProcessor` that `TransposeRectangleOutOfPlace`
uses: the scratch block (`none` is the null pointer, otherwise its capacity in
bytes) and the size recorded for it. -/
structure TransposeProcessor where
  pTemp_ : Option Nat
  tempSize_ : Nat
  deriving DecidableEq, Repr

/-- The body of the two loops of `TransposeRectangleOutOfPlace`:
`pTmpImage[iy + ix*width] = pI[ix + iy*height]`, the indices computed in
`unsigned long`. An access outside a buffer gives `none`. -/
def TransposeProcessor.copyElement (pI : List Nat) (width height ix iy : Nat)
    (pTmpImage : List Nat) : Option (List Nat) :=
  match pI[(ix + iy * height) % ULONG_MOD]? with
  | none => none
  | some v =>
    if (iy + ix * width) % ULONG_MOD < pTmpImage.length then
      some (pTmpImage.set ((iy + ix * width) % ULONG_MOD) v)
    else none

/-- The method `TransposeProcessor::TransposeRectangleOutOfPlace` on a buffer
of elements of `elemSize` bytes: the code, the buffer afterwards and the
processor afterwards; `none` when an access falls outside a buffer. -/
def TransposeProcessor.TransposeRectangleOutOfPlace (elemSize : Nat) (heap : Heap)
    (pI : List Nat) (width height : Nat) (p : TransposeProcessor) :
    Option (Int × List Nat × TransposeProcessor) :=
  let tsize := ((width * height) % 4294967296 * elemSize) % ULONG_MOD
  let p1 : TransposeProcessor :=
    if p.tempSize_ ≠ tsize then
      { p with pTemp_ := if heap.mallocOk then some tsize else none }
    else p
  match p1.pTemp_ with
  | none => some (DEVICE_ERR, pI, p1)
  | some capacity =>
    let pTmpImage := (List.range (capacity / elemSize)).map heap.stale
    let p2 : TransposeProcessor := { p1 with tempSize_ := tsize }
    match (List.range width).foldlM (fun s ix =>
        (List.range height).foldlM
          (fun s iy => TransposeProcessor.copyElement pI width height ix iy s) s)
        pTmpImage with
    | none => none
    | some filled =>
      if tsize / elemSize ≤ filled.length ∧ tsize / elemSize ≤ pI.length then
        some (DEVICE_OK, filled.take (tsize / elemSize) ++ pI.drop (tsize / elemSize), p2)
      else none

/-- A heap on which `malloc` succeeds and fresh blocks hold the value 99. -/
def quietHeap : Heap := { mallocOk := true, stale := fun _ => 99 }

/-- The median filter as constructed. -/
def newMedianFilter : MedianFilter := { pSmoothedIm_ := none, sizeOfSmoothedIm_ := 0 }

/-- The transpose processor as constructed. -/
def newTransposeProcessor : TransposeProcessor := { pTemp_ := none, tempSize_ := 0 }

/-- The coordinate `v` brought into `0 .. size - 1`. -/
def clampCoordinate (v : Int) (size : Nat) : Nat :=
  if v < 0 then 0 else if (size : Int) - 1 < v then size - 1 else v.toNat

/-- The nine values of the 3 x 3 neighbourhood of pixel `(i, j)` in a
`width`-wide image, edge pixels duplicated. -/
def neighbourhood (img : List Nat) (width height i j : Nat) : List Nat :=
  windowOffsets.map (fun d =>
    img.getD (clampCoordinate ((i : Int) + d.1) width +
      width * clampCoordinate ((j : Int) + d.2) height) 0)

/-- The fifth smallest of a list of values: the element at position 4 of the
list in ascending order. -/
def fifthSmallest (values : List Nat) : Nat :=
  (values.insertionSort (· ≤ ·)).getD 4 0

/-- The image with its columns and rows exchanged: the element at column `x`
of row `y` of the `width`-wide image is at column `y` of row `x` of the
`height`-wide result. -/
def transposed (img : List Nat) (width height : Nat) : List Nat :=
  (List.range (width * height)).map (fun k => img.getD (k / height + (k % height) * width) 0)

/-! ## Rational and floating-point computations -/

/-- The divisor of the fault injector is the reciprocal of the error rate
truncated toward zero: the reciprocal is the denominator over the numerator. -/
theorem errorDivisor_reciprocal (rate : ℚ) :
    1 / rate = ((rate.den : Int) : ℚ) / (rate.num : ℚ) ∧
    errorDivisor rate = Int.tdiv (rate.den : Int) rate.num := by
  refine ⟨?_, rfl⟩
  rw [one_div, Rat.inv_def', Rat.divInt_eq_div]

/-- The quotient of the pacing test at some inputs: 2135 us over 5 frames is
the double 0.42699999999999994, below the double nearest to 0.427, so that
poll finds the run behind; 1234567 us over 7 frames; 20 ms over one frame;
and the quotients by a zero counter. -/
theorem pacingQuotient_examples :
    pacingQuotient 2135 5 = .finite 7692148163548806 (-54) ∧
    pacingBehind 2135 5 (mkRat 7692148163548807 18014398509481984) = true ∧
    pacingQuotient 1234567 7 = .finite 6205352099513294 (-45) ∧
    pacingQuotient 20000 1 = .finite 5629499534213120 (-48) ∧
    pacingBehind 20000 1 35 = true ∧ pacingBehind 40000 1 20 = false ∧
    pacingQuotient 5 0 = .posInf ∧ pacingQuotient (-5) 0 = .negInf ∧
    pacingQuotient 0 0 = .nan ∧ pacingBehind 0 0 1 = false := by
  decide

theorem GetExposure_sequence_fields (c : Camera) :
    (GetExposure c).2.exposureSequence_ = c.exposureSequence_ ∧
    (GetExposure c).2.sequenceIndex_ = c.sequenceIndex_ ∧
    (GetExposure c).2.propExposure = c.propExposure ∧
    (GetExposure c).2.hub = c.hub := by
  unfold GetExposure
  dsimp only
  split
  · exact ⟨rfl, rfl, rfl, rfl⟩
  · split <;> exact ⟨rfl, rfl, rfl, rfl⟩

theorem GetSequenceExposure_nonempty (c : Camera) (h : c.exposureSequence_ ≠ []) :
    (GetSequenceExposure c).1 = c.exposureSequence_.getD c.sequenceIndex_ c.host.wild ∧
    (GetSequenceExposure c).2.exposureSequence_ = c.exposureSequence_ ∧
    (GetSequenceExposure c).2.sequenceIndex_ =
      (if c.sequenceIndex_ + 1 ≥ c.exposureSequence_.length then 0 else c.sequenceIndex_ + 1) := by
  have hlen : ¬ c.exposureSequence_.length = 0 := by
    simpa [List.length_eq_zero] using h
  unfold GetSequenceExposure
  rw [if_neg hlen]
  dsimp only
  by_cases hge : c.sequenceIndex_ + 1 ≥ c.exposureSequence_.length
  · rw [if_pos hge, if_pos hge]
    exact ⟨rfl, rfl, rfl⟩
  · rw [if_neg hge, if_neg hge]
    exact ⟨rfl, rfl, rfl⟩

theorem afterSequenceCalls_nonempty (k : Nat) :
    ∀ c : Camera, c.exposureSequence_ ≠ [] → c.sequenceIndex_ < c.exposureSequence_.length →
      (afterSequenceCalls k c).exposureSequence_ = c.exposureSequence_ ∧
      (afterSequenceCalls k c).sequenceIndex_ =
        (c.sequenceIndex_ + k) % c.exposureSequence_.length := by
  induction k with
  | zero =>
    intro c _ hi
    exact ⟨rfl, by simp [afterSequenceCalls, Nat.mod_eq_of_lt hi]⟩
  | succ k ih =>
    intro c hne hi
    obtain ⟨_, hl, hx⟩ := GetSequenceExposure_nonempty c hne
    have hi2 : (GetSequenceExposure c).2.sequenceIndex_ <
        (GetSequenceExposure c).2.exposureSequence_.length := by
      rw [hl, hx]; split <;> omega
    obtain ⟨h1, h2⟩ := ih (GetSequenceExposure c).2 (by rw [hl]; exact hne) hi2
    refine ⟨by simp only [afterSequenceCalls]; rw [h1, hl], ?_⟩
    simp only [afterSequenceCalls]
    rw [h2, hl, hx]
    split
    · have : c.sequenceIndex_ + 1 = c.exposureSequence_.length := by omega
      rw [show c.sequenceIndex_ + (k + 1) = c.exposureSequence_.length + k by omega]
      simp
    · congr 1; omega

theorem afterSequenceCalls_empty (k : Nat) :
    ∀ c : Camera, c.exposureSequence_ = [] →
      (afterSequenceCalls k c).exposureSequence_ = [] ∧
      (afterSequenceCalls k c).sequenceIndex_ = c.sequenceIndex_ ∧
      (afterSequenceCalls k c).propExposure = c.propExposure := by
  induction k with
  | zero => intro c h; exact ⟨h, rfl, rfl⟩
  | succ k ih =>
    intro c h
    have hg : GetSequenceExposure c = GetExposure c := by
      unfold GetSequenceExposure; simp [h]
    obtain ⟨f1, f2, f3, _⟩ := GetExposure_sequence_fields c
    obtain ⟨h1, h2, h3⟩ := ih (GetExposure c).2 (by rw [f1]; exact h)
    simp only [afterSequenceCalls, hg]
    exact ⟨h1, by rw [h2, f2], by rw [h3, f3]⟩

/-- C1, counterexample: with an empty exposure list, a static exposure of
2.5 ms and a hub whose error rate is 1.0, `GetSequenceExposure` returns 200
(the fault code), not the static exposure value. -/
theorem C1_counterexample :
    faultyCamera.exposureSequence_ = [] ∧ faultyCamera.propExposure = some (mkRat 5 2) ∧
    (GetSequenceExposure faultyCamera).1 = 200 ∧
    (GetSequenceExposure faultyCamera).1 ≠ mkRat 5 2 := by
  decide

/-- C1, as amended: from cursor 0 with a non-empty exposure list, the k-th call
(counting from 0) of `GetSequenceExposure` returns the entry at position
`k mod length`; with an empty list every call returns what `GetExposure`
returns, which is the static exposure value whenever the fault injector does
not trigger, and leaves the cursor unchanged. -/
theorem C1_sequence_exposure_wraps (c : Camera) (k : Nat) :
    (c.exposureSequence_ ≠ [] → c.sequenceIndex_ = 0 →
      c.exposureSequence_[k % c.exposureSequence_.length]? =
        some (GetSequenceExposure (afterSequenceCalls k c)).1) ∧
    (c.exposureSequence_ = [] →
      (GetSequenceExposure (afterSequenceCalls k c)).1 =
        (GetExposure (afterSequenceCalls k c)).1 ∧
      (GetSequenceExposure (afterSequenceCalls k c)).2.sequenceIndex_ = c.sequenceIndex_ ∧
      ((hubError (afterSequenceCalls k c)).1 = false →
        (GetSequenceExposure (afterSequenceCalls k c)).1 = c.propExposure.getD 0)) := by
  constructor
  · intro hne h0
    have hpos : 0 < c.exposureSequence_.length := List.length_pos.mpr hne
    obtain ⟨h1, h2⟩ := afterSequenceCalls_nonempty k c hne (by omega)
    obtain ⟨g1, _, _⟩ :=
      GetSequenceExposure_nonempty (afterSequenceCalls k c) (by rw [h1]; exact hne)
    rw [g1, h1, h2, h0, Nat.zero_add]
    have hlt : k % c.exposureSequence_.length < c.exposureSequence_.length :=
      Nat.mod_lt _ hpos
    rw [List.getD_eq_getElem _ _ hlt, List.getElem?_eq_getElem hlt]
  · intro he
    obtain ⟨h1, h2, h3⟩ := afterSequenceCalls_empty k c he
    have hg : GetSequenceExposure (afterSequenceCalls k c) =
        GetExposure (afterSequenceCalls k c) := by
      unfold GetSequenceExposure; simp [h1]
    obtain ⟨_, f2, _, _⟩ := GetExposure_sequence_fields (afterSequenceCalls k c)
    refine ⟨by rw [hg], by rw [hg, f2, h2], ?_⟩
    intro hf
    rw [hg]
    unfold GetExposure
    simp only [hf, Bool.false_eq_true, if_false]
    have hp : (hubError (afterSequenceCalls k c)).2.propExposure = c.propExposure := h3
    rw [hp]
    cases c.propExposure <;> rfl

/-- C1, witness: the list 5, 10, 15 played from cursor 0 yields 10 at call 4,
and the initial camera (empty list, no hub) yields its static exposure. -/
theorem C1_sequence_exposure_wraps_witness :
    ([5, 10, 15] : List ℚ)[4 % 3]? =
      some (GetSequenceExposure (afterSequenceCalls 4 sequencedCamera)).1 ∧
    (GetSequenceExposure (afterSequenceCalls 2 idleCamera)).1 = mkRat 5 2 :=
  ⟨(C1_sequence_exposure_wraps sequencedCamera 4).1 (by decide) (by decide),
   ((C1_sequence_exposure_wraps idleCamera 2).2 (by decide)).2.2 (by decide)⟩

/-! ## Busy rejection -/

/-- C3: when the fault injector does not trigger, `StartSequenceAcquisition`
on a camera whose sequence is running returns `DEVICE_CAMERA_BUSY_ACQUIRING`
and leaves the camera frame counter, the sequence start timestamp, the whole
worker state (frame counter, frame count, start time, stop flag) and the
overflow policy unchanged. -/
theorem C3_start_while_running_is_busy (c : Camera) (numImages : Int) (interval_ms : ℚ)
    (stopOnOverflow : Bool) (hfault : (hubError c).1 = false) (hrun : IsCapturing c = true) :
    (StartSequenceAcquisition numImages interval_ms stopOnOverflow c).1 =
      DEVICE_CAMERA_BUSY_ACQUIRING ∧
    (StartSequenceAcquisition numImages interval_ms stopOnOverflow c).2.imageCounter_ =
      c.imageCounter_ ∧
    (StartSequenceAcquisition numImages interval_ms stopOnOverflow c).2.sequenceStartTime_ =
      c.sequenceStartTime_ ∧
    (StartSequenceAcquisition numImages interval_ms stopOnOverflow c).2.thd_ = c.thd_ ∧
    (StartSequenceAcquisition numImages interval_ms stopOnOverflow c).2.stopOnOverflow_ =
      c.stopOnOverflow_ := by
  have hrun2 : IsCapturing (hubError c).2 = true := hrun
  unfold StartSequenceAcquisition
  dsimp only
  rw [if_neg (by simp [hfault]), if_pos hrun2]
  exact ⟨rfl, rfl, rfl, rfl, rfl⟩

/-- C3, witness: the running camera refuses a second start. -/
theorem C3_start_while_running_is_busy_witness :
    (StartSequenceAcquisition 5 100 true runningCamera).1 = DEVICE_CAMERA_BUSY_ACQUIRING ∧
    (StartSequenceAcquisition 5 100 true runningCamera).2.thd_ = runningCamera.thd_ :=
  have h := C3_start_while_running_is_busy runningCamera 5 100 true (by decide) (by decide)
  ⟨h.1, h.2.2.2.1⟩

/-- C5: while a sequence is running and the fault injector does not trigger,
the `AfterSet` action of `OnBinning`, `OnPixelType` and `OnBitDepth` returns
`DEVICE_CAMERA_BUSY_ACQUIRING` for every requested value and leaves the buffer
geometry, the binning factor, the component count and the bit depth
unchanged. -/
theorem C5_format_set_while_running_is_busy (c : Camera) (binFactor bitDepth : Int)
    (pixelType : String) (hfault : (hubError c).1 = false) (hrun : IsCapturing c = true) :
    ((OnBinning binFactor .AfterSet c).ret = DEVICE_CAMERA_BUSY_ACQUIRING ∧
      (OnBinning binFactor .AfterSet c).cam.img_ = c.img_ ∧
      (OnBinning binFactor .AfterSet c).cam.binSize_ = c.binSize_ ∧
      (OnBinning binFactor .AfterSet c).cam.nComponents_ = c.nComponents_ ∧
      (OnBinning binFactor .AfterSet c).cam.bitDepth_ = c.bitDepth_) ∧
    ((OnPixelType pixelType .AfterSet c).ret = DEVICE_CAMERA_BUSY_ACQUIRING ∧
      (OnPixelType pixelType .AfterSet c).cam.img_ = c.img_ ∧
      (OnPixelType pixelType .AfterSet c).cam.binSize_ = c.binSize_ ∧
      (OnPixelType pixelType .AfterSet c).cam.nComponents_ = c.nComponents_ ∧
      (OnPixelType pixelType .AfterSet c).cam.bitDepth_ = c.bitDepth_) ∧
    ((OnBitDepth bitDepth .AfterSet c).ret = DEVICE_CAMERA_BUSY_ACQUIRING ∧
      (OnBitDepth bitDepth .AfterSet c).cam.img_ = c.img_ ∧
      (OnBitDepth bitDepth .AfterSet c).cam.binSize_ = c.binSize_ ∧
      (OnBitDepth bitDepth .AfterSet c).cam.nComponents_ = c.nComponents_ ∧
      (OnBitDepth bitDepth .AfterSet c).cam.bitDepth_ = c.bitDepth_) := by
  have hrun2 : IsCapturing (hubError c).2 = true := hrun
  have hne : ¬ (hubError c).1 = true := by simp [hfault]
  refine ⟨?_, ?_, ?_⟩
  · unfold OnBinning
    dsimp only
    rw [if_neg hne, if_pos hrun2]
    exact ⟨rfl, rfl, rfl, rfl, rfl⟩
  · unfold OnPixelType
    dsimp only
    rw [if_neg hne, if_pos hrun2]
    exact ⟨rfl, rfl, rfl, rfl, rfl⟩
  · unfold OnBitDepth
    dsimp only
    rw [if_neg hne, if_pos hrun2]
    exact ⟨rfl, rfl, rfl, rfl, rfl⟩

/-- C5, witness: the running camera refuses binning 2, pixel type 16bit and
bit depth 12. -/
theorem C5_format_set_while_running_is_busy_witness :
    (OnBinning 2 .AfterSet runningCamera).ret = DEVICE_CAMERA_BUSY_ACQUIRING ∧
    (OnPixelType g_PixelType_16bit .AfterSet runningCamera).cam.img_ = runningCamera.img_ ∧
    (OnBitDepth 12 .AfterSet runningCamera).cam.bitDepth_ = runningCamera.bitDepth_ :=
  have h := C5_format_set_while_running_is_busy runningCamera 2 12 g_PixelType_16bit
    (by decide) (by decide)
  ⟨h.1.1, h.2.1.2.1, h.2.2.2.2.2.2⟩

/-- C6, the code at a failing input: on a camera whose sequence is running,
`SetROI`, `ClearROI` and the `AfterSet` action of `OnCameraCCDXSize` and
`OnCameraCCDYSize` all return `DEVICE_OK` and resize the frame buffer. -/
theorem C6_geometry_set_while_running :
    IsCapturing runningRoiCamera = true ∧
    (SetROI 0 0 10 10 runningRoiCamera).1 = DEVICE_OK ∧
    (SetROI 0 0 10 10 runningRoiCamera).2.img_ = ⟨10, 10, 1⟩ ∧
    (ClearROI runningRoiCamera).1 = DEVICE_OK ∧
    (ClearROI runningRoiCamera).2.img_ = ⟨2040, 1088, 1⟩ ∧
    (OnCameraCCDXSize 1000 .AfterSet runningRoiCamera).ret = DEVICE_OK ∧
    (OnCameraCCDXSize 1000 .AfterSet runningRoiCamera).cam.img_ = ⟨1000, 1088, 1⟩ ∧
    (OnCameraCCDYSize 500 .AfterSet runningRoiCamera).ret = DEVICE_OK ∧
    (OnCameraCCDYSize 500 .AfterSet runningRoiCamera).cam.img_ = ⟨2040, 500, 1⟩ := by
  decide

/-! ## Fault injection -/

theorem hubError_rate_one (c : Camera) (hb : DemoHub) (h : c.hub = some hb)
    (hr : hb.errorRate_ = 1) : (hubError c).1 = true := by
  unfold hubError
  simp [h, DemoHub.GenerateRandomError, hr, errorDivisor]

theorem FormatOp.run_fault (op : FormatOp) (c : Camera) (h : (hubError c).1 = true) :
    op.run c = (SIMULATED_ERROR, (hubError c).2) := by
  cases op with
  | setROI x y xSize ySize => unfold FormatOp.run SetROI; dsimp only; rw [if_pos h]
  | clearROI => unfold FormatOp.run ClearROI; dsimp only; rw [if_pos h]
  | binning v => unfold FormatOp.run OnBinning; dsimp only; rw [if_pos h]
  | pixelType v => unfold FormatOp.run OnPixelType; dsimp only; rw [if_pos h]
  | bitDepth v => unfold FormatOp.run OnBitDepth; dsimp only; rw [if_pos h]
  | ccdXSize v => unfold FormatOp.run OnCameraCCDXSize; dsimp only; rw [if_pos h]
  | ccdYSize v => unfold FormatOp.run OnCameraCCDYSize; dsimp only; rw [if_pos h]

/-- C7: under a parent hub whose error rate is 1.0, every format mutation of
any sequence of attempts (`SetROI`, `ClearROI`, and the `AfterSet` action for
binning, pixel type, bit depth and sensor X/Y size) returns `SIMULATED_ERROR`,
and at the end the buffer width, height and bytes per pixel, the ROI origin,
the binning factor and the bit depth are what they were before. -/
theorem C7_rate_one_rejects_every_mutation (ops : List FormatOp) :
    ∀ (c : Camera) (hb : DemoHub), c.hub = some hb → hb.errorRate_ = 1 →
      (runAll ops c).1 = List.replicate ops.length SIMULATED_ERROR ∧
      (runAll ops c).2.img_ = c.img_ ∧
      (runAll ops c).2.roiX_ = c.roiX_ ∧ (runAll ops c).2.roiY_ = c.roiY_ ∧
      (runAll ops c).2.binSize_ = c.binSize_ ∧ (runAll ops c).2.bitDepth_ = c.bitDepth_ := by
  induction ops with
  | nil => intro c hb _ _; exact ⟨rfl, rfl, rfl, rfl, rfl, rfl⟩
  | cons op ops ih =>
    intro c hb h hr
    have hrun := FormatOp.run_fault op c (hubError_rate_one c hb h hr)
    have hhub : (hubError c).2.hub = some hb := h
    obtain ⟨h1, h2, h3, h4, h5, h6⟩ := ih (hubError c).2 hb hhub hr
    simp only [runAll, hrun, List.length_cons, List.replicate_succ]
    exact ⟨by rw [h1], h2, h3, h4, h5, h6⟩

/-- C7, witness: a hundred attempts to set a 10 x 10 region of interest on
the camera under a hub of error rate 1.0 all fail and leave the buffer at
2040 x 1088 x 1. -/
theorem C7_rate_one_rejects_every_mutation_witness :
    (runAll (List.replicate 100 (FormatOp.setROI 0 0 10 10)) faultyCamera).1 =
      List.replicate 100 SIMULATED_ERROR ∧
    (runAll (List.replicate 100 (FormatOp.setROI 0 0 10 10)) faultyCamera).2.img_ =
      ⟨2040, 1088, 1⟩ :=
  have h := C7_rate_one_rejects_every_mutation
    (List.replicate 100 (FormatOp.setROI 0 0 10 10)) faultyCamera ⟨1⟩ rfl rfl
  ⟨by simpa using h.1, h.2.1⟩

/-- C8, counterexample: on a camera whose hub has error rate 1.0, so that the
fault injector triggers whenever it is consulted, `ClearExposureSequence`,
`AddToExposureSequence`, `StartExposureSequence`, `StopExposureSequence` and
(no core callback being registered) `StopSequenceAcquisition` return
`DEVICE_OK` and take effect, and `IsCapturing` answers. -/
theorem C8_counterexample :
    (hubError faultySequencedCamera).1 = true ∧
    (ClearExposureSequence faultySequencedCamera).1 = DEVICE_OK ∧
    (ClearExposureSequence faultySequencedCamera).2.exposureSequence_ = [] ∧
    (AddToExposureSequence 20 faultySequencedCamera).1 = DEVICE_OK ∧
    (AddToExposureSequence 20 faultySequencedCamera).2.exposureSequence_ = [5, 10, 15, 20] ∧
    (StartExposureSequence faultySequencedCamera).1 = DEVICE_OK ∧
    (StartExposureSequence faultySequencedCamera).2.sequenceRunning_ = true ∧
    (StopExposureSequence faultySequencedCamera).1 = DEVICE_OK ∧
    (StopExposureSequence faultySequencedCamera).2.sequenceIndex_ = 0 ∧
    (StopSequenceAcquisition 1 faultySequencedCamera).map (fun r => r.1) = some DEVICE_OK ∧
    IsCapturing faultySequencedCamera = false := by
  decide

/-- C8, as amended: the operations `SetROI`, `ClearROI`, `GetROI`,
`GetExposure`, `GetImageWidth`, `GetImageHeight`, `GetImageBytesPerPixel`,
`GetBitDepth`, `GetImageBufferSize`, `GetImageBuffer`, `ResizeImageBuffer`,
`StartSequenceAcquisition`, `InsertImage`, `ThreadRun` and the handlers
`OnBinning`, `OnPixelType`, `OnBitDepth`, `OnCameraCCDXSize`,
`OnCameraCCDYSize` consult the fault injector at entry and, when it triggers,
return their fault code (`SIMULATED_ERROR`, or 0 from the image getters)
without doing anything else; `StopSequenceAcquisition` does so only when a
core callback is registered, and without one it does not consult the injector;
`IsCapturing`, `AddToExposureSequence`, `ClearExposureSequence`,
`StartExposureSequence` and `StopExposureSequence` never consult it: they
leave the `rand()` cursor where it was and the last four return `DEVICE_OK`. -/
theorem C8_fault_check_at_entry (c : Camera) (spin : Nat) :
    ((hubError c).1 = true →
      (∀ x y xSize ySize, SetROI x y xSize ySize c = (SIMULATED_ERROR, (hubError c).2)) ∧
      ClearROI c = (SIMULATED_ERROR, (hubError c).2) ∧
      GetROI c = (SIMULATED_ERROR, none, (hubError c).2) ∧
      GetExposure c = ((SIMULATED_ERROR : ℚ), (hubError c).2) ∧
      GetImageWidth c = (0, (hubError c).2) ∧
      GetImageHeight c = (0, (hubError c).2) ∧
      GetImageBytesPerPixel c = (0, (hubError c).2) ∧
      GetBitDepth c = (0, (hubError c).2) ∧
      GetImageBufferSize c = (0, (hubError c).2) ∧
      GetImageBuffer spin c = some (false, (hubError c).2) ∧
      ResizeImageBuffer c = (SIMULATED_ERROR, (hubError c).2) ∧
      (∀ numImages interval_ms stopOnOverflow,
        StartSequenceAcquisition numImages interval_ms stopOnOverflow c =
          (SIMULATED_ERROR, (hubError c).2)) ∧
      InsertImage spin c = some (SIMULATED_ERROR, (hubError c).2) ∧
      (∀ startTime, ThreadRun spin startTime c =
        some (.ret SIMULATED_ERROR, (hubError (c.emit .threadRun)).2)) ∧
      (∀ pProp eAct, (OnBinning pProp eAct c).ret = SIMULATED_ERROR ∧
        (OnBinning pProp eAct c).prop = pProp ∧ (OnBinning pProp eAct c).cam = (hubError c).2) ∧
      (∀ pProp eAct, (OnPixelType pProp eAct c).ret = SIMULATED_ERROR ∧
        (OnPixelType pProp eAct c).prop = pProp ∧
        (OnPixelType pProp eAct c).cam = (hubError c).2) ∧
      (∀ pProp eAct, (OnBitDepth pProp eAct c).ret = SIMULATED_ERROR ∧
        (OnBitDepth pProp eAct c).prop = pProp ∧ (OnBitDepth pProp eAct c).cam = (hubError c).2) ∧
      (∀ pProp eAct, (OnCameraCCDXSize pProp eAct c).ret = SIMULATED_ERROR ∧
        (OnCameraCCDXSize pProp eAct c).prop = pProp ∧
        (OnCameraCCDXSize pProp eAct c).cam = (hubError c).2) ∧
      (∀ pProp eAct, (OnCameraCCDYSize pProp eAct c).ret = SIMULATED_ERROR ∧
        (OnCameraCCDYSize pProp eAct c).prop = pProp ∧
        (OnCameraCCDYSize pProp eAct c).cam = (hubError c).2) ∧
      (c.host.callbackRegistered = true →
        StopSequenceAcquisition spin c = some (SIMULATED_ERROR, (hubError c).2))) ∧
    (c.host.callbackRegistered = false →
      StopSequenceAcquisition spin c =
        if c.thd_.stop_ then some (DEVICE_OK, c)
        else (svc spin { c with thd_ := c.thd_.Stop }).map (fun r => (DEVICE_OK, r.2))) ∧
    IsCapturing c = !c.thd_.stop_ ∧
    ((ClearExposureSequence c).1 = DEVICE_OK ∧ (ClearExposureSequence c).2.host = c.host) ∧
    (∀ e, (AddToExposureSequence e c).1 = DEVICE_OK ∧
      (AddToExposureSequence e c).2.host = c.host) ∧
    ((StartExposureSequence c).1 = DEVICE_OK ∧ (StartExposureSequence c).2.host = c.host) ∧
    ((StopExposureSequence c).1 = DEVICE_OK ∧ (StopExposureSequence c).2.host = c.host) := by
  refine ⟨?_, ?_, rfl, ⟨rfl, rfl⟩, fun _ => ⟨rfl, rfl⟩, ⟨rfl, rfl⟩, ⟨rfl, rfl⟩⟩
  · intro h
    have h2 : (hubError (c.emit .threadRun)).1 = true := h
    refine ⟨?_, ?_, ?_, ?_, ?_, ?_, ?_, ?_, ?_, ?_, ?_, ?_, ?_, ?_, ?_, ?_, ?_, ?_, ?_, ?_⟩
    · intro x y xSize ySize; unfold SetROI; dsimp only; rw [if_pos h]
    · unfold ClearROI; dsimp only; rw [if_pos h]
    · unfold GetROI; dsimp only; rw [if_pos h]
    · unfold GetExposure; dsimp only; rw [if_pos h]
    · unfold GetImageWidth; dsimp only; rw [if_pos h]
    · unfold GetImageHeight; dsimp only; rw [if_pos h]
    · unfold GetImageBytesPerPixel; dsimp only; rw [if_pos h]
    · unfold GetBitDepth; dsimp only; rw [if_pos h]
    · unfold GetImageBufferSize; dsimp only; rw [if_pos h]
    · unfold GetImageBuffer; dsimp only; rw [if_pos h]
    · unfold ResizeImageBuffer; dsimp only; rw [if_pos h]
    · intro n i o; unfold StartSequenceAcquisition; dsimp only; rw [if_pos h]
    · unfold InsertImage; dsimp only; rw [if_pos h]
    · intro t; unfold ThreadRun; dsimp only; rw [if_pos h2]
    · intro p e; unfold OnBinning; dsimp only; rw [if_pos h]; exact ⟨rfl, rfl, rfl⟩
    · intro p e; unfold OnPixelType; dsimp only; rw [if_pos h]; exact ⟨rfl, rfl, rfl⟩
    · intro p e; unfold OnBitDepth; dsimp only; rw [if_pos h]; exact ⟨rfl, rfl, rfl⟩
    · intro p e; unfold OnCameraCCDXSize; dsimp only; rw [if_pos h]; exact ⟨rfl, rfl, rfl⟩
    · intro p e; unfold OnCameraCCDYSize; dsimp only; rw [if_pos h]; exact ⟨rfl, rfl, rfl⟩
    · intro hcb
      unfold StopSequenceAcquisition
      dsimp only
      rw [if_pos hcb, if_pos h]
  · intro hcb
    unfold StopSequenceAcquisition
    dsimp only
    simp only [hcb, Bool.false_eq_true, if_false, MySequenceThread.IsStopped]
    cases hs : c.thd_.stop_
    · simp only [Bool.not_false, if_true, Bool.false_eq_true, if_false]
      cases svc spin { c with thd_ := c.thd_.Stop } <;> rfl
    · simp

/-- C8, witness: under a hub of error rate 1.0, `SetROI` returns the fault
code and only the `rand()` cursor has moved; with no core callback registered
and the worker stopped, `StopSequenceAcquisition` returns `DEVICE_OK`. -/
theorem C8_fault_check_at_entry_witness :
    SetROI 0 0 10 10 faultyCamera = (SIMULATED_ERROR, (hubError faultyCamera).2) ∧
    StopSequenceAcquisition 1 faultySequencedCamera =
      (if faultySequencedCamera.thd_.stop_ then some (DEVICE_OK, faultySequencedCamera)
       else (svc 1 { faultySequencedCamera with thd_ := faultySequencedCamera.thd_.Stop }).map
        (fun r => (DEVICE_OK, r.2))) :=
  ⟨((C8_fault_check_at_entry faultyCamera 1).1 (by decide)).1 0 0 10 10,
   (C8_fault_check_at_entry faultySequencedCamera 1).2.1 (by decide)⟩

/-! ## Frame hand-off -/

theorem CursorsMoved.same (c : Camera) : CursorsMoved c c :=
  ⟨c.host.randIx, c.host.clockIx, c.propBinning, rfl⟩

theorem CursorsMoved.andThen {a b c : Camera} (h1 : CursorsMoved a b) (h2 : CursorsMoved b c) :
    CursorsMoved a c := by
  obtain ⟨r1, k1, X1, rfl⟩ := h1
  obtain ⟨r2, k2, X2, rfl⟩ := h2
  exact ⟨r2, k2, X2, rfl⟩

theorem hubError_cursors (c : Camera) : CursorsMoved c (hubError c).2 :=
  ⟨_, c.host.clockIx, c.propBinning, rfl⟩

theorem GetCurrentMMTime_cursors (c : Camera) : CursorsMoved c (GetCurrentMMTime c).2 :=
  ⟨c.host.randIx, _, c.propBinning, rfl⟩

theorem GetImageWidth_cursors (c : Camera) : CursorsMoved c (GetImageWidth c).2 := by
  unfold GetImageWidth; dsimp only; split <;> exact hubError_cursors c

theorem GetImageHeight_cursors (c : Camera) : CursorsMoved c (GetImageHeight c).2 := by
  unfold GetImageHeight; dsimp only; split <;> exact hubError_cursors c

theorem GetImageBytesPerPixel_cursors (c : Camera) :
    CursorsMoved c (GetImageBytesPerPixel c).2 := by
  unfold GetImageBytesPerPixel; dsimp only; split <;> exact hubError_cursors c

theorem OnBinning_BeforeGet_cam (pProp : Int) (c : Camera) :
    (OnBinning pProp .BeforeGet c).cam = (hubError c).2 := by
  unfold OnBinning; dsimp only; split <;> rfl

theorem GetPropertyBinning_cursors (c : Camera) : CursorsMoved c (GetPropertyBinning c).2.2 := by
  have h : (GetPropertyBinning c).2.2 =
      { (hubError c).2 with propBinning := (OnBinning c.propBinning .BeforeGet c).prop } := by
    unfold GetPropertyBinning
    dsimp only
    rw [OnBinning_BeforeGet_cam]
    split <;> rfl
  rw [h]
  exact ⟨_, c.host.clockIx, _, rfl⟩

theorem readoutGate_cursors (spin : Nat) :
    ∀ c c' : Camera, readoutGate spin c = some c' → CursorsMoved c c' := by
  induction spin with
  | zero => intro c c' h; simp [readoutGate] at h
  | succ n ih =>
    intro c c' h
    unfold readoutGate at h
    dsimp only at h
    split at h
    · exact (GetCurrentMMTime_cursors c).andThen (ih _ _ h)
    · rw [← Option.some.inj h]; exact GetCurrentMMTime_cursors c

theorem GetImageBuffer_cursors (spin : Nat) (c c' : Camera) (p : Bool)
    (h : GetImageBuffer spin c = some (p, c')) : CursorsMoved c c' := by
  unfold GetImageBuffer at h
  dsimp only at h
  split at h
  · rw [← (Prod.mk.inj (Option.some.inj h)).2]; exact hubError_cursors c
  · cases hg : readoutGate spin (hubError c).2 with
    | none => rw [hg] at h; simp at h
    | some c1 =>
      rw [hg] at h
      rw [← (Prod.mk.inj (Option.some.inj h)).2]
      exact (hubError_cursors c).andThen (readoutGate_cursors spin _ _ hg)

/-- What a call of `InsertImage` that passes its entry guard does: there is
one frame `f`, and a camera `cb` just before the first push that differs from
the initial one by the counter increment, by cursors of the host and by the
stored Binning value, such that the call is the first push of `f`, followed on
an overflow under the do-not-stop policy by a buffer clear and a second push
of `f`. -/
theorem InsertImage_spec (spin : Nat) (c c' : Camera) (r : Int)
    (h : InsertImage spin c = some (r, c')) (hf : (hubError c).1 = false) :
    ∃ (f : Frame) (c1 cb : Camera),
      CursorsMoved c c1 ∧
      CursorsMoved { c1 with imageCounter_ := c1.imageCounter_ + 1 } cb ∧
      some (r, c') =
        (if !(coreInsertImage f true cb).2.stopOnOverflow_ ∧
            (coreInsertImage f true cb).1 = DEVICE_BUFFER_OVERFLOW then
          some (coreInsertImage f false ((coreInsertImage f true cb).2.emit .clearImageBuffer))
         else some (coreInsertImage f true cb)) := by
  unfold InsertImage at h
  dsimp only at h
  rw [if_neg (by simp [hf])] at h
  split at h
  · simp at h
  · rename_i pI c3 hgb
    refine ⟨_, (GetCurrentMMTime (hubError c).2).2, _, ?_, ?_, h.symm⟩
    · exact (hubError_cursors c).andThen (GetCurrentMMTime_cursors _)
    · exact (((((GetPropertyBinning_cursors _).andThen
        (GetImageBuffer_cursors _ _ _ _ hgb)).andThen
        (GetImageWidth_cursors _)).andThen (GetImageHeight_cursors _)).andThen
        (GetImageBytesPerPixel_cursors _))

theorem readoutGate_returns (spin : Nat) :
    ∀ c : Camera,
      (∃ j, j < spin ∧ c.readoutUs_ ≤ c.host.clock (c.host.clockIx + j) - c.readoutStartTime_) →
      ∃ c', readoutGate spin c = some c' := by
  induction spin with
  | zero => intro c h; obtain ⟨j, hj, _⟩ := h; omega
  | succ n ih =>
    intro c h
    obtain ⟨j, hj, hle⟩ := h
    unfold readoutGate
    dsimp only
    by_cases hgate : c.readoutUs_ > (GetCurrentMMTime c).1 - c.readoutStartTime_
    · rw [if_pos hgate]
      cases j with
      | zero => exact absurd hle (not_le.mpr hgate)
      | succ i =>
        apply ih
        refine ⟨i, by omega, ?_⟩
        show c.readoutUs_ ≤ c.host.clock (c.host.clockIx + 1 + i) - c.readoutStartTime_
        rw [show c.host.clockIx + 1 + i = c.host.clockIx + (i + 1) by omega]
        exact hle
    · rw [if_neg hgate]; exact ⟨_, rfl⟩

theorem GetPropertyBinning_cam (c : Camera) :
    (GetPropertyBinning c).2.2 =
      { (hubError c).2 with propBinning := (OnBinning c.propBinning .BeforeGet c).prop } := by
  unfold GetPropertyBinning
  dsimp only
  rw [OnBinning_BeforeGet_cam]
  split <;> rfl

theorem GetImageBuffer_returns (spin : Nat) (c : Camera)
    (h : ∃ j, j < spin ∧
      c.readoutUs_ ≤ c.host.clock (c.host.clockIx + j) - c.readoutStartTime_) :
    ∃ p c', GetImageBuffer spin c = some (p, c') := by
  unfold GetImageBuffer
  dsimp only
  split
  · exact ⟨_, _, rfl⟩
  · obtain ⟨c', hc'⟩ := readoutGate_returns spin (hubError c).2 h
    rw [hc']
    exact ⟨_, _, rfl⟩

theorem InsertImage_returns (spin : Nat) (c : Camera)
    (h : ∃ j, j < spin ∧
      c.readoutUs_ ≤ c.host.clock (c.host.clockIx + 1 + j) - c.readoutStartTime_) :
    ∃ r c', InsertImage spin c = some (r, c') := by
  unfold InsertImage
  dsimp only
  split
  · exact ⟨_, _, rfl⟩
  · generalize hy : (GetPropertyBinning _).2.2 = y
    rw [GetPropertyBinning_cam] at hy
    have e1 : y.readoutUs_ = c.readoutUs_ := by rw [← hy]; rfl
    have e2 : y.readoutStartTime_ = c.readoutStartTime_ := by rw [← hy]; rfl
    have e3 : y.host.clock = c.host.clock := by rw [← hy]; rfl
    have e4 : y.host.clockIx = c.host.clockIx + 1 := by rw [← hy]; rfl
    obtain ⟨p, c3, h3⟩ := GetImageBuffer_returns spin y (by rw [e1, e2, e3, e4]; exact h)
    rw [h3]
    dsimp only
    split <;> exact ⟨_, _, rfl⟩

/-- C9, counterexample: under a hub of error rate 1.0 a call of `InsertImage`
returns `SIMULATED_ERROR`, pushes nothing to the core and leaves the camera
frame counter at its value, so the counter is not incremented on every call. -/
theorem C9_counterexample :
    (InsertImage 1 faultyCamera).map (fun r => r.1) = some SIMULATED_ERROR ∧
    (InsertImage 1 faultyCamera).map (fun r => r.2.host.log) = some faultyCamera.host.log ∧
    (InsertImage 1 faultyCamera).map (fun r => r.2.imageCounter_) =
      some faultyCamera.imageCounter_ := by
  decide

/-- C9, as amended: a call of `InsertImage` whose entry fault check triggers
returns `SIMULATED_ERROR` with no push and no counter increment. A call whose
entry check does not trigger increments the camera frame counter exactly once
and hands one frame `f` to the core: if the first push does not report
`DEVICE_BUFFER_OVERFLOW`, or the policy is stop-on-overflow, there is exactly
one push, no buffer clear, and the result of the push is returned; otherwise
the buffer is cleared once and the same frame is pushed exactly one more time
with the flag `false`, whose result is returned. The call returns as soon as
the readout gate opens within the fuel. -/
theorem C9_insert_image_overflow_policy (spin : Nat) (c : Camera) :
    (∀ r c', InsertImage spin c = some (r, c') →
      ((hubError c).1 = true →
        r = SIMULATED_ERROR ∧ c'.host.log = c.host.log ∧ c'.imageCounter_ = c.imageCounter_) ∧
      ((hubError c).1 = false →
        c'.imageCounter_ = c.imageCounter_ + 1 ∧
        ∃ f : Frame,
          (c.host.sink c.host.sinkIx ≠ DEVICE_BUFFER_OVERFLOW ∨ c.stopOnOverflow_ = true →
            c'.host.log = c.host.log ++ [.push f true (c.host.sink c.host.sinkIx)] ∧
            r = c.host.sink c.host.sinkIx) ∧
          (c.host.sink c.host.sinkIx = DEVICE_BUFFER_OVERFLOW ∧ c.stopOnOverflow_ = false →
            c'.host.log = c.host.log ++
              [.push f true DEVICE_BUFFER_OVERFLOW, .clearImageBuffer,
               .push f false (c.host.sink (c.host.sinkIx + 1))] ∧
            r = c.host.sink (c.host.sinkIx + 1)))) ∧
    ((∃ j, j < spin ∧
        c.readoutUs_ ≤ c.host.clock (c.host.clockIx + 1 + j) - c.readoutStartTime_) →
      ∃ r c', InsertImage spin c = some (r, c')) := by
  refine ⟨?_, InsertImage_returns spin c⟩
  intro r c' h
  constructor
  · intro hf
    unfold InsertImage at h
    dsimp only at h
    rw [if_pos hf] at h
    obtain ⟨rfl, rfl⟩ := Prod.mk.inj (Option.some.inj h)
    exact ⟨rfl, rfl, rfl⟩
  · intro hf
    obtain ⟨f, c1, cb, h1, h2, he⟩ := InsertImage_spec spin c c' r h hf
    obtain ⟨r1, k1, X1, rfl⟩ := h1
    obtain ⟨r2, k2, X2, rfl⟩ := h2
    simp only [coreInsertImage, Camera.emit] at he
    by_cases hov : c.host.sink c.host.sinkIx = DEVICE_BUFFER_OVERFLOW
    · cases hso : c.stopOnOverflow_
      · rw [if_pos (by simp [hso, hov])] at he
        obtain ⟨rfl, rfl⟩ := Prod.mk.inj (Option.some.inj he)
        refine ⟨rfl, f, ?_, ?_⟩
        · intro hor
          rcases hor with hne | hst
          · exact absurd hov hne
          · simp at hst
        · intro _
          exact ⟨by simp [hov], rfl⟩
      · rw [if_neg (by simp [hso])] at he
        obtain ⟨rfl, rfl⟩ := Prod.mk.inj (Option.some.inj he)
        refine ⟨rfl, f, ?_, ?_⟩
        · intro _; exact ⟨rfl, rfl⟩
        · intro hand; simp at hand
    · rw [if_neg (by simp [hov])] at he
      obtain ⟨rfl, rfl⟩ := Prod.mk.inj (Option.some.inj he)
      refine ⟨rfl, f, ?_, ?_⟩
      · intro _; exact ⟨rfl, rfl⟩
      · intro hand; exact absurd hand.1 hov

/-- C9, witness: on a host whose core overflows at the first push and with
the do-not-stop policy, the call returns the result of the second push and
increments the counter once. -/
theorem C9_insert_image_overflow_policy_witness :
    ∃ r c', InsertImage 1 overflowingCamera = some (r, c') ∧
      c'.imageCounter_ = overflowingCamera.imageCounter_ + 1 ∧ r = DEVICE_OK :=
  have hret := (C9_insert_image_overflow_policy 1 overflowingCamera).2
    ⟨0, by decide, by decide⟩
  match hret with
  | ⟨r, c', h⟩ =>
    have hspec := ((C9_insert_image_overflow_policy 1 overflowingCamera).1 r c' h).2 (by decide)
    match hspec with
    | ⟨hctr, _, _, hover⟩ => ⟨r, c', h, hctr, (hover ⟨by decide, by decide⟩).2⟩

/-! ## What the worker leaves alone -/

theorem Logged.nothing (c : Camera) : Logged c c [] :=
  ⟨rfl, (List.append_nil _).symm, rfl, rfl, rfl⟩

theorem Logged.followedBy {a b c : Camera} {e1 e2 : List Event} (h1 : Logged a b e1)
    (h2 : Logged b c e2) : Logged a c (e1 ++ e2) := by
  obtain ⟨a1, a2, a3, a4, a5⟩ := h1
  obtain ⟨b1, b2, b3, b4, b5⟩ := h2
  exact ⟨b1.trans a1, by rw [b2, a2, List.append_assoc], b3.trans a3, b4.trans a4, b5.trans a5⟩

theorem Logged.emit (c : Camera) (e : Event) : Logged c (c.emit e) [e] :=
  ⟨rfl, rfl, rfl, rfl, rfl⟩

theorem CursorsMoved.logged {c c' : Camera} (h : CursorsMoved c c') : Logged c c' [] := by
  obtain ⟨r, k, X, rfl⟩ := h
  exact ⟨rfl, (List.append_nil _).symm, rfl, rfl, rfl⟩

theorem GetExposure_logged (c : Camera) : Logged c (GetExposure c).2 [] := by
  unfold GetExposure
  dsimp only
  split
  · exact (hubError_cursors c).logged
  · split <;> exact (hubError_cursors c).logged

theorem GetSequenceExposure_logged (c : Camera) : Logged c (GetSequenceExposure c).2 [] := by
  unfold GetSequenceExposure
  split
  · exact GetExposure_logged c
  · dsimp only
    split <;> exact ⟨rfl, (List.append_nil _).symm, rfl, rfl, rfl⟩

theorem GetSequenceExposure_imageCounter (c : Camera) :
    (GetSequenceExposure c).2.imageCounter_ = c.imageCounter_ := by
  unfold GetSequenceExposure
  split
  · unfold GetExposure
    dsimp only
    split
    · rfl
    · split <;> rfl
  · dsimp only
    split <;> rfl

theorem pacingWait_logged (startTime : Int) (spin : Nat) :
    ∀ c c' : Camera, pacingWait startTime spin c = some c' → Logged c c' [] := by
  induction spin with
  | zero => intro c c' h; simp [pacingWait] at h
  | succ n ih =>
    intro c c' h
    unfold pacingWait at h
    dsimp only at h
    have h0 : Logged c (GetSequenceExposure (GetCurrentMMTime c).2).2 [] :=
      (GetCurrentMMTime_cursors c).logged.followedBy (GetSequenceExposure_logged _)
    split at h
    · exact h0.followedBy (ih _ _ h)
    · rw [← Option.some.inj h]; exact h0

theorem GetCameraImage_logged (c : Camera) : Logged c (GetCameraImage c).2 [] := by
  unfold GetCameraImage
  split
  · exact Logged.nothing c
  · dsimp only
    split <;> exact ⟨rfl, (List.append_nil _).symm, rfl, rfl, rfl⟩

theorem InsertImage_logged (spin : Nat) (c c' : Camera) (r : Int)
    (h : InsertImage spin c = some (r, c')) :
    ∃ evs, Logged c c' evs ∧ captureSteps evs = 0 ∧ exitHooks evs = 0 ∧
      (r = DEVICE_OK → acceptedPushes evs = 1 ∧ framesPushed evs = 1) := by
  cases hf : (hubError c).1
  · obtain ⟨f, c1, cb, h1, h2, he⟩ := InsertImage_spec spin c c' r h hf
    obtain ⟨r1, k1, X1, rfl⟩ := h1
    obtain ⟨r2, k2, X2, rfl⟩ := h2
    simp only [coreInsertImage, Camera.emit] at he
    split at he
    · rename_i hc
      obtain ⟨rfl, rfl⟩ := Prod.mk.inj (Option.some.inj he)
      refine ⟨[.push f true (c.host.sink c.host.sinkIx), .clearImageBuffer,
        .push f false (c.host.sink (c.host.sinkIx + 1))],
        ⟨rfl, by simp, rfl, rfl, rfl⟩, by simp [captureSteps],
        by simp [exitHooks, Event.isExit], ?_⟩
      intro hok
      have hov : c.host.sink c.host.sinkIx = DEVICE_BUFFER_OVERFLOW := hc.2
      simp [acceptedPushes, Event.isAccepted, framesPushed, Event.isFirstPush, hov, hok,
        DEVICE_BUFFER_OVERFLOW, DEVICE_OK]
    · obtain ⟨rfl, rfl⟩ := Prod.mk.inj (Option.some.inj he)
      refine ⟨[.push f true (c.host.sink c.host.sinkIx)],
        ⟨rfl, rfl, rfl, rfl, rfl⟩, by simp [captureSteps],
        by simp [exitHooks, Event.isExit], ?_⟩
      intro hok
      simp [acceptedPushes, Event.isAccepted, framesPushed, Event.isFirstPush, hok]
  · unfold InsertImage at h
    dsimp only at h
    rw [if_pos hf] at h
    obtain ⟨rfl, rfl⟩ := Prod.mk.inj (Option.some.inj h)
    exact ⟨[], (hubError_cursors c).logged, rfl, rfl,
      fun hok => by simp [SIMULATED_ERROR, DEVICE_OK] at hok⟩

theorem pulseTrigger_logged (c : Camera) :
    ∃ e1, Logged c (pulseTrigger c) e1 ∧ captureSteps e1 = 0 ∧ exitHooks e1 = 0 ∧
      acceptedPushes e1 = 0 ∧ framesPushed e1 = 0 := by
  unfold pulseTrigger
  split
  · exact ⟨[.trigger], Logged.emit _ _, rfl, rfl, rfl, rfl⟩
  · exact ⟨[], Logged.nothing _, rfl, rfl, rfl, rfl⟩

theorem fetchUnlessFast_logged (c : Camera) : Logged c (fetchUnlessFast c).2 [] := by
  unfold fetchUnlessFast
  split
  · exact GetCameraImage_logged c
  · exact Logged.nothing c

theorem ThreadRun_logged (spin : Nat) (startTime : Int) (c c1 : Camera) (o : Outcome)
    (h : ThreadRun spin startTime c = some (o, c1)) :
    ∃ evs, Logged c c1 (.threadRun :: evs) ∧ captureSteps evs = 0 ∧ exitHooks evs = 0 ∧
      (o = .ret DEVICE_OK → acceptedPushes evs = 1 ∧ framesPushed evs = 1) := by
  unfold ThreadRun at h
  dsimp only at h
  have h0 : Logged c (hubError (c.emit .threadRun)).2 [.threadRun] :=
    (Logged.emit c .threadRun).followedBy (hubError_cursors _).logged
  split at h
  · obtain ⟨rfl, rfl⟩ := Prod.mk.inj (Option.some.inj h)
    exact ⟨[], h0, rfl, rfl, fun hok => by simp [SIMULATED_ERROR, DEVICE_OK] at hok⟩
  · obtain ⟨e1, ht1, ht2, ht3, ht4, ht5⟩ :=
      pulseTrigger_logged (hubError (c.emit .threadRun)).2
    have hpre : Logged c (fetchUnlessFast (pulseTrigger (hubError (c.emit .threadRun)).2)).2
        (.threadRun :: e1) := by
      have := (h0.followedBy ht1).followedBy (fetchUnlessFast_logged _)
      simpa using this
    split at h
    · obtain ⟨rfl, rfl⟩ := Prod.mk.inj (Option.some.inj h)
      exact ⟨e1, hpre, ht2, ht3, fun hok => by simp at hok⟩
    · obtain ⟨rfl, rfl⟩ := Prod.mk.inj (Option.some.inj h)
      exact ⟨e1, hpre, ht2, ht3, fun hok => by simp at hok⟩
    · split at h
      · simp at h
      · rename_i ret c2 hins
        split at h
        · simp at h
        · rename_i c3 hpace
          obtain ⟨rfl, rfl⟩ := Prod.mk.inj (Option.some.inj h)
          obtain ⟨e2, hl2, hc2, hx2, ha2⟩ := InsertImage_logged spin _ _ _ hins
          have hl3 := pacingWait_logged startTime spin _ _ hpace
          refine ⟨e1 ++ e2, ?_, ?_, ?_, ?_⟩
          · have := (hpre.followedBy hl2).followedBy hl3
            simpa using this
          · simp only [captureSteps, List.count_append] at *; omega
          · simp only [exitHooks, List.countP_append] at *; omega
          · intro hok
            have hr : ret = DEVICE_OK := by injection hok
            have := ha2 hr
            simp only [acceptedPushes, framesPushed, List.countP_append] at *; omega

/-! ## The worker loop -/

theorem pollIsStopped_host (c : Camera) :
    (pollIsStopped c).2.host.log = c.host.log ∧
    (pollIsStopped c).2.host.callbackRegistered = c.host.callbackRegistered := by
  unfold pollIsStopped
  dsimp only
  split <;> exact ⟨rfl, rfl⟩

theorem pollIsStopped_thd (c : Camera) (h : (pollIsStopped c).1 = false) :
    (pollIsStopped c).2.thd_ = c.thd_ := by
  unfold pollIsStopped at h ⊢
  dsimp only at h ⊢
  split at h
  · simp [MySequenceThread.IsStopped, MySequenceThread.Stop] at h
  · rename_i hreq
    rw [if_neg hreq]

theorem svcPass_log (spin : Nat) (ret : Int) (c : Camera) (p : Pass)
    (h : svcPass spin ret c = some p) :
    ∃ evs, p.cam.host.log = c.host.log ++ evs ∧ exitHooks evs = 0 ∧ captureSteps evs = 1 ∧
      p.cam.host.callbackRegistered = c.host.callbackRegistered := by
  unfold svcPass at h
  split at h
  · simp at h
  · rename_i code c1 hrun
    obtain ⟨evs, hl, hc, hx, _⟩ := ThreadRun_logged _ _ _ _ _ hrun
    rw [← Option.some.inj h]
    exact ⟨.threadRun :: evs, hl.2.1, by simpa [exitHooks, Event.isExit] using hx,
      by simp [captureSteps] at hc ⊢; exact hc, hl.2.2.2.2⟩
  · rename_i c1 hrun
    obtain ⟨evs, hl, hc, hx, _⟩ := ThreadRun_logged _ _ _ _ _ hrun
    rw [← Option.some.inj h]
    exact ⟨.threadRun :: evs, hl.2.1, by simpa [exitHooks, Event.isExit] using hx,
      by simp [captureSteps] at hc ⊢; exact hc, hl.2.2.2.2⟩
  · rename_i r c1 hrun
    obtain ⟨evs, hl, hc, hx, _⟩ := ThreadRun_logged _ _ _ _ _ hrun
    have hp := pollIsStopped_host c1
    have hres : ∀ q : Pass, q.cam.host.log = c1.host.log →
        q.cam.host.callbackRegistered = c1.host.callbackRegistered →
        ∃ evs, q.cam.host.log = c.host.log ++ evs ∧ exitHooks evs = 0 ∧ captureSteps evs = 1 ∧
          q.cam.host.callbackRegistered = c.host.callbackRegistered := by
      intro q hq1 hq2
      exact ⟨.threadRun :: evs, hq1.trans hl.2.1, by simpa [exitHooks, Event.isExit] using hx,
        by simp [captureSteps] at hc ⊢; exact hc, hq2.trans hl.2.2.2.2⟩
    dsimp only at h
    split at h
    · split at h
      · split at h
        · rw [← Option.some.inj h]; exact hres _ hp.1 hp.2
        · rw [← Option.some.inj h]; exact hres _ hp.1 hp.2
      · rw [← Option.some.inj h]; exact hres _ hp.1 hp.2
    · rw [← Option.some.inj h]; exact hres _ rfl rfl

theorem svcLoop_log (spin : Nat) :
    ∀ (passes : Nat) (ret : Int) (c c1 : Camera) (e : LoopEnd),
      svcLoop spin passes ret c = some (e, c1) →
      ∃ evs, c1.host.log = c.host.log ++ evs ∧ exitHooks evs = 0 ∧ 1 ≤ captureSteps evs ∧
        c1.host.callbackRegistered = c.host.callbackRegistered := by
  intro passes
  induction passes with
  | zero => intro ret c c1 e h; simp [svcLoop] at h
  | succ n ih =>
    intro ret c c1 e h
    unfold svcLoop at h
    split at h
    · simp at h
    · rename_i r c2 hpass
      obtain ⟨e1, a1, a2, a3, a4⟩ := svcPass_log _ _ _ _ hpass
      obtain ⟨e2, b1, b2, b3, b4⟩ := ih _ _ _ _ h
      refine ⟨e1 ++ e2, ?_, ?_, ?_, b4.trans a4⟩
      · rw [b1]; simp only [Pass.cam] at a1; rw [a1, List.append_assoc]
      · simp only [exitHooks, List.countP_append] at *; omega
      · simp only [captureSteps, List.count_append] at *; omega
    · rename_i e0 c2 hpass
      obtain ⟨e1, a1, a2, a3, a4⟩ := svcPass_log _ _ _ _ hpass
      obtain ⟨rfl, rfl⟩ := Prod.mk.inj (Option.some.inj h)
      exact ⟨e1, a1, a2, by omega, a4⟩

/-- The tail of `svc`: once the loop has ended, `svc` returns, having
appended to the log at most the interruption or exception message and then
the exit hook, which sees `IsStopped()` true. -/
theorem svc_of_loop (spin : Nat) (c c1 : Camera) (e : LoopEnd)
    (h : svcLoop spin (passBound c) DEVICE_ERR c = some (e, c1)) :
    ∃ r c' tl, svc spin c = some (r, c') ∧
      c'.host.log = c1.host.log ++ tl ++ [.threadExiting true c1.host.callbackRegistered] ∧
      captureSteps tl = 0 ∧ acceptedPushes tl = 0 ∧ framesPushed tl = 0 ∧ exitHooks tl = 0 ∧
      c'.thd_.stop_ = true ∧ (∀ x, e = .finished x → r = x) := by
  unfold svc
  rw [h]
  dsimp only
  cases e with
  | finished ret =>
    dsimp only
    have hp := pollIsStopped_host c1
    by_cases hs : (pollIsStopped c1).1 = true
    · rw [if_pos hs]
      refine ⟨_, _, [.interrupted], rfl, ?_, rfl, rfl, rfl, rfl, rfl, ?_⟩
      · simp only [OnThreadExiting, Camera.emit, GetCurrentMMTime, MySequenceThread.IsStopped]
        rw [hp.1, hp.2]
      · intro x hx; cases hx; rfl
    · rw [if_neg hs]
      refine ⟨_, _, [], rfl, ?_, rfl, rfl, rfl, rfl, rfl, ?_⟩
      · simp only [OnThreadExiting, Camera.emit, GetCurrentMMTime, MySequenceThread.IsStopped]
        rw [hp.1, hp.2]
        simp
      · intro x hx; cases hx; rfl
  | caughtCMM code =>
    exact ⟨_, _, [.exceptionLogged], rfl, rfl, rfl, rfl, rfl, rfl, rfl,
      fun x hx => by simp at hx⟩
  | caughtOther ret =>
    exact ⟨_, _, [.exceptionLogged], rfl, rfl, rfl, rfl, rfl, rfl, rfl,
      fun x hx => by simp at hx⟩

/-- C10, counterexample: a three-frame run in which nobody requests a stop
ends with the exit hook as the last logged action, and the hook sees
`IsStopped()` already true: it runs after `stop_` has been set, not before. -/
theorem C10_counterexample :
    runningCamera.thd_.stop_ = false ∧
    (svc 10 runningCamera).map (fun r => r.2.host.log.getLast?) =
      some (some (.threadExiting true true)) := by
  decide

/-- C10, as amended: on every exit of the worker loop (frame count exhausted,
stop requested, capture step returned an error, or an exception was caught)
`svc` returns and `OnThreadExiting` has run exactly once, as the last action
of the worker, after `stop_` has been set to true (the hook sees
`IsStopped()` true). -/
theorem C10_exit_hook_runs_once (spin : Nat) (c c1 : Camera) (e : LoopEnd)
    (hexit : svcLoop spin (passBound c) DEVICE_ERR c = some (e, c1)) :
    ∃ r c' evs, svc spin c = some (r, c') ∧
      c'.host.log = c.host.log ++ evs ++ [.threadExiting true c.host.callbackRegistered] ∧
      exitHooks evs = 0 ∧ exitHooks c'.host.log = exitHooks c.host.log + 1 ∧
      c'.thd_.stop_ = true := by
  obtain ⟨e1, a1, a2, _, a4⟩ := svcLoop_log _ _ _ _ _ _ hexit
  obtain ⟨r, c', tl, b1, b2, _, _, _, b5, b6, _⟩ := svc_of_loop _ _ _ _ hexit
  have hx : exitHooks (e1 ++ tl) = 0 := by
    simp only [exitHooks, List.countP_append] at *; omega
  have hlog : c'.host.log =
      c.host.log ++ (e1 ++ tl) ++ [.threadExiting true c.host.callbackRegistered] := by
    rw [b2, a1, a4]; simp
  refine ⟨r, c', e1 ++ tl, b1, hlog, hx, ?_, b6⟩
  rw [hlog]
  unfold exitHooks at hx ⊢
  rw [List.countP_append, List.countP_append, hx]
  simp [Event.isExit]

/-- C10, witness: the three-frame run of the running camera. -/
theorem C10_exit_hook_runs_once_witness :
    ∃ r c' evs, svc 10 runningCamera = some (r, c') ∧
      c'.host.log = runningCamera.host.log ++ evs ++
        [.threadExiting true runningCamera.host.callbackRegistered] ∧
      exitHooks evs = 0 ∧ exitHooks c'.host.log = exitHooks runningCamera.host.log + 1 ∧
      c'.thd_.stop_ = true :=
  match h : svcLoop 10 (passBound runningCamera) DEVICE_ERR runningCamera with
  | some (e, c1) => C10_exit_hook_runs_once 10 runningCamera c1 e h
  | none => absurd (congrArg Option.isSome h) (by decide)

/-! ## Frame count -/

/-- Away from `LONG_MIN` the subtraction on `long` is the subtraction. -/
theorem longPred_of_ge (n : Int) (h : -LONG_MAX ≤ n) : longPred n = n - 1 := by
  unfold longPred
  rw [if_neg (by omega)]

/-- At `LONG_MIN` the subtraction wraps around to `LONG_MAX`. -/
theorem longPred_min : longPred (-LONG_MAX - 1) = LONG_MAX := by
  decide

theorem LoopReaches.head {spin : Nat} {c c2 ck : Camera} {ret r : Int}
    (h : svcPass spin ret c = some (.again r c2)) (h2 : LoopReaches spin c2 ck) :
    LoopReaches spin c ck := by
  induction h2 with
  | start => exact .next .start h
  | next _ hp ih => exact .next ih hp

/-- A pass whose capture step returns `DEVICE_OK` and whose poll sees no stop:
it logs one capture step and one accepted frame, increments the counter of the
worker, and asks for another pass exactly when the counter was below
`numImages_ - 1`. -/
theorem svcPass_ok (spin : Nat) (ret : Int) (c c1 : Camera)
    (hrun : ThreadRun spin c.thd_.startTime_ c = some (.ret DEVICE_OK, c1))
    (hpoll : (pollIsStopped c1).1 = false) :
    ∃ c2, c2.thd_.numImages_ = c.thd_.numImages_ ∧
      c2.thd_.imageCounter_ = c.thd_.imageCounter_ + 1 ∧
      captureSteps c2.host.log = captureSteps c.host.log + 1 ∧
      acceptedPushes c2.host.log = acceptedPushes c.host.log + 1 ∧
      framesPushed c2.host.log = framesPushed c.host.log + 1 ∧
      svcPass spin ret c =
        some (if c.thd_.imageCounter_ < longPred c.thd_.numImages_ then .again DEVICE_OK c2
              else .leave (.finished DEVICE_OK) c2) := by
  obtain ⟨evs, hl, hc, _, ha⟩ := ThreadRun_logged _ _ _ _ _ hrun
  have hthd := pollIsStopped_thd c1 hpoll
  have hhost := pollIsStopped_host c1
  refine ⟨{ (pollIsStopped c1).2 with thd_ :=
      { (pollIsStopped c1).2.thd_ with
        imageCounter_ := (pollIsStopped c1).2.thd_.imageCounter_ + 1 } }, ?_, ?_, ?_, ?_, ?_, ?_⟩
  · show (pollIsStopped c1).2.thd_.numImages_ = _
    rw [hthd, hl.1]
  · show (pollIsStopped c1).2.thd_.imageCounter_ + 1 = _
    rw [hthd, hl.1]
  · show captureSteps (pollIsStopped c1).2.host.log = _
    rw [hhost.1, hl.2.1]
    simp only [captureSteps, List.count_append, List.count_cons] at *
    simp [hc]
  · show acceptedPushes (pollIsStopped c1).2.host.log = _
    rw [hhost.1, hl.2.1]
    have := (ha rfl).1
    simp only [acceptedPushes, List.countP_append, List.countP_cons] at *
    simp [this, Event.isAccepted]
  · show framesPushed (pollIsStopped c1).2.host.log = _
    rw [hhost.1, hl.2.1]
    have := (ha rfl).2
    simp only [framesPushed, List.countP_append, List.countP_cons] at *
    simp [this, Event.isFirstPush]
  · unfold svcPass
    rw [hrun]
    dsimp only
    rw [if_pos rfl, if_pos (by simp [hpoll]), hthd, hl.1]
    split <;> rfl

theorem svcLoop_all_ok (spin : Nat) :
    ∀ (m : Nat) (c : Camera) (ret : Int),
      longPred c.thd_.numImages_ - c.thd_.imageCounter_ = (m : Int) →
      (∀ ck, LoopReaches spin c ck →
        ∃ c1, ThreadRun spin ck.thd_.startTime_ ck = some (.ret DEVICE_OK, c1) ∧
          (pollIsStopped c1).1 = false) →
      ∃ c', svcLoop spin (m + 1) ret c = some (.finished DEVICE_OK, c') ∧
        captureSteps c'.host.log = captureSteps c.host.log + (m + 1) ∧
        acceptedPushes c'.host.log = acceptedPushes c.host.log + (m + 1) ∧
        framesPushed c'.host.log = framesPushed c.host.log + (m + 1) := by
  intro m
  induction m with
  | zero =>
    intro c ret hm hall
    obtain ⟨c1, hrun, hpoll⟩ := hall c .start
    obtain ⟨c2, _, _, h3, h4, h4', h5⟩ := svcPass_ok spin ret c c1 hrun hpoll
    rw [if_neg (by omega)] at h5
    refine ⟨c2, ?_, h3, h4, h4'⟩
    unfold svcLoop
    rw [h5]
  | succ n ih =>
    intro c ret hm hall
    obtain ⟨c1, hrun, hpoll⟩ := hall c .start
    obtain ⟨c2, h1, h2, h3, h4, h4', h5⟩ := svcPass_ok spin ret c c1 hrun hpoll
    rw [if_pos (by omega)] at h5
    obtain ⟨c', k1, k2, k3, k4⟩ := ih c2 DEVICE_OK (by rw [h1, h2]; push_cast at hm; omega)
      (fun ck hck => hall ck (LoopReaches.head h5 hck))
    refine ⟨c', ?_, by rw [k2, h3]; omega, by rw [k3, h4]; omega, by rw [k4, h4']; omega⟩
    rw [svcLoop, h5]
    exact k1

/-- C2: for every requested frame count n >= 1, in a run in which every
capture step the loop reaches returns `DEVICE_OK` and no poll of the stop flag
sees a stop, `svc` returns `DEVICE_OK` having executed the capture step exactly
n times, having handed exactly n frames to the core (a repeated push of the
same frame after an overflow carries the flag `false` and is not a further
frame) and having had exactly n frames accepted by it. -/
theorem C2_sequence_runs_exactly_n (spin : Nat) (c : Camera) (n : Nat) (hn : 1 ≤ n)
    (hnum : c.thd_.numImages_ = (n : Int)) (hctr : c.thd_.imageCounter_ = 0)
    (hall : ∀ ck, LoopReaches spin c ck →
      ∃ c1, ThreadRun spin ck.thd_.startTime_ ck = some (.ret DEVICE_OK, c1) ∧
        (pollIsStopped c1).1 = false) :
    ∃ c', svc spin c = some (DEVICE_OK, c') ∧
      captureSteps c'.host.log = captureSteps c.host.log + n ∧
      framesPushed c'.host.log = framesPushed c.host.log + n ∧
      acceptedPushes c'.host.log = acceptedPushes c.host.log + n := by
  have hm : longPred c.thd_.numImages_ - c.thd_.imageCounter_ = ((n - 1 : Nat) : Int) := by
    rw [hnum, hctr, longPred_of_ge _ (by unfold LONG_MAX; omega)]; omega
  obtain ⟨c1, k1, k2, k3, k4⟩ := svcLoop_all_ok spin (n - 1) c DEVICE_ERR hm hall
  have hb : passBound c = n - 1 + 1 := by
    unfold passBound; rw [hm]; simp
  rw [← hb] at k1
  obtain ⟨r, c', tl, b1, b2, b3, b4, b4', _, _, b7⟩ := svc_of_loop _ _ _ _ k1
  have hr : r = DEVICE_OK := b7 _ rfl
  subst hr
  refine ⟨c', b1, ?_, ?_, ?_⟩
  · rw [b2]
    simp only [captureSteps, List.count_append] at *
    rw [k2, b3]
    simp
    omega
  · rw [b2]
    simp only [framesPushed, List.countP_append] at *
    rw [k4, b4']
    simp [Event.isFirstPush]
    omega
  · rw [b2]
    simp only [acceptedPushes, List.countP_append] at *
    rw [k3, b4]
    simp [Event.isAccepted]
    omega

theorem svcPass_again_ret (spin : Nat) (ret ret' r : Int) (c c2 : Camera)
    (h : svcPass spin ret c = some (.again r c2)) :
    svcPass spin ret' c = some (.again r c2) := by
  unfold svcPass at h ⊢
  split at h
  · simp at h
  · simp at h
  · simp at h
  · exact h

theorem LoopReaches.cases_head {spin : Nat} {c ck : Camera} (h : LoopReaches spin c ck) :
    ck = c ∨ ∃ r c2, svcPass spin DEVICE_OK c = some (.again r c2) ∧ LoopReaches spin c2 ck := by
  induction h with
  | start => exact Or.inl rfl
  | next hreach hp ih =>
    rename_i ck0 c3 ret r
    rcases ih with rfl | ⟨r1, c2, h1, h2⟩
    · exact Or.inr ⟨r, c3, svcPass_again_ret _ _ _ _ _ _ hp, .start⟩
    · exact Or.inr ⟨r1, c2, h1, .next h2 hp⟩

theorem stepOk_spec (spin : Nat) (c : Camera) (h : stepOk spin c = true) :
    ∃ c1, ThreadRun spin c.thd_.startTime_ c = some (.ret DEVICE_OK, c1) ∧
      (pollIsStopped c1).1 = false := by
  unfold stepOk at h
  split at h
  · rename_i r c1 hrun
    simp only [Bool.and_eq_true, decide_eq_true_eq, Bool.not_eq_true'] at h
    exact ⟨c1, by rw [hrun, h.1], h.2⟩
  · simp at h

theorem nextPass_of_again (spin : Nat) (c c2 : Camera) (r : Int)
    (h : svcPass spin DEVICE_OK c = some (.again r c2)) : nextPass spin c = some c2 := by
  unfold nextPass; rw [h]

theorem chainOk_spec (spin : Nat) :
    ∀ (fuel : Nat) (c : Camera), chainOk spin fuel c = true →
      ∀ ck, LoopReaches spin c ck → stepOk spin ck = true := by
  intro fuel
  induction fuel with
  | zero => intro c h; simp [chainOk] at h
  | succ n ih =>
    intro c h ck hck
    unfold chainOk at h
    rw [Bool.and_eq_true] at h
    rcases hck.cases_head with rfl | ⟨r, c2, h1, h2⟩
    · exact h.1
    · have h3 := h.2
      rw [nextPass_of_again _ _ _ _ h1] at h3
      exact ih c2 h3 ck h2

/-- C2, witness: the running camera, asked for three frames on the quiet
host, runs the capture step three times and has three frames accepted. -/
theorem C2_sequence_runs_exactly_n_witness :
    ∃ c', svc 10 runningCamera = some (DEVICE_OK, c') ∧
      captureSteps c'.host.log = captureSteps runningCamera.host.log + 3 ∧
      framesPushed c'.host.log = framesPushed runningCamera.host.log + 3 ∧
      acceptedPushes c'.host.log = acceptedPushes runningCamera.host.log + 3 :=
  C2_sequence_runs_exactly_n 10 runningCamera 3 (by decide) (by decide) (by decide)
    (fun ck hck => stepOk_spec 10 ck (chainOk_spec 10 5 runningCamera (by decide) ck hck))

/-! ## Stopping -/

theorem svc_stopped (spin : Nat) (c c' : Camera) (r : Int) (h : svc spin c = some (r, c')) :
    c'.thd_.stop_ = true := by
  unfold svc at h
  split at h
  · simp at h
  · rw [← (Prod.mk.inj (Option.some.inj h)).2]
    rfl

theorem OnBinning_not_busy (v : Int) (c : Camera) (h : IsCapturing c = false) :
    (OnBinning v .AfterSet c).ret ≠ DEVICE_CAMERA_BUSY_ACQUIRING := by
  have h2 : ¬ IsCapturing (hubError c).2 = true := by
    show ¬ IsCapturing c = true
    simp [h]
  unfold OnBinning
  dsimp only
  split_ifs <;>
    first
    | exact absurd ‹IsCapturing (hubError c).2 = true› h2
    | simp [SIMULATED_ERROR, DEVICE_OK, DEVICE_ERR, ERR_UNKNOWN_MODE,
        DEVICE_CAMERA_BUSY_ACQUIRING]

theorem OnPixelType_not_busy (v : String) (c : Camera) (h : IsCapturing c = false) :
    (OnPixelType v .AfterSet c).ret ≠ DEVICE_CAMERA_BUSY_ACQUIRING := by
  have h2 : ¬ IsCapturing (hubError c).2 = true := by
    show ¬ IsCapturing c = true
    simp [h]
  unfold OnPixelType
  dsimp only
  split_ifs <;>
    first
    | exact absurd ‹IsCapturing (hubError c).2 = true› h2
    | simp [SIMULATED_ERROR, DEVICE_OK, DEVICE_ERR, ERR_UNKNOWN_MODE,
        DEVICE_CAMERA_BUSY_ACQUIRING]

theorem OnBitDepth_not_busy (v : Int) (c : Camera) (h : IsCapturing c = false) :
    (OnBitDepth v .AfterSet c).ret ≠ DEVICE_CAMERA_BUSY_ACQUIRING := by
  have h2 : ¬ IsCapturing (hubError c).2 = true := by
    show ¬ IsCapturing c = true
    simp [h]
  unfold OnBitDepth
  by_cases hf : (hubError c).1 = true
  · rw [if_pos hf]; exact (by decide : SIMULATED_ERROR ≠ DEVICE_CAMERA_BUSY_ACQUIRING)
  · rw [if_neg hf]
    dsimp only
    rw [if_neg h2]
    show (if v = 8 then ((1 : Nat), (8 : Int), DEVICE_OK, v)
          else if v = 10 then (2, 10, DEVICE_OK, v)
          else if v = 12 then (2, 12, DEVICE_OK, v)
          else if v = 14 then (2, 14, DEVICE_OK, v)
          else if v = 16 then (1, 8, DEVICE_OK, v)
          else if v = 32 then (4, 32, DEVICE_OK, v)
          else (1, 8, ERR_UNKNOWN_MODE, 8)).2.2.1 ≠ DEVICE_CAMERA_BUSY_ACQUIRING
    split_ifs
    all_goals
      first
      | exact (by decide : DEVICE_OK ≠ DEVICE_CAMERA_BUSY_ACQUIRING)
      | exact (by decide : ERR_UNKNOWN_MODE ≠ DEVICE_CAMERA_BUSY_ACQUIRING)

/-- C4: when the fault injector does not trigger at its entry, a call of
`StopSequenceAcquisition` on a running sequence that returns has returned
`DEVICE_OK`, `IsCapturing()` is false afterwards, and the `AfterSet` action of
`OnBinning`, `OnPixelType` and `OnBitDepth` issued next does not return
`DEVICE_CAMERA_BUSY_ACQUIRING`, whatever the value. -/
theorem C4_stop_then_format_mutation (spin : Nat) (c c' : Camera) (r : Int)
    (hfault : (c.host.callbackRegistered && (hubError c).1) = false)
    (hrun : IsCapturing c = true)
    (hret : StopSequenceAcquisition spin c = some (r, c')) :
    r = DEVICE_OK ∧ IsCapturing c' = false ∧
    (∀ v, (OnBinning v .AfterSet c').ret ≠ DEVICE_CAMERA_BUSY_ACQUIRING) ∧
    (∀ v, (OnPixelType v .AfterSet c').ret ≠ DEVICE_CAMERA_BUSY_ACQUIRING) ∧
    (∀ v, (OnBitDepth v .AfterSet c').ret ≠ DEVICE_CAMERA_BUSY_ACQUIRING) := by
  have hstop : c.thd_.stop_ = false := by
    unfold IsCapturing at hrun; simpa using hrun
  have key : r = DEVICE_OK ∧ c'.thd_.stop_ = true := by
    unfold StopSequenceAcquisition at hret
    cases hcb : c.host.callbackRegistered
    · rw [hcb] at hret
      simp only [Bool.false_eq_true, if_false, MySequenceThread.IsStopped, hstop,
        Bool.not_false, if_true] at hret
      split at hret
      · simp at hret
      · rename_i x c2 hsvc
        obtain ⟨rfl, rfl⟩ := Prod.mk.inj (Option.some.inj hret)
        exact ⟨rfl, svc_stopped _ _ _ _ hsvc⟩
    · rw [hcb] at hfault hret
      simp only [Bool.true_and] at hfault
      have hstop2 : (hubError c).2.thd_.stop_ = false := hstop
      simp only [if_true, hfault, Bool.false_eq_true, if_false, MySequenceThread.IsStopped,
        hstop2, Bool.not_false] at hret
      split at hret
      · simp at hret
      · rename_i x c2 hsvc
        obtain ⟨rfl, rfl⟩ := Prod.mk.inj (Option.some.inj hret)
        exact ⟨rfl, svc_stopped _ _ _ _ hsvc⟩
  have hidle : IsCapturing c' = false := by
    unfold IsCapturing; simp [key.2]
  exact ⟨key.1, hidle, fun v => OnBinning_not_busy v c' hidle,
    fun v => OnPixelType_not_busy v c' hidle, fun v => OnBitDepth_not_busy v c' hidle⟩

/-- C4, witness: stopping the running camera returns, and binning 2 is then
accepted. -/
theorem C4_stop_then_format_mutation_witness :
    ∃ c', StopSequenceAcquisition 10 runningCamera = some (DEVICE_OK, c') ∧
      IsCapturing c' = false ∧
      (OnBinning 2 .AfterSet c').ret ≠ DEVICE_CAMERA_BUSY_ACQUIRING :=
  match h : StopSequenceAcquisition 10 runningCamera with
  | some (r, c') =>
    have k := C4_stop_then_format_mutation 10 runningCamera c' r (by decide) (by decide) h
    ⟨c', by rw [k.1], k.2.1, k.2.2.1 2⟩
  | none => absurd (congrArg Option.isSome h) (by decide)

/-! ## Length and cursor of the exposure sequence -/

/-- C11, counterexample: on a list already at the maximum length 100,
`AddToExposureSequence` returns `DEVICE_OK` and the list has 101 entries. -/
theorem C11_counterexample :
    (fullSequenceCamera.exposureSequence_.length : Int) = fullSequenceCamera.sequenceMaxLength_ ∧
    GetExposureSequenceMaxLength fullSequenceCamera = (DEVICE_OK, 100) ∧
    (AddToExposureSequence 7 fullSequenceCamera).1 = DEVICE_OK ∧
    (AddToExposureSequence 7 fullSequenceCamera).2.exposureSequence_.length = 101 := by
  decide

/-- C11, as amended: `AddToExposureSequence` appends the value to the end of
the exposure list and returns `DEVICE_OK` whatever the length of the list,
also when it is at or beyond the maximum sequence length; that maximum
(`sequenceMaxLength_`) is only reported, by `GetExposureSequenceMaxLength`,
and neither call changes it. -/
theorem C11_add_always_appends (c : Camera) (exposureTime_ms : ℚ) :
    (AddToExposureSequence exposureTime_ms c).1 = DEVICE_OK ∧
    (AddToExposureSequence exposureTime_ms c).2.exposureSequence_ =
      c.exposureSequence_ ++ [exposureTime_ms] ∧
    (AddToExposureSequence exposureTime_ms c).2.exposureSequence_.length =
      c.exposureSequence_.length + 1 ∧
    (AddToExposureSequence exposureTime_ms c).2.sequenceMaxLength_ = c.sequenceMaxLength_ ∧
    GetExposureSequenceMaxLength c = (DEVICE_OK, c.sequenceMaxLength_) := by
  refine ⟨rfl, rfl, ?_, rfl, rfl⟩
  show (c.exposureSequence_ ++ [exposureTime_ms]).length = _
  simp

/-- C12, counterexample: after two reads of the list 5, 10, 15 the cursor is
2, and `ClearExposureSequence` empties the list but leaves the cursor at 2. -/
theorem C12_counterexample :
    (afterSequenceCalls 2 sequencedCamera).sequenceIndex_ = 2 ∧
    (ClearExposureSequence (afterSequenceCalls 2 sequencedCamera)).2.exposureSequence_ = [] ∧
    (ClearExposureSequence (afterSequenceCalls 2 sequencedCamera)).2.sequenceIndex_ = 2 := by
  decide

/-- C12, as amended: `ClearExposureSequence` returns `DEVICE_OK`, leaves the
exposure list empty and leaves the playback cursor where it was, whatever the
list and the cursor were before. -/
theorem C12_clear_keeps_cursor (c : Camera) :
    (ClearExposureSequence c).1 = DEVICE_OK ∧
    (ClearExposureSequence c).2.exposureSequence_ = [] ∧
    (ClearExposureSequence c).2.sequenceIndex_ = c.sequenceIndex_ :=
  ⟨rfl, rfl, rfl⟩

/-- C13, the code at a failing input: from the initial camera, three
additions, two reads, a clear and one addition leave a one-entry list with the
cursor at 2, so the next `GetSequenceExposure` reads past the end of the list
(the model yields the out-of-range value of the host). -/
theorem C13_cursor_past_the_end :
    (runSequenceOps [.add 5, .add 10, .add 15, .get, .get, .clear, .add 7]
      idleCamera).exposureSequence_ = [7] ∧
    (runSequenceOps [.add 5, .add 10, .add 15, .get, .get, .clear, .add 7]
      idleCamera).sequenceIndex_ = 2 ∧
    ¬ ((runSequenceOps [.add 5, .add 10, .add 15, .get, .get, .clear, .add 7]
        idleCamera).sequenceIndex_ <
      (runSequenceOps [.add 5, .add 10, .add 15, .get, .get, .clear, .add 7]
        idleCamera).exposureSequence_.length) ∧
    (GetSequenceExposure (runSequenceOps [.add 5, .add 10, .add 15, .get, .get, .clear, .add 7]
      idleCamera)).1 = idleCamera.host.wild := by
  decide

/-! ## Sensor size and pixel type -/

theorem toUnsigned_tdiv (v b : Int) (hb : 0 < b) (hv : 0 ≤ v) (hlt : v < 4294967296) :
    toUnsigned (Int.tdiv v b) = (v / b).toNat := by
  unfold toUnsigned
  rw [Int.tdiv_eq_ediv hv (le_of_lt hb)]
  have h0 : 0 ≤ v / b := Int.ediv_nonneg hv (le_of_lt hb)
  have h1 : v / b ≤ v := Int.ediv_le_self b hv
  rw [Int.emod_eq_of_lt h0 (by omega)]

/-- C19: with no fault at entry, the `AfterSet` action of `OnCameraCCDXSize`
and of `OnCameraCCDYSize` succeeds if and only if 16 <= value <= 33000; a
rejected value returns `DEVICE_ERR` and leaves both sensor sizes and the buffer
unchanged; an accepted value that differs from the current one is stored and
the buffer is resized to the sensor sizes divided by the binning factor, the
bytes per pixel being kept. -/
theorem C19_sensor_size_range (c : Camera) (value : Int) (hfault : (hubError c).1 = false) :
    (((OnCameraCCDXSize value .AfterSet c).ret = DEVICE_OK ↔ 16 ≤ value ∧ value ≤ 33000) ∧
      (¬ (16 ≤ value ∧ value ≤ 33000) →
        (OnCameraCCDXSize value .AfterSet c).ret = DEVICE_ERR ∧
        (OnCameraCCDXSize value .AfterSet c).cam.cameraCCDXSize_ = c.cameraCCDXSize_ ∧
        (OnCameraCCDXSize value .AfterSet c).cam.cameraCCDYSize_ = c.cameraCCDYSize_ ∧
        (OnCameraCCDXSize value .AfterSet c).cam.img_ = c.img_) ∧
      (16 ≤ value ∧ value ≤ 33000 → value ≠ c.cameraCCDXSize_ →
        (OnCameraCCDXSize value .AfterSet c).cam.cameraCCDXSize_ = value ∧
        (OnCameraCCDXSize value .AfterSet c).cam.cameraCCDYSize_ = c.cameraCCDYSize_ ∧
        (OnCameraCCDXSize value .AfterSet c).cam.img_.width =
          toUnsigned (Int.tdiv value c.binSize_) ∧
        (OnCameraCCDXSize value .AfterSet c).cam.img_.height =
          toUnsigned (Int.tdiv c.cameraCCDYSize_ c.binSize_) ∧
        (OnCameraCCDXSize value .AfterSet c).cam.img_.depth = c.img_.depth ∧
        (0 < c.binSize_ →
          (OnCameraCCDXSize value .AfterSet c).cam.img_.width = (value / c.binSize_).toNat))) ∧
    (((OnCameraCCDYSize value .AfterSet c).ret = DEVICE_OK ↔ 16 ≤ value ∧ value ≤ 33000) ∧
      (¬ (16 ≤ value ∧ value ≤ 33000) →
        (OnCameraCCDYSize value .AfterSet c).ret = DEVICE_ERR ∧
        (OnCameraCCDYSize value .AfterSet c).cam.cameraCCDXSize_ = c.cameraCCDXSize_ ∧
        (OnCameraCCDYSize value .AfterSet c).cam.cameraCCDYSize_ = c.cameraCCDYSize_ ∧
        (OnCameraCCDYSize value .AfterSet c).cam.img_ = c.img_) ∧
      (16 ≤ value ∧ value ≤ 33000 → value ≠ c.cameraCCDYSize_ →
        (OnCameraCCDYSize value .AfterSet c).cam.cameraCCDYSize_ = value ∧
        (OnCameraCCDYSize value .AfterSet c).cam.cameraCCDXSize_ = c.cameraCCDXSize_ ∧
        (OnCameraCCDYSize value .AfterSet c).cam.img_.width =
          toUnsigned (Int.tdiv c.cameraCCDXSize_ c.binSize_) ∧
        (OnCameraCCDYSize value .AfterSet c).cam.img_.height =
          toUnsigned (Int.tdiv value c.binSize_) ∧
        (OnCameraCCDYSize value .AfterSet c).cam.img_.depth = c.img_.depth ∧
        (0 < c.binSize_ →
          (OnCameraCCDYSize value .AfterSet c).cam.img_.height = (value / c.binSize_).toNat))) := by
  have hne : ¬ (hubError c).1 = true := by simp [hfault]
  constructor
  · unfold OnCameraCCDXSize
    dsimp only
    rw [if_neg hne]
    by_cases hr : value < 16 ∨ 33000 < value
    · rw [if_pos hr]
      refine ⟨⟨fun h => absurd h (by decide : ¬ DEVICE_ERR = DEVICE_OK), fun h => by omega⟩,
        fun _ => ⟨rfl, rfl, rfl, rfl⟩, fun h _ => by omega⟩
    · rw [if_neg hr]
      have hin : 16 ≤ value ∧ value ≤ 33000 := by omega
      by_cases hd : value ≠ (hubError c).2.cameraCCDXSize_
      · rw [if_pos hd]
        refine ⟨⟨fun _ => hin, fun _ => rfl⟩, fun h => absurd hin h,
          fun _ _ => ⟨rfl, rfl, rfl, rfl, rfl, fun hb => ?_⟩⟩
        exact toUnsigned_tdiv value c.binSize_ hb (by omega) (by omega)
      · rw [if_neg hd]
        refine ⟨⟨fun _ => hin, fun _ => rfl⟩, fun h => absurd hin h,
          fun _ hne2 => absurd hne2 hd⟩
  · unfold OnCameraCCDYSize
    dsimp only
    rw [if_neg hne]
    by_cases hr : value < 16 ∨ 33000 < value
    · rw [if_pos hr]
      refine ⟨⟨fun h => absurd h (by decide : ¬ DEVICE_ERR = DEVICE_OK), fun h => by omega⟩,
        fun _ => ⟨rfl, rfl, rfl, rfl⟩, fun h _ => by omega⟩
    · rw [if_neg hr]
      have hin : 16 ≤ value ∧ value ≤ 33000 := by omega
      by_cases hd : value ≠ (hubError c).2.cameraCCDYSize_
      · rw [if_pos hd]
        refine ⟨⟨fun _ => hin, fun _ => rfl⟩, fun h => absurd hin h,
          fun _ _ => ⟨rfl, rfl, rfl, rfl, rfl, fun hb => ?_⟩⟩
        exact toUnsigned_tdiv value c.binSize_ hb (by omega) (by omega)
      · rw [if_neg hd]
        refine ⟨⟨fun _ => hin, fun _ => rfl⟩, fun h => absurd hin h,
          fun _ hne2 => absurd hne2 hd⟩

/-- C19, witness: on the initial camera the width 1000 is accepted and resizes
the buffer to 1000 x 1088, and the height 15 is rejected. -/
theorem C19_sensor_size_range_witness :
    (OnCameraCCDXSize 1000 .AfterSet idleCamera).cam.img_.width = (1000 / 1 : Int).toNat ∧
    (OnCameraCCDYSize 15 .AfterSet idleCamera).ret = DEVICE_ERR :=
  ⟨((C19_sensor_size_range idleCamera 1000 (by decide)).1.2.2 (by decide) (by decide)).2.2.2.2.2
      (by decide),
   ((C19_sensor_size_range idleCamera 15 (by decide)).2.2.1 (by decide)).1⟩

theorem OnPixelType_AfterSet_idle (v : String) (c : Camera) (hfault : (hubError c).1 = false)
    (hidle : IsCapturing c = false) :
    OnPixelType v .AfterSet c =
      (if v = g_PixelType_8bit then
        ⟨DEVICE_OK, v, { (hubError c).2 with
          nComponents_ := 1, img_ := c.img_.Resize3 c.img_.width c.img_.height 1,
          bitDepth_ := 8 }⟩
      else if v = g_PixelType_16bit then
        ⟨DEVICE_OK, v, { (hubError c).2 with
          nComponents_ := 1, img_ := c.img_.Resize3 c.img_.width c.img_.height 2 }⟩
      else if v = g_PixelType_32bitRGB then
        ⟨DEVICE_OK, v, { (hubError c).2 with
          nComponents_ := 4, img_ := c.img_.Resize3 c.img_.width c.img_.height 4 }⟩
      else if v = g_PixelType_64bitRGB then
        ⟨DEVICE_OK, v, { (hubError c).2 with
          nComponents_ := 4, img_ := c.img_.Resize3 c.img_.width c.img_.height 8 }⟩
      else if v = g_PixelType_32bit then
        ⟨DEVICE_OK, v, { (hubError c).2 with
          nComponents_ := 1, img_ := c.img_.Resize3 c.img_.width c.img_.height 4 }⟩
      else
        ⟨ERR_UNKNOWN_MODE, g_PixelType_8bit, { (hubError c).2 with
          nComponents_ := 1, img_ := c.img_.Resize3 c.img_.width c.img_.height 1 }⟩) := by
  have hne : ¬ (hubError c).1 = true := by simp [hfault]
  have hidle2 : ¬ IsCapturing (hubError c).2 = true := by
    show ¬ IsCapturing c = true
    simp [hidle]
  unfold OnPixelType
  dsimp only
  rw [if_neg hne, if_neg hidle2]
  rfl

/-- C20: after a pixel-type set made while idle with no fault at entry (the
`AfterSet` action of `OnPixelType`), which succeeds for the five type names,
the bytes per pixel of the buffer is 1 for `8bit`, 2 for `16bit`, 4 for
`32bitRGB`, 8 for `64bitRGB` and 4 for `32bit`, whatever the state was, and
the width and height of the buffer are unchanged; and whenever
`ResizeImageBuffer` succeeds, the bytes per pixel it gives the buffer is the
same function of the type name it read from the PixelType property. -/
theorem C20_bytes_per_pixel_of_pixel_type (c : Camera) :
    ((hubError c).1 = false → IsCapturing c = false →
      ((OnPixelType g_PixelType_8bit .AfterSet c).ret = DEVICE_OK ∧
        (OnPixelType g_PixelType_8bit .AfterSet c).cam.img_ =
          ⟨c.img_.width, c.img_.height, 1⟩) ∧
      ((OnPixelType g_PixelType_16bit .AfterSet c).ret = DEVICE_OK ∧
        (OnPixelType g_PixelType_16bit .AfterSet c).cam.img_ =
          ⟨c.img_.width, c.img_.height, 2⟩) ∧
      ((OnPixelType g_PixelType_32bitRGB .AfterSet c).ret = DEVICE_OK ∧
        (OnPixelType g_PixelType_32bitRGB .AfterSet c).cam.img_ =
          ⟨c.img_.width, c.img_.height, 4⟩) ∧
      ((OnPixelType g_PixelType_64bitRGB .AfterSet c).ret = DEVICE_OK ∧
        (OnPixelType g_PixelType_64bitRGB .AfterSet c).cam.img_ =
          ⟨c.img_.width, c.img_.height, 8⟩) ∧
      ((OnPixelType g_PixelType_32bit .AfterSet c).ret = DEVICE_OK ∧
        (OnPixelType g_PixelType_32bit .AfterSet c).cam.img_ =
          ⟨c.img_.width, c.img_.height, 4⟩)) ∧
    ((ResizeImageBuffer c).1 = DEVICE_OK →
      ∃ name, (GetPropertyPixelType (hubError c).2).2.1 = some name ∧
        (name = g_PixelType_8bit → (ResizeImageBuffer c).2.img_.depth = 1) ∧
        (name = g_PixelType_16bit → (ResizeImageBuffer c).2.img_.depth = 2) ∧
        (name = g_PixelType_32bitRGB → (ResizeImageBuffer c).2.img_.depth = 4) ∧
        (name = g_PixelType_64bitRGB → (ResizeImageBuffer c).2.img_.depth = 8) ∧
        (name = g_PixelType_32bit → (ResizeImageBuffer c).2.img_.depth = 4)) := by
  constructor
  · intro hfault hidle
    refine ⟨?_, ?_, ?_, ?_, ?_⟩ <;>
      (rw [OnPixelType_AfterSet_idle _ c hfault hidle]; exact ⟨rfl, rfl⟩)
  · intro hok
    unfold ResizeImageBuffer at hok ⊢
    dsimp only at hok ⊢
    by_cases hf : (hubError c).1 = true
    · rw [if_pos hf] at hok
      exact absurd hok (by decide : ¬ SIMULATED_ERROR = DEVICE_OK)
    · rw [if_neg hf] at hok ⊢
      by_cases hg : (GetPropertyPixelType (hubError c).2).1 ≠ DEVICE_OK
      · rw [if_pos hg] at hok
        exact absurd hok hg
      · rw [if_neg hg]
        have hsome : ∃ name, (GetPropertyPixelType (hubError c).2).2.1 = some name := by
          unfold GetPropertyPixelType at hg ⊢
          dsimp only at hg ⊢
          split
          · rename_i hbad
            rw [if_pos hbad] at hg
            exact absurd hbad (fun h => hg h)
          · exact ⟨_, rfl⟩
        obtain ⟨name, hname⟩ := hsome
        refine ⟨name, hname, ?_, ?_, ?_, ?_, ?_⟩ <;>
          (intro hn
           show (if Option.getD (GetPropertyPixelType (hubError c).2).2.1 _ = g_PixelType_8bit
              then 1 else bytesOfPixelType _ 0) = _
           rw [hname, hn, Option.getD_some]
           rfl)

/-- C20, witness: setting `64bitRGB` on the initial camera gives 8 bytes per
pixel on the same 2040 x 1088 frame. -/
theorem C20_bytes_per_pixel_of_pixel_type_witness :
    (OnPixelType g_PixelType_64bitRGB .AfterSet idleCamera).cam.img_ = ⟨2040, 1088, 8⟩ ∧
    ∃ name, (GetPropertyPixelType (hubError idleCamera).2).2.1 = some name ∧
      (name = g_PixelType_8bit → (ResizeImageBuffer idleCamera).2.img_.depth = 1) :=
  ⟨((C20_bytes_per_pixel_of_pixel_type idleCamera).1 (by decide) (by decide)).2.2.2.1.2,
   match (C20_bytes_per_pixel_of_pixel_type idleCamera).2 (by decide) with
   | ⟨name, h1, h2, _⟩ => ⟨name, h1, h2⟩⟩

/-! ## Setting the binning -/

/-- C15, counterexample: in scan mode 3, where the published binning values
are 1 and 2, the `AfterSet` action of `OnBinning` with 8 succeeds and stores 8,
not the nearest allowed value 2; with 16 it returns `DEVICE_ERR` and stores
nothing. -/
theorem C15_counterexample :
    scanMode3Camera.scanMode_ = 3 ∧ scanMode3Camera.allowedBinning = [1, 2] ∧
    IsCapturing scanMode3Camera = false ∧
    (OnBinning 8 .AfterSet scanMode3Camera).ret = DEVICE_OK ∧
    (OnBinning 8 .AfterSet scanMode3Camera).cam.binSize_ = 8 ∧
    (OnBinning 16 .AfterSet scanMode3Camera).ret = DEVICE_ERR ∧
    (OnBinning 16 .AfterSet scanMode3Camera).cam.binSize_ = 1 := by
  decide

/-- C15, as amended: for every scan mode and every requested binning factor,
allowed for that mode or not, the `AfterSet` action of `OnBinning` while idle
with no fault does not clamp: a factor from 1 to 9 is stored as requested, the
buffer is resized to the sensor sizes divided by it and the call succeeds; any
other factor returns `DEVICE_ERR` and leaves the binning factor and the buffer
unchanged. The scan mode and the published values are not touched. -/
theorem C15_binning_set_does_not_clamp (c : Camera) (binFactor : Int)
    (hfault : (hubError c).1 = false) (hidle : IsCapturing c = false) :
    (0 < binFactor ∧ binFactor < 10 →
      (OnBinning binFactor .AfterSet c).ret = DEVICE_OK ∧
      (OnBinning binFactor .AfterSet c).cam.binSize_ = binFactor ∧
      (OnBinning binFactor .AfterSet c).cam.img_ =
        ⟨toUnsigned (Int.tdiv c.cameraCCDXSize_ binFactor),
         toUnsigned (Int.tdiv c.cameraCCDYSize_ binFactor), c.img_.depth⟩) ∧
    (¬ (0 < binFactor ∧ binFactor < 10) →
      (OnBinning binFactor .AfterSet c).ret = DEVICE_ERR ∧
      (OnBinning binFactor .AfterSet c).cam.binSize_ = c.binSize_ ∧
      (OnBinning binFactor .AfterSet c).cam.img_ = c.img_) ∧
    (OnBinning binFactor .AfterSet c).cam.scanMode_ = c.scanMode_ ∧
    (OnBinning binFactor .AfterSet c).cam.allowedBinning = c.allowedBinning := by
  have hne : ¬ (hubError c).1 = true := by simp [hfault]
  have hidle2 : ¬ IsCapturing (hubError c).2 = true := by
    show ¬ IsCapturing c = true
    simp [hidle]
  unfold OnBinning
  dsimp only
  rw [if_neg hne, if_neg hidle2]
  by_cases hr : binFactor > 0 ∧ binFactor < 10
  · rw [if_pos hr]
    exact ⟨fun _ => ⟨rfl, rfl, rfl⟩, fun h => absurd ⟨hr.1, hr.2⟩ h, rfl, rfl⟩
  · rw [if_neg hr]
    exact ⟨fun h => absurd ⟨h.1, h.2⟩ hr, fun _ => ⟨rfl, rfl, rfl⟩, rfl, rfl⟩

/-- C15, witness: in scan mode 3 the factor 4 is stored as requested. -/
theorem C15_binning_set_does_not_clamp_witness :
    (OnBinning 4 .AfterSet scanMode3Camera).ret = DEVICE_OK ∧
    (OnBinning 4 .AfterSet scanMode3Camera).cam.binSize_ = 4 ∧
    (OnBinning 0 .AfterSet scanMode3Camera).ret = DEVICE_ERR :=
  have h := C15_binning_set_does_not_clamp scanMode3Camera 4 (by decide) (by decide)
  have h0 := C15_binning_set_does_not_clamp scanMode3Camera 0 (by decide) (by decide)
  ⟨(h.1 (by decide)).1, (h.1 (by decide)).2.1, (h0.2.1 (by decide)).1⟩

/-! ## Clearing the region of interest -/

/-- C18, the code at a failing input: on a camera with a 100 x 100 region of
interest at (5, 5) and a full binned geometry of 2040 x 1088, when the fault
injector passes the entry of `ClearROI` (or of `SetROI` with a zero size) and
triggers inside `ResizeImageBuffer`, the call returns `DEVICE_OK` and resets
the ROI origin, but the buffer is still 100 x 100. -/
theorem C18_clear_roi_without_resize :
    (hubError secondDrawFaultRoiCamera).1 = false ∧
    (hubError (hubError secondDrawFaultRoiCamera).2).1 = true ∧
    toUnsigned (Int.tdiv secondDrawFaultRoiCamera.cameraCCDXSize_
      secondDrawFaultRoiCamera.binSize_) = 2040 ∧
    toUnsigned (Int.tdiv secondDrawFaultRoiCamera.cameraCCDYSize_
      secondDrawFaultRoiCamera.binSize_) = 1088 ∧
    (ClearROI secondDrawFaultRoiCamera).1 = DEVICE_OK ∧
    (ClearROI secondDrawFaultRoiCamera).2.img_ = ⟨100, 100, 1⟩ ∧
    (ClearROI secondDrawFaultRoiCamera).2.roiX_ = 0 ∧
    (ClearROI secondDrawFaultRoiCamera).2.roiY_ = 0 ∧
    (SetROI 5 5 0 0 secondDrawFaultRoiCamera).1 = DEVICE_OK ∧
    (SetROI 5 5 0 0 secondDrawFaultRoiCamera).2.img_ = ⟨100, 100, 1⟩ ∧
    (SetROI 5 5 0 0 secondDrawFaultRoiCamera).2.roiX_ = 0 ∧
    (SetROI 5 5 0 0 secondDrawFaultRoiCamera).2.roiY_ = 0 := by
  decide

/-! ## Runs in which the fault injector stays silent -/

theorem NoFaultAhead.entry {c : Camera} (h : NoFaultAhead c) : (hubError c).1 = false :=
  h 0

theorem drawn_self (c : Camera) : Drawn c c := ⟨rfl, rfl, le_refl _⟩

theorem drawn_trans {a b c : Camera} (h1 : Drawn a b) (h2 : Drawn b c) : Drawn a c :=
  ⟨h2.1.trans h1.1, h2.2.1.trans h1.2.1, le_trans h1.2.2 h2.2.2⟩

theorem hubError_drawn (c : Camera) : Drawn c (hubError c).2 :=
  ⟨rfl, rfl, Nat.le_add_right _ _⟩

theorem NoFaultAhead.drawn {c c' : Camera} (h : NoFaultAhead c) (hd : Drawn c c') :
    NoFaultAhead c' := by
  intro k
  obtain ⟨h1, h2, h3⟩ := hd
  have := h (k + (c'.host.randIx - c.host.randIx))
  unfold hubErrorAt at this ⊢
  rw [h1, h2]
  rw [show c'.host.randIx + k = c.host.randIx + (k + (c'.host.randIx - c.host.randIx)) by omega]
  exact this

theorem geometryKept_self (c : Camera) : GeometryKept c c :=
  ⟨rfl, rfl, rfl, rfl, rfl, rfl, drawn_self c⟩

theorem geometryKept_trans {a b c : Camera} (h1 : GeometryKept a b) (h2 : GeometryKept b c) :
    GeometryKept a c :=
  ⟨h2.1.trans h1.1, h2.2.1.trans h1.2.1, h2.2.2.1.trans h1.2.2.1,
   h2.2.2.2.1.trans h1.2.2.2.1, h2.2.2.2.2.1.trans h1.2.2.2.2.1,
   h2.2.2.2.2.2.1.trans h1.2.2.2.2.2.1, drawn_trans h1.2.2.2.2.2.2 h2.2.2.2.2.2.2⟩

theorem hubError_geometryKept (c : Camera) : GeometryKept c (hubError c).2 :=
  ⟨rfl, rfl, rfl, rfl, rfl, rfl, hubError_drawn c⟩

theorem GetImageBytesPerPixel_cam (c : Camera) :
    (GetImageBytesPerPixel c).2 = (hubError c).2 := by
  unfold GetImageBytesPerPixel; dsimp only; split <;> rfl

theorem GetImageBytesPerPixel_value (c : Camera) (h : (hubError c).1 = false) :
    (GetImageBytesPerPixel c).1 = c.img_.depth := by
  unfold GetImageBytesPerPixel; dsimp only; rw [if_neg (by simp [h])]; rfl

theorem OnPixelType_geometryKept (pProp : String) (eAct : ActionType) (c : Camera) :
    GeometryKept c (OnPixelType pProp eAct c).cam := by
  unfold OnPixelType
  dsimp only
  split
  · exact hubError_geometryKept c
  · cases eAct with
    | NoAction => exact hubError_geometryKept c
    | BeforeGet =>
      dsimp only
      rw [GetImageBytesPerPixel_cam]
      have hk : GeometryKept c (hubError (hubError c).2).2 :=
        geometryKept_trans (hubError_geometryKept c) (hubError_geometryKept _)
      split_ifs <;> exact hk
    | AfterSet =>
      dsimp only
      have hk : ∀ n d b, GeometryKept c { (hubError c).2 with
          nComponents_ := n,
          img_ := (hubError c).2.img_.Resize3 (hubError c).2.img_.width
            (hubError c).2.img_.height d,
          bitDepth_ := b } :=
        fun _ _ _ => ⟨rfl, rfl, rfl, rfl, rfl, rfl, hubError_drawn c⟩
      split_ifs
      · exact hubError_geometryKept c
      all_goals exact hk _ _ _

/-! ## Scan mode and the allowed binning values -/

theorem SetPropertyBinning_quiet (v : Int) (c : Camera) (hfault : (hubError c).1 = false)
    (hidle : IsCapturing c = false) (hv : v > 0 ∧ v < 10)
    (hmem : v ∈ c.allowedBinning ∨ c.allowedBinning = []) :
    (SetPropertyBinning v c).2.binSize_ = v ∧
    (SetPropertyBinning v c).2.scanMode_ = c.scanMode_ := by
  have hne : ¬ (hubError { c with propBinning := v }).1 = true := by
    have h : (hubError { c with propBinning := v }).1 = (hubError c).1 := rfl
    simp [h, hfault]
  have hidle2 : ¬ IsCapturing (hubError { c with propBinning := v }).2 = true := by
    show ¬ IsCapturing c = true
    simp [hidle]
  unfold SetPropertyBinning
  rw [if_pos hmem]
  unfold OnBinning
  dsimp only
  rw [if_neg hne, if_neg hidle2, if_pos hv]
  exact ⟨rfl, rfl⟩

theorem SetAllowedBinning_quiet (c : Camera) (hq : NoFaultAhead c)
    (hidle : IsCapturing c = false) (h2 : 2 ∈ c.allowedBinning)
    (h4 : c.binSize_ = 8 → 4 ∈ c.allowedBinning) :
    (SetAllowedBinning c).2.binSize_ = clampedBinning c.binSize_ c.scanMode_ ∧
    (SetAllowedBinning c).2.allowedBinning = allowedBinningFor c.scanMode_ ∧
    (SetAllowedBinning c).2.scanMode_ = c.scanMode_ := by
  have hne : ¬ (hubError c).1 = true := by simp [hq.entry]
  have hf2 : (hubError (hubError c).2).1 = false := (hq.drawn (hubError_drawn c)).entry
  have hidle2 : IsCapturing (hubError c).2 = false := hidle
  have hset2 := SetPropertyBinning_quiet 2 (hubError c).2 hf2 hidle2 (by decide) (Or.inl h2)
  unfold SetAllowedBinning clampedBinning allowedBinningFor
  dsimp only
  rw [if_neg hne]
  have hb : (hubError c).2.binSize_ = c.binSize_ := rfl
  have hs : (hubError c).2.scanMode_ = c.scanMode_ := rfl
  rw [hb, hs]
  by_cases h83 : c.binSize_ = 8 ∧ c.scanMode_ = 3
  · rw [if_pos h83, if_pos h83]
    exact ⟨hset2.1, rfl, hset2.2⟩
  · rw [if_neg h83, if_neg h83]
    by_cases h82 : c.binSize_ = 8 ∧ c.scanMode_ = 2
    · rw [if_pos h82, if_pos h82]
      have hset4 := SetPropertyBinning_quiet 4 (hubError c).2 hf2 hidle2 (by decide)
        (Or.inl (h4 h82.1))
      exact ⟨hset4.1, rfl, hset4.2⟩
    · rw [if_neg h82, if_neg h82]
      by_cases h43 : c.binSize_ = 4 ∧ c.scanMode_ = 3
      · rw [if_pos h43, if_pos h43]
        exact ⟨hset2.1, rfl, hset2.2⟩
      · rw [if_neg h43, if_neg h43]
        exact ⟨rfl, rfl, rfl⟩

theorem OnScanMode_AfterSet_fields (m : Int) (c : Camera) (hfault : (hubError c).1 = false) :
    (OnScanMode m .AfterSet c).cam.binSize_ =
      (SetAllowedBinning { (hubError c).2 with scanMode_ := m }).2.binSize_ ∧
    (OnScanMode m .AfterSet c).cam.allowedBinning =
      (SetAllowedBinning { (hubError c).2 with scanMode_ := m }).2.allowedBinning ∧
    (OnScanMode m .AfterSet c).cam.scanMode_ =
      (SetAllowedBinning { (hubError c).2 with scanMode_ := m }).2.scanMode_ := by
  have hne : ¬ (hubError c).1 = true := by simp [hfault]
  unfold OnScanMode
  dsimp only
  rw [if_neg hne]
  unfold OnPropertiesChanged
  split_ifs <;> exact ⟨rfl, rfl, rfl⟩

/-- C14, the claim as stated fails: from binning 8 in scan mode 1, a change to
scan mode 3 made while a sequence is in flight returns `DEVICE_OK`, publishes
the values 1 and 2 and leaves the binning factor at 8, because the inner
binning write is refused as busy and its code is dropped; and on an idle
camera, when the fault injector passes the entry of `OnScanMode` and triggers
at the entry of `SetAllowedBinning`, the scan mode becomes 3 while the
binning factor stays 8 and the published values stay 1, 2, 4, 8. -/
theorem C14_counterexample :
    binning8RunningCamera.binSize_ = 8 ∧
    (OnScanMode 3 .AfterSet binning8RunningCamera).ret = DEVICE_OK ∧
    (OnScanMode 3 .AfterSet binning8RunningCamera).cam.scanMode_ = 3 ∧
    (OnScanMode 3 .AfterSet binning8RunningCamera).cam.allowedBinning = [1, 2] ∧
    (OnScanMode 3 .AfterSet binning8RunningCamera).cam.binSize_ = 8 ∧
    IsCapturing binning8SecondDrawFaultCamera = false ∧
    (hubError binning8SecondDrawFaultCamera).1 = false ∧
    (OnScanMode 3 .AfterSet binning8SecondDrawFaultCamera).ret = DEVICE_OK ∧
    (OnScanMode 3 .AfterSet binning8SecondDrawFaultCamera).cam.scanMode_ = 3 ∧
    (OnScanMode 3 .AfterSet binning8SecondDrawFaultCamera).cam.allowedBinning = [1, 2, 4, 8] ∧
    (OnScanMode 3 .AfterSet binning8SecondDrawFaultCamera).cam.binSize_ = 8 := by
  decide

/-- C14, amended: on an idle camera on which the fault injector stays silent,
whose published binning values are those of one of the three scan modes and
contain its binning factor, the `AfterSet` action of `OnScanMode` with mode
1, 2 or 3 stores the mode, publishes exactly 1, 2, 4, 8 for mode 1, 1, 2, 4
for mode 2 and 1, 2 for mode 3, and leaves a binning factor that is among the
published values: unchanged when it was already allowed, 4 for 8 in mode 2,
and 2 for 8 or 4 in mode 3. -/
theorem C14_scan_mode_clamps_binning (c : Camera) (m : Int)
    (hm : m = 1 ∨ m = 2 ∨ m = 3)
    (hquiet : NoFaultAhead c) (hidle : IsCapturing c = false)
    (hpub : c.allowedBinning = [1, 2, 4, 8] ∨ c.allowedBinning = [1, 2, 4] ∨
      c.allowedBinning = [1, 2])
    (hbin : c.binSize_ ∈ c.allowedBinning) :
    (OnScanMode m .AfterSet c).cam.scanMode_ = m ∧
    (OnScanMode m .AfterSet c).cam.allowedBinning =
      (if m = 1 then [1, 2, 4, 8] else if m = 2 then [1, 2, 4] else [1, 2]) ∧
    (OnScanMode m .AfterSet c).cam.binSize_ ∈ (OnScanMode m .AfterSet c).cam.allowedBinning ∧
    (c.binSize_ ∈ (OnScanMode m .AfterSet c).cam.allowedBinning →
      (OnScanMode m .AfterSet c).cam.binSize_ = c.binSize_) ∧
    (c.binSize_ = 8 → m = 2 → (OnScanMode m .AfterSet c).cam.binSize_ = 4) ∧
    (c.binSize_ = 8 → m = 3 → (OnScanMode m .AfterSet c).cam.binSize_ = 2) ∧
    (c.binSize_ = 4 → m = 3 → (OnScanMode m .AfterSet c).cam.binSize_ = 2) := by
  have hf := OnScanMode_AfterSet_fields m c hquiet.entry
  have hq1 : NoFaultAhead { (hubError c).2 with scanMode_ := m } :=
    hquiet.drawn (hubError_drawn c)
  have h2 : (2 : Int) ∈ c.allowedBinning := by
    rcases hpub with h | h | h <;> rw [h] <;> decide
  have h4 : c.binSize_ = 8 → (4 : Int) ∈ c.allowedBinning := by
    intro h8
    rw [h8] at hbin
    rcases hpub with h | h | h <;> rw [h] at hbin ⊢ <;> revert hbin <;> decide
  have hb : c.binSize_ = 1 ∨ c.binSize_ = 2 ∨ c.binSize_ = 4 ∨ c.binSize_ = 8 := by
    rcases hpub with h | h | h <;> rw [h] at hbin <;> simp at hbin <;> omega
  have hs := SetAllowedBinning_quiet { (hubError c).2 with scanMode_ := m } hq1 hidle h2 h4
  rw [hf.1, hf.2.1, hf.2.2, hs.1, hs.2.1, hs.2.2]
  show m = m ∧
    allowedBinningFor m = _ ∧
    clampedBinning c.binSize_ m ∈ allowedBinningFor m ∧
    (c.binSize_ ∈ allowedBinningFor m → clampedBinning c.binSize_ m = c.binSize_) ∧
    (c.binSize_ = 8 → m = 2 → clampedBinning c.binSize_ m = 4) ∧
    (c.binSize_ = 8 → m = 3 → clampedBinning c.binSize_ m = 2) ∧
    (c.binSize_ = 4 → m = 3 → clampedBinning c.binSize_ m = 2)
  generalize c.binSize_ = b at hb
  rcases hm with h | h | h <;> rcases hb with h' | h' | h' | h' <;> subst h <;> subst h' <;>
    decide

/-- C14, witness: on the idle camera at binning 8 without a hub, the change to
scan mode 3 leaves binning 2 and publishes 1 and 2. -/
theorem C14_scan_mode_clamps_binning_witness :
    (OnScanMode 3 .AfterSet binning8Camera).cam.scanMode_ = 3 ∧
    (OnScanMode 3 .AfterSet binning8Camera).cam.allowedBinning = [1, 2] ∧
    (OnScanMode 3 .AfterSet binning8Camera).cam.binSize_ = 2 :=
  have h := C14_scan_mode_clamps_binning binning8Camera 3 (by decide) (fun _ => rfl)
    (by decide) (by decide) (by decide)
  ⟨h.1, h.2.1, h.2.2.2.2.2.1 (by decide) rfl⟩

/-! ## Bit depth and the pixel type -/

theorem OnPixelType_BeforeGet_quiet (p : String) (c : Camera) (hfault : (hubError c).1 = false)
    (hfault2 : (hubError (hubError c).2).1 = false) :
    OnPixelType p .BeforeGet c =
      ⟨DEVICE_OK, reportedPixelType { c with propPixelType := p }, (hubError (hubError c).2).2⟩ := by
  have hne : ¬ (hubError c).1 = true := by simp [hfault]
  unfold OnPixelType reportedPixelType
  dsimp only
  rw [if_neg hne, GetImageBytesPerPixel_cam, GetImageBytesPerPixel_value _ hfault2]
  have hd : (hubError c).2.img_.depth = c.img_.depth := rfl
  have hn : (hubError (hubError c).2).2.nComponents_ = c.nComponents_ := rfl
  rw [hd, hn]
  split_ifs <;> rfl

theorem GetPropertyPixelType_quiet (c : Camera) (hfault : (hubError c).1 = false)
    (hfault2 : (hubError (hubError c).2).1 = false) :
    GetPropertyPixelType c =
      (DEVICE_OK, some (reportedPixelType c),
        { (hubError (hubError c).2).2 with propPixelType := reportedPixelType c }) := by
  unfold GetPropertyPixelType
  dsimp only
  rw [OnPixelType_BeforeGet_quiet _ c hfault hfault2]
  rfl

theorem SetPropertyPixelType_quiet (v : String) (c : Camera) (hv : v ∈ pixelTypeValues)
    (hfault : (hubError c).1 = false) (hidle : IsCapturing c = false) :
    (SetPropertyPixelType v c).2.propPixelType = v ∧
    (SetPropertyPixelType v c).2.img_.width = c.img_.width ∧
    (SetPropertyPixelType v c).2.img_.height = c.img_.height ∧
    (v = g_PixelType_16bit → (SetPropertyPixelType v c).2.nComponents_ = 1 ∧
      (SetPropertyPixelType v c).2.img_.depth = 2 ∧
      (SetPropertyPixelType v c).2.bitDepth_ = c.bitDepth_) ∧
    (v = g_PixelType_32bit → (SetPropertyPixelType v c).2.nComponents_ = 1 ∧
      (SetPropertyPixelType v c).2.img_.depth = 4 ∧
      (SetPropertyPixelType v c).2.bitDepth_ = c.bitDepth_) := by
  have hf : (hubError { c with propPixelType := v }).1 = false := hfault
  have hi : IsCapturing { c with propPixelType := v } = false := hidle
  unfold SetPropertyPixelType
  rw [if_pos hv]
  dsimp only
  rw [OnPixelType_AfterSet_idle v _ hf hi]
  have hcases : v = g_PixelType_8bit ∨ v = g_PixelType_16bit ∨ v = g_PixelType_32bitRGB ∨
      v = g_PixelType_64bitRGB ∨ v = g_PixelType_32bit := by
    simpa [pixelTypeValues] using hv
  rcases hcases with h | h | h | h | h <;> subst h
  · rw [if_pos rfl]
    exact ⟨rfl, rfl, rfl, fun h => absurd h (by decide), fun h => absurd h (by decide)⟩
  · rw [if_neg (by decide : ¬ g_PixelType_16bit = g_PixelType_8bit), if_pos rfl]
    exact ⟨rfl, rfl, rfl, fun _ => ⟨rfl, rfl, rfl⟩, fun h => absurd h (by decide)⟩
  · rw [if_neg (by decide : ¬ g_PixelType_32bitRGB = g_PixelType_8bit),
      if_neg (by decide : ¬ g_PixelType_32bitRGB = g_PixelType_16bit), if_pos rfl]
    exact ⟨rfl, rfl, rfl, fun h => absurd h (by decide), fun h => absurd h (by decide)⟩
  · rw [if_neg (by decide : ¬ g_PixelType_64bitRGB = g_PixelType_8bit),
      if_neg (by decide : ¬ g_PixelType_64bitRGB = g_PixelType_16bit),
      if_neg (by decide : ¬ g_PixelType_64bitRGB = g_PixelType_32bitRGB), if_pos rfl]
    exact ⟨rfl, rfl, rfl, fun h => absurd h (by decide), fun h => absurd h (by decide)⟩
  · rw [if_neg (by decide : ¬ g_PixelType_32bit = g_PixelType_8bit),
      if_neg (by decide : ¬ g_PixelType_32bit = g_PixelType_16bit),
      if_neg (by decide : ¬ g_PixelType_32bit = g_PixelType_32bitRGB),
      if_neg (by decide : ¬ g_PixelType_32bit = g_PixelType_64bitRGB), if_pos rfl]
    exact ⟨rfl, rfl, rfl, fun h => absurd h (by decide), fun _ => ⟨rfl, rfl, rfl⟩⟩


theorem reportedPixelType_drawn (c : Camera) (d : Int) :
    reportedPixelType { (hubError c).2 with bitDepth_ := d } = reportedPixelType c := rfl

theorem OnBitDepth_upgrade (d : Int) (k : Nat) (v : String) (c : Camera)
    (hq : NoFaultAhead c) (hidle : IsCapturing c = false)
    (hpix : reportedPixelType c = g_PixelType_8bit)
    (hsw : (if d = 8 then ((1 : Nat), (8 : Int), DEVICE_OK, d)
          else if d = 10 then (2, 10, DEVICE_OK, d)
          else if d = 12 then (2, 12, DEVICE_OK, d)
          else if d = 14 then (2, 14, DEVICE_OK, d)
          else if d = 16 then (1, 8, DEVICE_OK, d)
          else if d = 32 then (4, 32, DEVICE_OK, d)
          else (1, 8, ERR_UNKNOWN_MODE, 8)) = (k, d, DEVICE_OK, d))
    (hk : k = 2 ∧ v = g_PixelType_16bit ∨ k = 4 ∧ v = g_PixelType_32bit) :
    (OnBitDepth d .AfterSet c).ret = DEVICE_OK ∧
    (OnBitDepth d .AfterSet c).prop = d ∧
    (OnBitDepth d .AfterSet c).cam.propPixelType = v ∧
    (OnBitDepth d .AfterSet c).cam.nComponents_ = 1 ∧
    (OnBitDepth d .AfterSet c).cam.img_ = ⟨c.img_.width, c.img_.height, k⟩ ∧
    (OnBitDepth d .AfterSet c).cam.bitDepth_ = d := by
  have hne : ¬ (hubError c).1 = true := by simp [hq.entry]
  have hidle1 : ¬ IsCapturing (hubError c).2 = true := by
    show ¬ IsCapturing c = true
    simp [hidle]
  have hq1 : NoFaultAhead { (hubError c).2 with bitDepth_ := d } := hq.drawn (hubError_drawn c)
  have hq2 : NoFaultAhead (hubError { (hubError c).2 with bitDepth_ := d }).2 :=
    hq1.drawn (hubError_drawn _)
  have hq3 : NoFaultAhead (hubError (hubError { (hubError c).2 with bitDepth_ := d }).2).2 :=
    hq2.drawn (hubError_drawn _)
  have hgp := GetPropertyPixelType_quiet { (hubError c).2 with bitDepth_ := d } hq1.entry hq2.entry
  rw [reportedPixelType_drawn, hpix] at hgp
  unfold OnBitDepth
  dsimp only
  rw [if_neg hne, if_neg hidle1, hsw]
  dsimp only
  rw [hgp]
  dsimp only [Option.getD]
  rw [if_pos rfl]
  have himg : ∀ (b : ImgBuffer) (w h w' h' n : Nat), w = w' → h = h' →
      b.Resize3 w h n = ⟨w', h', n⟩ := by
    intro b w h w' h' n e1 e2
    subst e1
    subst e2
    rfl
  rcases hk with ⟨hk, hv⟩ | ⟨hk, hv⟩ <;> subst hk <;> subst hv
  · rw [if_pos rfl]
    dsimp only
    have hs := SetPropertyPixelType_quiet g_PixelType_16bit
      { (hubError (hubError { (hubError c).2 with bitDepth_ := d }).2).2 with
        propPixelType := g_PixelType_8bit } (by decide) hq3.entry hidle
    exact ⟨rfl, rfl, hs.1, (hs.2.2.2.1 rfl).1, himg _ _ _ _ _ _ hs.2.1 hs.2.2.1,
      (hs.2.2.2.1 rfl).2.2⟩
  · rw [if_neg (by decide), if_pos rfl]
    dsimp only
    have hs := SetPropertyPixelType_quiet g_PixelType_32bit
      { (hubError (hubError { (hubError c).2 with bitDepth_ := d }).2).2 with
        propPixelType := g_PixelType_8bit } (by decide) hq3.entry hidle
    exact ⟨rfl, rfl, hs.1, (hs.2.2.2.2 rfl).1, himg _ _ _ _ _ _ hs.2.1 hs.2.2.1,
      (hs.2.2.2.2 rfl).2.2⟩

/-! ## The geometry of the buffer -/

theorem GeometryKept.invariant {c c' : Camera} {roi : Option (Nat × Nat)}
    (h : GeometryKept c c') (hinv : GeometryInvariant c roi) : GeometryInvariant c' roi := by
  obtain ⟨h1, h2, h3, h4, h5, _, _⟩ := h
  unfold GeometryInvariant expectedGeometry at hinv ⊢
  rw [h1, h2, h3, h4, h5]
  exact hinv

theorem GetPropertyPixelType_geometryKept (c : Camera) :
    GeometryKept c (GetPropertyPixelType c).2.2 := by
  have h := OnPixelType_geometryKept c.propPixelType .BeforeGet c
  unfold GetPropertyPixelType
  dsimp only
  split <;> exact h

theorem SetPropertyPixelType_geometryKept (v : String) (c : Camera) :
    GeometryKept c (SetPropertyPixelType v c).2 := by
  unfold SetPropertyPixelType
  split
  · exact OnPixelType_geometryKept v .AfterSet { c with propPixelType := v }
  · exact geometryKept_self c

theorem OnBitDepth_geometryKept (v : Int) (eAct : ActionType) (c : Camera) :
    GeometryKept c (OnBitDepth v eAct c).cam := by
  cases eAct with
  | NoAction =>
    unfold OnBitDepth
    dsimp only
    split <;> exact hubError_geometryKept c
  | BeforeGet =>
    unfold OnBitDepth
    dsimp only
    split <;> exact hubError_geometryKept c
  | AfterSet =>
    unfold OnBitDepth
    by_cases hf : (hubError c).1 = true
    · rw [if_pos hf]
      exact hubError_geometryKept c
    · rw [if_neg hf]
      dsimp only
      by_cases hcap : IsCapturing (hubError c).2 = true
      · rw [if_pos hcap]
        exact hubError_geometryKept c
      · rw [if_neg hcap]
        generalize (if v = 8 then ((1 : Nat), (8 : Int), DEVICE_OK, v)
          else if v = 10 then (2, 10, DEVICE_OK, v)
          else if v = 12 then (2, 12, DEVICE_OK, v)
          else if v = 14 then (2, 14, DEVICE_OK, v)
          else if v = 16 then (1, 8, DEVICE_OK, v)
          else if v = 32 then (4, 32, DEVICE_OK, v)
          else (1, 8, ERR_UNKNOWN_MODE, 8)) = sw
        have h1 : GeometryKept c { (hubError c).2 with bitDepth_ := sw.2.1 } :=
          ⟨rfl, rfl, rfl, rfl, rfl, rfl, hubError_drawn c⟩
        have h2 := geometryKept_trans h1 (GetPropertyPixelType_geometryKept _)
        have hfin : ∀ (c3 : Camera) (n : Nat), GeometryKept c c3 →
            GeometryKept c { c3 with img_ := c3.img_.Resize3 c3.img_.width c3.img_.height n } :=
          fun c3 n h => h
        apply hfin
        split_ifs
        · exact geometryKept_trans h2 (SetPropertyPixelType_geometryKept _ _)
        · exact geometryKept_trans h2 (SetPropertyPixelType_geometryKept _ _)
        · exact h2
        · exact h2

/-- C16, counterexample: on the initial camera (idle, no hub, the PixelType
property reads `8bit`) the `AfterSet` action of `OnBitDepth` with 12 succeeds
and leaves 2 bytes per pixel, but a read of the PixelType property afterwards
gives `8bit`, not `16bit`: the `BeforeGet` action of `OnPixelType` reports
`8bit` for 2 bytes per pixel. The type name read and the byte depth disagree. -/
theorem C16_counterexample :
    IsCapturing idleCamera = false ∧
    (GetPropertyPixelType idleCamera).2.1 = some g_PixelType_8bit ∧
    (OnBitDepth 12 .AfterSet idleCamera).ret = DEVICE_OK ∧
    (OnBitDepth 12 .AfterSet idleCamera).cam.img_.depth = 2 ∧
    (OnBitDepth 12 .AfterSet idleCamera).cam.bitDepth_ = 12 ∧
    (GetPropertyPixelType (OnBitDepth 12 .AfterSet idleCamera).cam).2.1 =
      some g_PixelType_8bit ∧
    g_PixelType_8bit ≠ g_PixelType_16bit ∧
    (OnBitDepth 12 .AfterSet idleCamera).cam.img_.depth ≠
      bytesOfPixelType g_PixelType_8bit 1 := by
  decide

/-- C16, as amended: on an idle camera on which the fault injector stays
silent and whose PixelType property reads `8bit`, the `AfterSet` action of
`OnBitDepth` with 32 succeeds and ends with one component, 4 bytes per pixel
and bit depth 32, the PixelType property holds `32bit` and a read of it gives
`32bit`; with 10, 12 or 14 it succeeds and ends with one component, 2 bytes
per pixel and that bit depth, the value the handler stored in the PixelType
property is `16bit`, but a read of the property gives `8bit`. In both cases
the buffer width and height are unchanged, and the bytes per pixel is the byte
depth of the type name stored in the property. -/
theorem C16_bit_depth_upgrade_from_mono8 (c : Camera) (hquiet : NoFaultAhead c)
    (hidle : IsCapturing c = false)
    (hpix : (GetPropertyPixelType c).2.1 = some g_PixelType_8bit) :
    ((OnBitDepth 32 .AfterSet c).ret = DEVICE_OK ∧
      (OnBitDepth 32 .AfterSet c).cam.propPixelType = g_PixelType_32bit ∧
      (OnBitDepth 32 .AfterSet c).cam.nComponents_ = 1 ∧
      (OnBitDepth 32 .AfterSet c).cam.img_ = ⟨c.img_.width, c.img_.height, 4⟩ ∧
      (OnBitDepth 32 .AfterSet c).cam.bitDepth_ = 32 ∧
      (OnBitDepth 32 .AfterSet c).cam.img_.depth =
        bytesOfPixelType (OnBitDepth 32 .AfterSet c).cam.propPixelType 0 ∧
      (GetPropertyPixelType (OnBitDepth 32 .AfterSet c).cam).1 = DEVICE_OK ∧
      (GetPropertyPixelType (OnBitDepth 32 .AfterSet c).cam).2.1 = some g_PixelType_32bit) ∧
    (∀ d : Int, d = 10 ∨ d = 12 ∨ d = 14 →
      (OnBitDepth d .AfterSet c).ret = DEVICE_OK ∧
      (OnBitDepth d .AfterSet c).cam.propPixelType = g_PixelType_16bit ∧
      (OnBitDepth d .AfterSet c).cam.nComponents_ = 1 ∧
      (OnBitDepth d .AfterSet c).cam.img_ = ⟨c.img_.width, c.img_.height, 2⟩ ∧
      (OnBitDepth d .AfterSet c).cam.bitDepth_ = d ∧
      (OnBitDepth d .AfterSet c).cam.img_.depth =
        bytesOfPixelType (OnBitDepth d .AfterSet c).cam.propPixelType 0 ∧
      (GetPropertyPixelType (OnBitDepth d .AfterSet c).cam).1 = DEVICE_OK ∧
      (GetPropertyPixelType (OnBitDepth d .AfterSet c).cam).2.1 = some g_PixelType_8bit) := by
  have hq1 : NoFaultAhead (hubError c).2 := hquiet.drawn (hubError_drawn c)
  have hrep : reportedPixelType c = g_PixelType_8bit := by
    rw [GetPropertyPixelType_quiet c hquiet.entry hq1.entry] at hpix
    exact Option.some.inj hpix
  have hread : ∀ d : Int,
      GetPropertyPixelType (OnBitDepth d .AfterSet c).cam =
        (DEVICE_OK, some (reportedPixelType (OnBitDepth d .AfterSet c).cam),
          { (hubError (hubError (OnBitDepth d .AfterSet c).cam).2).2 with
            propPixelType := reportedPixelType (OnBitDepth d .AfterSet c).cam }) := by
    intro d
    have hq2 : NoFaultAhead (OnBitDepth d .AfterSet c).cam :=
      hquiet.drawn (OnBitDepth_geometryKept d .AfterSet c).2.2.2.2.2.2
    have hq3 : NoFaultAhead (hubError (OnBitDepth d .AfterSet c).cam).2 :=
      hq2.drawn (hubError_drawn _)
    exact GetPropertyPixelType_quiet _ hq2.entry hq3.entry
  constructor
  · have h := OnBitDepth_upgrade 32 4 g_PixelType_32bit c hquiet hidle hrep rfl
      (Or.inr ⟨rfl, rfl⟩)
    have hdep : (OnBitDepth 32 .AfterSet c).cam.img_.depth = 4 := by rw [h.2.2.2.2.1]
    refine ⟨h.1, h.2.2.1, h.2.2.2.1, h.2.2.2.2.1, h.2.2.2.2.2, ?_, ?_, ?_⟩
    · rw [h.2.2.2.2.1, h.2.2.1]
      rfl
    · rw [hread 32]
    · rw [hread 32]
      show some (reportedPixelType (OnBitDepth 32 .AfterSet c).cam) = _
      unfold reportedPixelType
      rw [hdep, h.2.2.2.1]
      rfl
  · intro d hd
    have hsw : (if d = 8 then ((1 : Nat), (8 : Int), DEVICE_OK, d)
          else if d = 10 then (2, 10, DEVICE_OK, d)
          else if d = 12 then (2, 12, DEVICE_OK, d)
          else if d = 14 then (2, 14, DEVICE_OK, d)
          else if d = 16 then (1, 8, DEVICE_OK, d)
          else if d = 32 then (4, 32, DEVICE_OK, d)
          else (1, 8, ERR_UNKNOWN_MODE, 8)) = (2, d, DEVICE_OK, d) := by
      rcases hd with h | h | h <;> subst h <;> rfl
    have h := OnBitDepth_upgrade d 2 g_PixelType_16bit c hquiet hidle hrep hsw
      (Or.inl ⟨rfl, rfl⟩)
    have hdep : (OnBitDepth d .AfterSet c).cam.img_.depth = 2 := by rw [h.2.2.2.2.1]
    refine ⟨h.1, h.2.2.1, h.2.2.2.1, h.2.2.2.2.1, h.2.2.2.2.2, ?_, ?_, ?_⟩
    · rw [h.2.2.2.2.1, h.2.2.1]
      rfl
    · rw [hread d]
    · rw [hread d]
      show some (reportedPixelType (OnBitDepth d .AfterSet c).cam) = _
      unfold reportedPixelType
      rw [hdep]
      rfl

/-- C16, witness: the initial camera (mono-8, 2040 x 1088) upgraded to bit
depth 32 and to bit depth 12, and the PixelType property read afterwards. -/
theorem C16_bit_depth_upgrade_from_mono8_witness :
    (OnBitDepth 32 .AfterSet idleCamera).cam.propPixelType = g_PixelType_32bit ∧
    (OnBitDepth 32 .AfterSet idleCamera).cam.img_ = ⟨2040, 1088, 4⟩ ∧
    (GetPropertyPixelType (OnBitDepth 32 .AfterSet idleCamera).cam).2.1 =
      some g_PixelType_32bit ∧
    (OnBitDepth 12 .AfterSet idleCamera).cam.propPixelType = g_PixelType_16bit ∧
    (OnBitDepth 12 .AfterSet idleCamera).cam.img_ = ⟨2040, 1088, 2⟩ ∧
    (OnBitDepth 12 .AfterSet idleCamera).cam.bitDepth_ = 12 ∧
    (GetPropertyPixelType (OnBitDepth 12 .AfterSet idleCamera).cam).2.1 =
      some g_PixelType_8bit :=
  have h := C16_bit_depth_upgrade_from_mono8 idleCamera (fun _ => rfl) (by decide) (by decide)
  ⟨h.1.2.1, h.1.2.2.2.1, h.1.2.2.2.2.2.2.2, (h.2 12 (by decide)).2.1,
   (h.2 12 (by decide)).2.2.2.1, (h.2 12 (by decide)).2.2.2.2.1,
   (h.2 12 (by decide)).2.2.2.2.2.2.2⟩

theorem GetPropertyPixelType_ok (c : Camera) (hfault : (hubError c).1 = false) :
    (GetPropertyPixelType c).1 = DEVICE_OK := by
  have hne : ¬ (hubError c).1 = true := by simp [hfault]
  unfold GetPropertyPixelType OnPixelType
  dsimp only
  rw [if_neg hne]
  split_ifs <;> rfl

theorem ResizeImageBuffer_quiet (c : Camera) (hq : NoFaultAhead c) :
    GeometryInvariant (ResizeImageBuffer c).2 none ∧ Drawn c (ResizeImageBuffer c).2 := by
  have hne : ¬ (hubError c).1 = true := by simp [hq.entry]
  have hq1 : NoFaultAhead (hubError c).2 := hq.drawn (hubError_drawn c)
  have hok := GetPropertyPixelType_ok (hubError c).2 hq1.entry
  have hk := geometryKept_trans (hubError_geometryKept c)
    (GetPropertyPixelType_geometryKept (hubError c).2)
  unfold ResizeImageBuffer
  dsimp only
  rw [if_neg hne, if_neg (by simp [hok])]
  exact ⟨rfl, hk.2.2.2.2.2.2⟩

theorem FormatOp.run_geometry (op : FormatOp) (c : Camera) (roi : Option (Nat × Nat))
    (hq : NoFaultAhead c) (hinv : GeometryInvariant c roi) :
    GeometryInvariant (op.run c).2 (roiAfter op (op.run c).1 c roi) ∧ Drawn c (op.run c).2 := by
  have hne : ¬ (hubError c).1 = true := by simp [hq.entry]
  have hq1 : NoFaultAhead (hubError c).2 := hq.drawn (hubError_drawn c)
  have hg := hubError_geometryKept c
  have hok : ¬ (DEVICE_OK ≠ DEVICE_OK) := by decide
  have hbusy : DEVICE_CAMERA_BUSY_ACQUIRING ≠ DEVICE_OK := by decide
  have herr : DEVICE_ERR ≠ DEVICE_OK := by decide
  cases op with
  | setROI x y xSize ySize =>
    unfold FormatOp.run roiAfter SetROI
    dsimp only
    rw [if_neg hne]
    by_cases hz : xSize = 0 ∧ ySize = 0
    · rw [if_pos hz, if_neg hok, if_pos hz]
      have hr := ResizeImageBuffer_quiet (hubError c).2 hq1
      exact ⟨hr.1, drawn_trans hg.2.2.2.2.2.2 hr.2⟩
    · rw [if_neg hz, if_neg hok, if_neg hz]
      exact ⟨rfl, hg.2.2.2.2.2.2⟩
  | clearROI =>
    unfold FormatOp.run roiAfter ClearROI
    dsimp only
    rw [if_neg hne, if_neg hok]
    have hr := ResizeImageBuffer_quiet (hubError c).2 hq1
    exact ⟨hr.1, drawn_trans hg.2.2.2.2.2.2 hr.2⟩
  | binning v =>
    unfold FormatOp.run roiAfter OnBinning
    dsimp only
    rw [if_neg hne]
    by_cases hcap : IsCapturing (hubError c).2 = true
    · rw [if_pos hcap, if_pos hbusy]
      exact ⟨hg.invariant hinv, hg.2.2.2.2.2.2⟩
    · rw [if_neg hcap]
      by_cases hv : v > 0 ∧ v < 10
      · rw [if_pos hv, if_neg hok]
        exact ⟨rfl, hg.2.2.2.2.2.2⟩
      · rw [if_neg hv, if_pos herr]
        exact ⟨hg.invariant hinv, hg.2.2.2.2.2.2⟩
  | pixelType v =>
    have hk := OnPixelType_geometryKept v .AfterSet c
    have hroi : roiAfter (.pixelType v) (OnPixelType v .AfterSet c).ret c roi = roi := by
      unfold roiAfter
      split <;> rfl
    show GeometryInvariant (OnPixelType v .AfterSet c).cam
        (roiAfter (.pixelType v) (OnPixelType v .AfterSet c).ret c roi) ∧
      Drawn c (OnPixelType v .AfterSet c).cam
    rw [hroi]
    exact ⟨hk.invariant hinv, hk.2.2.2.2.2.2⟩
  | bitDepth v =>
    have hk := OnBitDepth_geometryKept v .AfterSet c
    have hroi : roiAfter (.bitDepth v) (OnBitDepth v .AfterSet c).ret c roi = roi := by
      unfold roiAfter
      split <;> rfl
    show GeometryInvariant (OnBitDepth v .AfterSet c).cam
        (roiAfter (.bitDepth v) (OnBitDepth v .AfterSet c).ret c roi) ∧
      Drawn c (OnBitDepth v .AfterSet c).cam
    rw [hroi]
    exact ⟨hk.invariant hinv, hk.2.2.2.2.2.2⟩
  | ccdXSize v =>
    unfold FormatOp.run roiAfter OnCameraCCDXSize
    dsimp only
    rw [if_neg hne]
    by_cases hr : v < 16 ∨ 33000 < v
    · rw [if_pos hr, if_pos herr]
      exact ⟨hg.invariant hinv, hg.2.2.2.2.2.2⟩
    · rw [if_neg hr]
      by_cases hv : v ≠ c.cameraCCDXSize_
      · have hv2 : v ≠ (hubError c).2.cameraCCDXSize_ := hv
        rw [if_pos hv2, if_neg hok, if_pos hv]
        exact ⟨rfl, hg.2.2.2.2.2.2⟩
      · have hv2 : ¬ v ≠ (hubError c).2.cameraCCDXSize_ := hv
        rw [if_neg hv2, if_neg hok, if_neg hv]
        exact ⟨hg.invariant hinv, hg.2.2.2.2.2.2⟩
  | ccdYSize v =>
    unfold FormatOp.run roiAfter OnCameraCCDYSize
    dsimp only
    rw [if_neg hne]
    by_cases hr : v < 16 ∨ 33000 < v
    · rw [if_pos hr, if_pos herr]
      exact ⟨hg.invariant hinv, hg.2.2.2.2.2.2⟩
    · rw [if_neg hr]
      by_cases hv : v ≠ c.cameraCCDYSize_
      · have hv2 : v ≠ (hubError c).2.cameraCCDYSize_ := hv
        rw [if_pos hv2, if_neg hok, if_pos hv]
        exact ⟨rfl, hg.2.2.2.2.2.2⟩
      · have hv2 : ¬ v ≠ (hubError c).2.cameraCCDYSize_ := hv
        rw [if_neg hv2, if_neg hok, if_neg hv]
        exact ⟨hg.invariant hinv, hg.2.2.2.2.2.2⟩

theorem runAll_geometry (ops : List FormatOp) :
    ∀ (c : Camera) (roi : Option (Nat × Nat)), NoFaultAhead c → GeometryInvariant c roi →
      GeometryInvariant (runAll ops c).2 (trackRoi ops c roi) := by
  induction ops with
  | nil => intro c roi _ hinv; exact hinv
  | cons op ops ih =>
    intro c roi hq hinv
    have hstep := FormatOp.run_geometry op c roi hq hinv
    exact ih (op.run c).2 (roiAfter op (op.run c).1 c roi) (hq.drawn hstep.2) hstep.1

/-- C17, the claim as stated fails: on the initial camera (sensor 2040 x 1088,
binning 1), after `SetROI(0, 0, 100, 100)` a binning set to 2 succeeds and
leaves a 1020 x 544 buffer, and a sensor width set to 1000 succeeds and leaves
a 1000 x 1088 buffer; neither keeps the 100 x 100 ROI size. -/
theorem C17_counterexample :
    (runAll [.setROI 0 0 100 100] idleCamera).2.img_ = ⟨100, 100, 1⟩ ∧
    (runAll [.setROI 0 0 100 100, .binning 2] idleCamera).1 = [DEVICE_OK, DEVICE_OK] ∧
    (runAll [.setROI 0 0 100 100, .binning 2] idleCamera).2.img_ = ⟨1020, 544, 1⟩ ∧
    (runAll [.setROI 0 0 100 100, .ccdXSize 1000] idleCamera).1 = [DEVICE_OK, DEVICE_OK] ∧
    (runAll [.setROI 0 0 100 100, .ccdXSize 1000] idleCamera).2.img_ = ⟨1000, 1088, 1⟩ := by
  decide

/-- C17, amended: count a ROI as set from a successful `SetROI` with a
non-zero size until the next successful `ClearROI`, `SetROI` with a zero
size, binning set, or sensor-size set to a different value (`trackRoi`). When
the fault injector stays silent, every sequence of format mutations run from
a camera whose buffer has the ROI size if a ROI is set and (sensor width /
binning, sensor height / binning) otherwise ends in a camera with the same
property. -/
theorem C17_geometry_invariant (ops : List FormatOp) (c : Camera) (roi : Option (Nat × Nat))
    (hquiet : NoFaultAhead c)
    (hinv : (c.img_.width, c.img_.height) = expectedGeometry c roi) :
    ((runAll ops c).2.img_.width, (runAll ops c).2.img_.height) =
      expectedGeometry (runAll ops c).2 (trackRoi ops c roi) :=
  runAll_geometry ops c roi hquiet hinv

/-- C17, witness: on the initial camera a ROI of 100 x 100 survives a pixel
type and a bit depth set, and after a clear and a binning set to 2 the buffer
is 1020 x 544. -/
theorem C17_geometry_invariant_witness :
    ((runAll [.setROI 5 5 100 100, .pixelType g_PixelType_16bit, .bitDepth 12]
        idleCamera).2.img_.width,
     (runAll [.setROI 5 5 100 100, .pixelType g_PixelType_16bit, .bitDepth 12]
        idleCamera).2.img_.height) = (100, 100) ∧
    ((runAll [.setROI 5 5 100 100, .clearROI, .binning 2] idleCamera).2.img_.width,
     (runAll [.setROI 5 5 100 100, .clearROI, .binning 2] idleCamera).2.img_.height) =
      (1020, 544) :=
  ⟨C17_geometry_invariant
      [.setROI 5 5 100 100, .pixelType g_PixelType_16bit, .bitDepth 12] idleCamera none
      (fun _ => rfl) (by decide),
   C17_geometry_invariant [.setROI 5 5 100 100, .clearROI, .binning 2] idleCamera none
      (fun _ => rfl) (by decide)⟩

/-! ## Reading the pixel type back -/

theorem OnPixelType_AfterSet_drawn (v : String) (c : Camera) :
    Drawn c (OnPixelType v .AfterSet c).cam :=
  (OnPixelType_geometryKept v .AfterSet c).2.2.2.2.2.2

/-- C30: on an idle camera on which the fault injector stays silent, the
`AfterSet` action of `OnPixelType` succeeds for the five type names, and the
`BeforeGet` action run next reports the type that was set for `8bit`,
`32bitRGB`, `64bitRGB` and `32bit`; after `16bit`, which leaves 2 bytes per
pixel, it reports `8bit`. -/
theorem C30_pixel_type_read_back (c : Camera) (hquiet : NoFaultAhead c)
    (hidle : IsCapturing c = false) :
    (∀ v : String, v = g_PixelType_8bit ∨ v = g_PixelType_32bitRGB ∨
        v = g_PixelType_64bitRGB ∨ v = g_PixelType_32bit →
      (OnPixelType v .AfterSet c).ret = DEVICE_OK ∧
      (OnPixelType (OnPixelType v .AfterSet c).prop .BeforeGet
        (OnPixelType v .AfterSet c).cam).ret = DEVICE_OK ∧
      (OnPixelType (OnPixelType v .AfterSet c).prop .BeforeGet
        (OnPixelType v .AfterSet c).cam).prop = v) ∧
    (OnPixelType g_PixelType_16bit .AfterSet c).ret = DEVICE_OK ∧
    (OnPixelType g_PixelType_16bit .AfterSet c).cam.img_.depth = 2 ∧
    (OnPixelType (OnPixelType g_PixelType_16bit .AfterSet c).prop .BeforeGet
      (OnPixelType g_PixelType_16bit .AfterSet c).cam).ret = DEVICE_OK ∧
    (OnPixelType (OnPixelType g_PixelType_16bit .AfterSet c).prop .BeforeGet
      (OnPixelType g_PixelType_16bit .AfterSet c).cam).prop = g_PixelType_8bit := by
  have hread : ∀ v : String,
      OnPixelType (OnPixelType v .AfterSet c).prop .BeforeGet (OnPixelType v .AfterSet c).cam =
        ⟨DEVICE_OK, reportedPixelType { (OnPixelType v .AfterSet c).cam with
            propPixelType := (OnPixelType v .AfterSet c).prop },
          (hubError (hubError (OnPixelType v .AfterSet c).cam).2).2⟩ := by
    intro v
    have hq1 : NoFaultAhead (OnPixelType v .AfterSet c).cam :=
      hquiet.drawn (OnPixelType_AfterSet_drawn v c)
    exact OnPixelType_BeforeGet_quiet _ _ hq1.entry (hq1.drawn (hubError_drawn _)).entry
  have hset := fun v => OnPixelType_AfterSet_idle v c hquiet.entry hidle
  refine ⟨?_, ?_, ?_, ?_, ?_⟩
  · intro v hv
    rw [hread v, hset v]
    rcases hv with h | h | h | h <;> subst h
    · rw [if_pos rfl]
      exact ⟨rfl, rfl, rfl⟩
    · rw [if_neg (by decide : ¬ g_PixelType_32bitRGB = g_PixelType_8bit),
        if_neg (by decide : ¬ g_PixelType_32bitRGB = g_PixelType_16bit), if_pos rfl]
      exact ⟨rfl, rfl, rfl⟩
    · rw [if_neg (by decide : ¬ g_PixelType_64bitRGB = g_PixelType_8bit),
        if_neg (by decide : ¬ g_PixelType_64bitRGB = g_PixelType_16bit),
        if_neg (by decide : ¬ g_PixelType_64bitRGB = g_PixelType_32bitRGB), if_pos rfl]
      exact ⟨rfl, rfl, rfl⟩
    · rw [if_neg (by decide : ¬ g_PixelType_32bit = g_PixelType_8bit),
        if_neg (by decide : ¬ g_PixelType_32bit = g_PixelType_16bit),
        if_neg (by decide : ¬ g_PixelType_32bit = g_PixelType_32bitRGB),
        if_neg (by decide : ¬ g_PixelType_32bit = g_PixelType_64bitRGB), if_pos rfl]
      exact ⟨rfl, rfl, rfl⟩
  · rw [hset, if_neg (by decide : ¬ g_PixelType_16bit = g_PixelType_8bit), if_pos rfl]
  · rw [hset, if_neg (by decide : ¬ g_PixelType_16bit = g_PixelType_8bit), if_pos rfl]
    rfl
  · rw [hread]
  · rw [hread, hset, if_neg (by decide : ¬ g_PixelType_16bit = g_PixelType_8bit), if_pos rfl]
    rfl

/-- C30, witness: on the initial camera `32bitRGB` reads back as itself and
`16bit` reads back as `8bit`. -/
theorem C30_pixel_type_read_back_witness :
    (OnPixelType (OnPixelType g_PixelType_32bitRGB .AfterSet idleCamera).prop .BeforeGet
      (OnPixelType g_PixelType_32bitRGB .AfterSet idleCamera).cam).prop = g_PixelType_32bitRGB ∧
    (OnPixelType (OnPixelType g_PixelType_16bit .AfterSet idleCamera).prop .BeforeGet
      (OnPixelType g_PixelType_16bit .AfterSet idleCamera).cam).prop = g_PixelType_8bit :=
  have h := C30_pixel_type_read_back idleCamera (fun _ => rfl) (by decide)
  ⟨(h.1 g_PixelType_32bitRGB (by decide)).2.2, h.2.2.2.2⟩

/-! ## Reading the bit depth back, validation errors and empty regions -/

theorem OnBitDepth_AfterSet_quiet (d : Int) (k : Nat) (b code p : Int) (c : Camera)
    (hq : NoFaultAhead c) (hidle : IsCapturing c = false)
    (hsw : (if d = 8 then ((1 : Nat), (8 : Int), DEVICE_OK, d)
          else if d = 10 then (2, 10, DEVICE_OK, d)
          else if d = 12 then (2, 12, DEVICE_OK, d)
          else if d = 14 then (2, 14, DEVICE_OK, d)
          else if d = 16 then (1, 8, DEVICE_OK, d)
          else if d = 32 then (4, 32, DEVICE_OK, d)
          else (1, 8, ERR_UNKNOWN_MODE, 8)) = (k, b, code, p))
    (hk : k = 1 ∨ reportedPixelType c ≠ g_PixelType_8bit) :
    (OnBitDepth d .AfterSet c).ret = code ∧
    (OnBitDepth d .AfterSet c).prop = p ∧
    (OnBitDepth d .AfterSet c).cam.bitDepth_ = b ∧
    (OnBitDepth d .AfterSet c).cam.nComponents_ = c.nComponents_ ∧
    (OnBitDepth d .AfterSet c).cam.propPixelType = reportedPixelType c ∧
    (OnBitDepth d .AfterSet c).cam.img_ = ⟨c.img_.width, c.img_.height,
      if reportedPixelType c = g_PixelType_8bit then 1
      else bytesOfPixelType (reportedPixelType c) 1⟩ := by
  have hne : ¬ (hubError c).1 = true := by simp [hq.entry]
  have hidle1 : ¬ IsCapturing (hubError c).2 = true := by
    show ¬ IsCapturing c = true
    simp [hidle]
  have hq1 : NoFaultAhead { (hubError c).2 with bitDepth_ := b } := hq.drawn (hubError_drawn c)
  have hq2 : NoFaultAhead (hubError { (hubError c).2 with bitDepth_ := b }).2 :=
    hq1.drawn (hubError_drawn _)
  have hgp := GetPropertyPixelType_quiet { (hubError c).2 with bitDepth_ := b } hq1.entry hq2.entry
  rw [reportedPixelType_drawn] at hgp
  unfold OnBitDepth
  dsimp only
  rw [if_neg hne, if_neg hidle1, hsw]
  dsimp only
  rw [hgp]
  dsimp only [Option.getD]
  by_cases hrep : reportedPixelType c = g_PixelType_8bit
  · have hk1 : k = 1 := hk.resolve_right (not_not.mpr hrep)
    subst hk1
    rw [if_pos hrep, if_neg (by decide), if_neg (by decide), if_pos hrep]
    exact ⟨rfl, rfl, rfl, rfl, rfl, rfl⟩
  · rw [if_neg hrep, if_neg hrep]
    exact ⟨rfl, rfl, rfl, rfl, rfl, rfl⟩

theorem GetBitDepth_quiet (c : Camera) (h : (hubError c).1 = false) :
    (GetBitDepth c).1 = toUnsigned c.bitDepth_ := by
  unfold GetBitDepth
  dsimp only
  rw [if_neg (by simp [h])]
  rfl

theorem OnBitDepth_BeforeGet_quiet (p : Int) (c : Camera) (h : (hubError c).1 = false) :
    (OnBitDepth p .BeforeGet c).ret = DEVICE_OK ∧
    (OnBitDepth p .BeforeGet c).prop = c.bitDepth_ := by
  unfold OnBitDepth
  dsimp only
  rw [if_neg (by simp [h])]
  exact ⟨rfl, rfl⟩

/-- C29: on an idle camera on which the fault injector stays silent, the
`AfterSet` action of `OnBitDepth` with 8, 10, 12, 14 or 32 succeeds, stores
that bit depth, and `GetBitDepth` and the `BeforeGet` action of the BitDepth
property then report it. With 16 the call also returns `DEVICE_OK`, but the
stored bit depth, the value of `GetBitDepth` and the value the property reports
are 8, and one byte per component is used: when the PixelType property reads
`8bit` it stays `8bit` and the buffer gets 1 byte per pixel. -/
theorem C29_bit_depth_read_back (c : Camera) (hquiet : NoFaultAhead c)
    (hidle : IsCapturing c = false) :
    (∀ d : Int, d = 8 ∨ d = 10 ∨ d = 12 ∨ d = 14 ∨ d = 32 →
      (OnBitDepth d .AfterSet c).ret = DEVICE_OK ∧
      (OnBitDepth d .AfterSet c).cam.bitDepth_ = d ∧
      ((GetBitDepth (OnBitDepth d .AfterSet c).cam).1 : Int) = d ∧
      (OnBitDepth (OnBitDepth d .AfterSet c).prop .BeforeGet
        (OnBitDepth d .AfterSet c).cam).ret = DEVICE_OK ∧
      (OnBitDepth (OnBitDepth d .AfterSet c).prop .BeforeGet
        (OnBitDepth d .AfterSet c).cam).prop = d) ∧
    (OnBitDepth 16 .AfterSet c).ret = DEVICE_OK ∧
    (OnBitDepth 16 .AfterSet c).cam.bitDepth_ = 8 ∧
    (GetBitDepth (OnBitDepth 16 .AfterSet c).cam).1 = 8 ∧
    (OnBitDepth (OnBitDepth 16 .AfterSet c).prop .BeforeGet
      (OnBitDepth 16 .AfterSet c).cam).ret = DEVICE_OK ∧
    (OnBitDepth (OnBitDepth 16 .AfterSet c).prop .BeforeGet
      (OnBitDepth 16 .AfterSet c).cam).prop = 8 ∧
    ((GetPropertyPixelType c).2.1 = some g_PixelType_8bit →
      (OnBitDepth 16 .AfterSet c).cam.propPixelType = g_PixelType_8bit ∧
      (OnBitDepth 16 .AfterSet c).cam.img_ = ⟨c.img_.width, c.img_.height, 1⟩) := by
  have hq1 : NoFaultAhead (hubError c).2 := hquiet.drawn (hubError_drawn c)
  have hafter : ∀ d : Int, NoFaultAhead (OnBitDepth d .AfterSet c).cam := fun d =>
    hquiet.drawn (OnBitDepth_geometryKept d .AfterSet c).2.2.2.2.2.2
  have hcore : ∀ d : Int, d = 8 ∨ d = 10 ∨ d = 12 ∨ d = 14 ∨ d = 32 →
      (OnBitDepth d .AfterSet c).ret = DEVICE_OK ∧
      (OnBitDepth d .AfterSet c).cam.bitDepth_ = d := by
    intro d hd
    by_cases hrep : reportedPixelType c = g_PixelType_8bit
    · rcases hd with h | h | h | h | h <;> subst h
      · have h := OnBitDepth_AfterSet_quiet 8 1 8 DEVICE_OK 8 c hquiet hidle rfl (Or.inl rfl)
        exact ⟨h.1, h.2.2.1⟩
      · have h := OnBitDepth_upgrade 10 2 g_PixelType_16bit c hquiet hidle hrep rfl
          (Or.inl ⟨rfl, rfl⟩)
        exact ⟨h.1, h.2.2.2.2.2⟩
      · have h := OnBitDepth_upgrade 12 2 g_PixelType_16bit c hquiet hidle hrep rfl
          (Or.inl ⟨rfl, rfl⟩)
        exact ⟨h.1, h.2.2.2.2.2⟩
      · have h := OnBitDepth_upgrade 14 2 g_PixelType_16bit c hquiet hidle hrep rfl
          (Or.inl ⟨rfl, rfl⟩)
        exact ⟨h.1, h.2.2.2.2.2⟩
      · have h := OnBitDepth_upgrade 32 4 g_PixelType_32bit c hquiet hidle hrep rfl
          (Or.inr ⟨rfl, rfl⟩)
        exact ⟨h.1, h.2.2.2.2.2⟩
    · rcases hd with h | h | h | h | h <;> subst h
      · have h := OnBitDepth_AfterSet_quiet 8 1 8 DEVICE_OK 8 c hquiet hidle rfl (Or.inr hrep)
        exact ⟨h.1, h.2.2.1⟩
      · have h := OnBitDepth_AfterSet_quiet 10 2 10 DEVICE_OK 10 c hquiet hidle rfl (Or.inr hrep)
        exact ⟨h.1, h.2.2.1⟩
      · have h := OnBitDepth_AfterSet_quiet 12 2 12 DEVICE_OK 12 c hquiet hidle rfl (Or.inr hrep)
        exact ⟨h.1, h.2.2.1⟩
      · have h := OnBitDepth_AfterSet_quiet 14 2 14 DEVICE_OK 14 c hquiet hidle rfl (Or.inr hrep)
        exact ⟨h.1, h.2.2.1⟩
      · have h := OnBitDepth_AfterSet_quiet 32 4 32 DEVICE_OK 32 c hquiet hidle rfl (Or.inr hrep)
        exact ⟨h.1, h.2.2.1⟩
  have h16 := OnBitDepth_AfterSet_quiet 16 1 8 DEVICE_OK 16 c hquiet hidle rfl (Or.inl rfl)
  refine ⟨?_, h16.1, h16.2.2.1, ?_, ?_, ?_, ?_⟩
  · intro d hd
    have h := hcore d hd
    have hb := OnBitDepth_BeforeGet_quiet (OnBitDepth d .AfterSet c).prop _ (hafter d).entry
    refine ⟨h.1, h.2, ?_, hb.1, hb.2.trans h.2⟩
    rw [GetBitDepth_quiet _ (hafter d).entry, h.2]
    rcases hd with h | h | h | h | h <;> subst h <;> decide
  · rw [GetBitDepth_quiet _ (hafter 16).entry, h16.2.2.1]
    decide
  · exact (OnBitDepth_BeforeGet_quiet _ _ (hafter 16).entry).1
  · exact (OnBitDepth_BeforeGet_quiet _ _ (hafter 16).entry).2.trans h16.2.2.1
  · intro hpix
    have hrep : reportedPixelType c = g_PixelType_8bit := by
      rw [GetPropertyPixelType_quiet c hquiet.entry hq1.entry] at hpix
      exact Option.some.inj hpix
    refine ⟨h16.2.2.2.2.1.trans hrep, ?_⟩
    rw [h16.2.2.2.2.2, if_pos hrep]

/-- C29, witness: on the initial camera 12 reads back as 12, and 16 reads
back as 8 with 1 byte per pixel. -/
theorem C29_bit_depth_read_back_witness :
    (GetBitDepth (OnBitDepth 12 .AfterSet idleCamera).cam).1 = 12 ∧
    (GetBitDepth (OnBitDepth 16 .AfterSet idleCamera).cam).1 = 8 ∧
    (OnBitDepth (OnBitDepth 16 .AfterSet idleCamera).prop .BeforeGet
      (OnBitDepth 16 .AfterSet idleCamera).cam).prop = 8 ∧
    (OnBitDepth 16 .AfterSet idleCamera).cam.img_ = ⟨2040, 1088, 1⟩ :=
  have h := C29_bit_depth_read_back idleCamera (fun _ => rfl) (by decide)
  ⟨Int.ofNat.inj (h.1 12 (by decide)).2.2.1, h.2.2.2.1, h.2.2.2.2.2.1,
   (h.2.2.2.2.2.2 (by decide)).2⟩

/-- C23, the claim as stated fails: on an idle camera without a hub in the
16-bit format at bit depth 12, the `AfterSet` action of `OnBitDepth` with 7
returns `ERR_UNKNOWN_MODE` and leaves bit depth 8 and 1 byte per pixel; on one
in the RGB format (4 components, 4 bytes per pixel) the `AfterSet` action of
`OnPixelType` with the unknown name `12bit` returns `ERR_UNKNOWN_MODE` and
leaves 1 component and 1 byte per pixel. -/
theorem C23_counterexample :
    depth12Camera.bitDepth_ = 12 ∧ depth12Camera.img_ = ⟨2040, 1088, 2⟩ ∧
    (OnBitDepth 7 .AfterSet depth12Camera).ret = ERR_UNKNOWN_MODE ∧
    (OnBitDepth 7 .AfterSet depth12Camera).cam.bitDepth_ = 8 ∧
    (OnBitDepth 7 .AfterSet depth12Camera).cam.img_ = ⟨2040, 1088, 1⟩ ∧
    rgbCamera.nComponents_ = 4 ∧ rgbCamera.img_ = ⟨2040, 1088, 4⟩ ∧
    (OnPixelType "12bit" .AfterSet rgbCamera).ret = ERR_UNKNOWN_MODE ∧
    (OnPixelType "12bit" .AfterSet rgbCamera).cam.nComponents_ = 1 ∧
    (OnPixelType "12bit" .AfterSet rgbCamera).cam.img_ = ⟨2040, 1088, 1⟩ := by
  decide

/-- C23, amended: on an idle camera on which the fault injector stays silent,
the range errors leave the format unchanged and the unknown-mode errors reset
it. A binning factor outside 1..9 and a sensor size outside 16..33000 return
`DEVICE_ERR` and leave the binning factor, the sensor size and the buffer as
they were. A bit depth outside 8, 10, 12, 14, 16, 32 returns
`ERR_UNKNOWN_MODE`, sets the property and the stored bit depth to 8, keeps
the component count and the buffer width and height, and sets the bytes per
pixel to 1 when the PixelType property reads `8bit` and to the byte depth of
the type it reads otherwise. An unknown pixel type name returns
`ERR_UNKNOWN_MODE`, sets the property to `8bit`, the component count to 1 and
the bytes per pixel to 1, and keeps the buffer width and height and the stored
bit depth. -/
theorem C23_validation_errors (c : Camera) (hquiet : NoFaultAhead c)
    (hidle : IsCapturing c = false) :
    (∀ v : Int, ¬ (v > 0 ∧ v < 10) →
      (OnBinning v .AfterSet c).ret = DEVICE_ERR ∧
      (OnBinning v .AfterSet c).cam.binSize_ = c.binSize_ ∧
      (OnBinning v .AfterSet c).cam.img_ = c.img_) ∧
    (∀ v : Int, v < 16 ∨ 33000 < v →
      (OnCameraCCDXSize v .AfterSet c).ret = DEVICE_ERR ∧
      (OnCameraCCDXSize v .AfterSet c).cam.cameraCCDXSize_ = c.cameraCCDXSize_ ∧
      (OnCameraCCDXSize v .AfterSet c).cam.img_ = c.img_ ∧
      (OnCameraCCDYSize v .AfterSet c).ret = DEVICE_ERR ∧
      (OnCameraCCDYSize v .AfterSet c).cam.cameraCCDYSize_ = c.cameraCCDYSize_ ∧
      (OnCameraCCDYSize v .AfterSet c).cam.img_ = c.img_) ∧
    (∀ d : Int, d ≠ 8 → d ≠ 10 → d ≠ 12 → d ≠ 14 → d ≠ 16 → d ≠ 32 →
      (OnBitDepth d .AfterSet c).ret = ERR_UNKNOWN_MODE ∧
      (OnBitDepth d .AfterSet c).prop = 8 ∧
      (OnBitDepth d .AfterSet c).cam.bitDepth_ = 8 ∧
      (OnBitDepth d .AfterSet c).cam.nComponents_ = c.nComponents_ ∧
      (OnBitDepth d .AfterSet c).cam.img_ = ⟨c.img_.width, c.img_.height,
        if reportedPixelType c = g_PixelType_8bit then 1
        else bytesOfPixelType (reportedPixelType c) 1⟩) ∧
    (∀ v : String, v ∉ pixelTypeValues →
      (OnPixelType v .AfterSet c).ret = ERR_UNKNOWN_MODE ∧
      (OnPixelType v .AfterSet c).prop = g_PixelType_8bit ∧
      (OnPixelType v .AfterSet c).cam.nComponents_ = 1 ∧
      (OnPixelType v .AfterSet c).cam.img_ = ⟨c.img_.width, c.img_.height, 1⟩ ∧
      (OnPixelType v .AfterSet c).cam.bitDepth_ = c.bitDepth_) := by
  have hne : ¬ (hubError c).1 = true := by simp [hquiet.entry]
  have hidle1 : ¬ IsCapturing (hubError c).2 = true := by
    show ¬ IsCapturing c = true
    simp [hidle]
  refine ⟨?_, ?_, ?_, ?_⟩
  · intro v hv
    unfold OnBinning
    dsimp only
    rw [if_neg hne, if_neg hidle1, if_neg hv]
    exact ⟨rfl, rfl, rfl⟩
  · intro v hv
    unfold OnCameraCCDXSize OnCameraCCDYSize
    dsimp only
    rw [if_neg hne, if_pos hv, if_neg hne, if_pos hv]
    exact ⟨rfl, rfl, rfl, rfl, rfl, rfl⟩
  · intro d h8 h10 h12 h14 h16 h32
    have h := OnBitDepth_AfterSet_quiet d 1 8 ERR_UNKNOWN_MODE 8 c hquiet hidle
      (by rw [if_neg h8, if_neg h10, if_neg h12, if_neg h14, if_neg h16, if_neg h32])
      (Or.inl rfl)
    exact ⟨h.1, h.2.1, h.2.2.1, h.2.2.2.1, h.2.2.2.2.2⟩
  · intro v hv
    have h8 : ¬ v = g_PixelType_8bit := fun h => hv (by rw [h]; decide)
    have h16 : ¬ v = g_PixelType_16bit := fun h => hv (by rw [h]; decide)
    have h32c : ¬ v = g_PixelType_32bitRGB := fun h => hv (by rw [h]; decide)
    have h64 : ¬ v = g_PixelType_64bitRGB := fun h => hv (by rw [h]; decide)
    have h32 : ¬ v = g_PixelType_32bit := fun h => hv (by rw [h]; decide)
    rw [OnPixelType_AfterSet_idle v c hquiet.entry hidle, if_neg h8, if_neg h16, if_neg h32c,
      if_neg h64, if_neg h32]
    exact ⟨rfl, rfl, rfl, rfl, rfl⟩

/-- C23, witness: on the camera at bit depth 12, binning 12 is refused without
a change and bit depth 7 is refused with a reset to 8. -/
theorem C23_validation_errors_witness :
    (OnBinning 12 .AfterSet depth12Camera).ret = DEVICE_ERR ∧
    (OnBinning 12 .AfterSet depth12Camera).cam.img_ = ⟨2040, 1088, 2⟩ ∧
    (OnBitDepth 7 .AfterSet depth12Camera).ret = ERR_UNKNOWN_MODE ∧
    (OnBitDepth 7 .AfterSet depth12Camera).cam.bitDepth_ = 8 :=
  have h := C23_validation_errors depth12Camera (fun _ => rfl) (by decide)
  have h7 := h.2.2.1 7 (by decide) (by decide) (by decide) (by decide) (by decide) (by decide)
  ⟨(h.1 12 (by decide)).1, (h.1 12 (by decide)).2.2, h7.1, h7.2.2.1⟩

/-- C24, the claim as stated fails: on the initial camera `SetROI(0, 0, 0, 5)`
returns `DEVICE_OK` and leaves a buffer 0 wide and 5 high, and
`SetROI(0, 0, 7, 0)` returns `DEVICE_OK` and leaves a buffer 7 wide and 0
high. -/
theorem C24_counterexample :
    (SetROI 0 0 0 5 idleCamera).1 = DEVICE_OK ∧
    (SetROI 0 0 0 5 idleCamera).2.img_ = ⟨0, 5, 1⟩ ∧
    (SetROI 0 0 7 0 idleCamera).1 = DEVICE_OK ∧
    (SetROI 0 0 7 0 idleCamera).2.img_ = ⟨7, 0, 1⟩ := by
  decide

/-- C24, amended: with no fault at entry, `SetROI` with a size that is not
zero in both directions returns `DEVICE_OK`, resizes the buffer to exactly
the requested width and height, a zero width or a zero height included, keeps
the bytes per pixel and stores the requested origin; no size is rejected. -/
theorem C24_set_roi_resizes_as_asked (c : Camera) (x y xSize ySize : Nat)
    (hfault : (hubError c).1 = false) (hsize : ¬ (xSize = 0 ∧ ySize = 0)) :
    (SetROI x y xSize ySize c).1 = DEVICE_OK ∧
    (SetROI x y xSize ySize c).2.img_ = ⟨xSize, ySize, c.img_.depth⟩ ∧
    (SetROI x y xSize ySize c).2.roiX_ = x ∧
    (SetROI x y xSize ySize c).2.roiY_ = y := by
  unfold SetROI
  dsimp only
  rw [if_neg (by simp [hfault]), if_neg hsize]
  exact ⟨rfl, rfl, rfl, rfl⟩

/-- C24, witness: `SetROI(3, 4, 0, 5)` on the initial camera. -/
theorem C24_set_roi_resizes_as_asked_witness :
    (SetROI 3 4 0 5 idleCamera).1 = DEVICE_OK ∧
    (SetROI 3 4 0 5 idleCamera).2.img_ = ⟨0, 5, 1⟩ :=
  have h := C24_set_roi_resizes_as_asked idleCamera 3 4 0 5 (by decide) (by decide)
  ⟨h.1, h.2.1⟩

/-! ## Pacing of the capture step -/

theorem PacingPolls.imageCounter {startTime : Int} {c ck : Camera}
    (h : PacingPolls startTime c ck) : ck.imageCounter_ = c.imageCounter_ := by
  induction h with
  | here c => rfl
  | behind _ _ ih => rw [ih, GetSequenceExposure_imageCounter]; rfl

/-- With a non-empty exposure list, the pacing loop advances the playback
cursor once per poll: a loop that ends after `k` polls (`k` readings of the
clock) leaves the cursor `k` positions further, modulo the length of the
list. -/
theorem pacingWait_cursor (startTime : Int) (spin : Nat) :
    ∀ c c' : Camera, pacingWait startTime spin c = some c' →
      c.exposureSequence_ ≠ [] → c.sequenceIndex_ < c.exposureSequence_.length →
      ∃ k : Nat, 1 ≤ k ∧ c'.host.clockIx = c.host.clockIx + k ∧
        c'.exposureSequence_ = c.exposureSequence_ ∧
        c'.sequenceIndex_ = (c.sequenceIndex_ + k) % c.exposureSequence_.length := by
  induction spin with
  | zero => intro c c' h; simp [pacingWait] at h
  | succ n ih =>
    intro c c' h hne hlt
    have hne1 : (GetCurrentMMTime c).2.exposureSequence_ ≠ [] := hne
    obtain ⟨_, g2, g3⟩ := GetSequenceExposure_nonempty (GetCurrentMMTime c).2 hne1
    have g4 : (GetSequenceExposure (GetCurrentMMTime c).2).2.host.clockIx =
        c.host.clockIx + 1 := by
      have hlen : ¬ (GetCurrentMMTime c).2.exposureSequence_.length = 0 := by
        simpa [List.length_eq_zero] using hne1
      unfold GetSequenceExposure
      rw [if_neg hlen]
      dsimp only
      split <;> rfl
    have g2' : (GetSequenceExposure (GetCurrentMMTime c).2).2.exposureSequence_ =
        c.exposureSequence_ := g2
    have g3' : (GetSequenceExposure (GetCurrentMMTime c).2).2.sequenceIndex_ =
        (c.sequenceIndex_ + 1) % c.exposureSequence_.length := by
      rw [g3]
      show (if c.sequenceIndex_ + 1 ≥ c.exposureSequence_.length then 0
        else c.sequenceIndex_ + 1) = _
      by_cases hge : c.sequenceIndex_ + 1 ≥ c.exposureSequence_.length
      · rw [if_pos hge]
        have : c.sequenceIndex_ + 1 = c.exposureSequence_.length := by omega
        rw [this, Nat.mod_self]
      · rw [if_neg hge, Nat.mod_eq_of_lt (by omega)]
    have hpos : 0 < c.exposureSequence_.length := by omega
    unfold pacingWait at h
    dsimp only at h
    split at h
    · obtain ⟨k, k1, k2, k3, k4⟩ := ih _ _ h (by rw [g2']; exact hne)
        (by rw [g2', g3']; exact Nat.mod_lt _ hpos)
      refine ⟨k + 1, by omega, by rw [k2, g4]; omega, k3.trans g2', ?_⟩
      rw [k4, g2', g3', Nat.add_mod, Nat.mod_mod, ← Nat.add_mod]
      congr 1
      omega
    · rw [← Option.some.inj h]
      exact ⟨1, le_refl 1, g4, g2', g3'⟩

/-- C22, the code at a failing input: on the initial camera with the exposure
list 35, 50, 20 and the cursor at 0, with a clock that advances by 10 ms per
reading, one capture step timed from 1 s returns `DEVICE_OK` after three polls
of its pacing loop (20 ms against 35, 30 ms against 50, 40 ms against 20); each
poll has consumed an entry, so the cursor is back at 0 and not at 1. -/
theorem C22_one_step_consumes_three_entries :
    pacedSequenceCamera.sequenceIndex_ = 0 ∧
    (ThreadRun 10 1000000 pacedSequenceCamera).map
        (fun r => (r.1, r.2.sequenceIndex_, r.2.imageCounter_, r.2.host.clockIx)) =
      some (.ret DEVICE_OK, 0, 1, 5) ∧
    (pacingWait 1000000 10 { pacedSequenceCamera with
        imageCounter_ := 1, host := { quietHost with clockIx := 2 } }).map
        (fun c => (c.sequenceIndex_, c.host.clockIx)) = some (0, 5) := by
  decide

/-! ## The first capture step -/

theorem svcPass_leaves (spin : Nat) (ret : Int) (c c1 : Camera) (o : Outcome)
    (hone : c.thd_.stop_ = true ∨ longPred c.thd_.numImages_ ≤ c.thd_.imageCounter_)
    (hrun : ThreadRun spin c.thd_.startTime_ c = some (o, c1)) :
    ∃ e c2, svcPass spin ret c = some (.leave e c2) := by
  obtain ⟨_, hl, _⟩ := ThreadRun_logged _ _ _ _ _ hrun
  have hthd : c1.thd_ = c.thd_ := hl.1
  unfold svcPass
  rw [hrun]
  cases o with
  | cmmError code => exact ⟨_, _, rfl⟩
  | unknownException => exact ⟨_, _, rfl⟩
  | ret r =>
    dsimp only
    by_cases hr : r = DEVICE_OK
    · rw [if_pos hr]
      by_cases hp : (pollIsStopped c1).1 = true
      · rw [if_neg (by simp [hp])]
        exact ⟨_, _, rfl⟩
      · have hp' : (pollIsStopped c1).1 = false := by simpa using hp
        rw [if_pos (by simp [hp'])]
        have ht := pollIsStopped_thd c1 hp'
        have hcond : ¬ (pollIsStopped c1).2.thd_.imageCounter_ <
            longPred (pollIsStopped c1).2.thd_.numImages_ := by
          rcases hone with hs | hn
          · exfalso
            have : (pollIsStopped c1).1 = true := by
              unfold pollIsStopped
              dsimp only
              split
              · rfl
              · show c1.thd_.stop_ = true
                rw [hthd]; exact hs
            rw [this] at hp'
            exact absurd hp' (by decide)
          · rw [ht, hthd]; omega
        rw [if_neg hcond]
        exact ⟨_, _, rfl⟩
    · rw [if_neg hr]
      exact ⟨_, _, rfl⟩

theorem svc_log (spin : Nat) (c c' : Camera) (r : Int) (h : svc spin c = some (r, c')) :
    ∃ (e : LoopEnd) (c1 : Camera) (tl : List Event),
      svcLoop spin (passBound c) DEVICE_ERR c = some (e, c1) ∧
      c'.host.log = c1.host.log ++ tl ++ [.threadExiting true c1.host.callbackRegistered] ∧
      captureSteps tl = 0 := by
  cases hloop : svcLoop spin (passBound c) DEVICE_ERR c with
  | none =>
    unfold svc at h
    rw [hloop] at h
    simp at h
  | some p =>
    obtain ⟨e, c1⟩ := p
    obtain ⟨r', c'', tl, b1, b2, b3, _⟩ := svc_of_loop spin c c1 e hloop
    rw [h] at b1
    have hc : c' = c'' := (Prod.mk.inj (Option.some.inj b1)).2
    subst hc
    exact ⟨e, c1, tl, rfl, b2, b3⟩

/-- Whenever the worker returns, it has entered the capture step at least
once. -/
theorem svc_enters_capture_step (spin : Nat) (c c' : Camera) (r : Int)
    (h : svc spin c = some (r, c')) :
    captureSteps c.host.log + 1 ≤ captureSteps c'.host.log := by
  obtain ⟨e, c1, tl, h1, h2, h3⟩ := svc_log spin c c' r h
  obtain ⟨evs, a1, _, a3, _⟩ := svcLoop_log spin _ _ _ _ _ h1
  rw [h2, a1]
  simp only [captureSteps, List.count_append] at *
  omega

/-- With the stop flag set, or the counter not below `numImages_-1`, the
worker returns as soon as its first capture step returns, and it has entered
the capture step exactly once. -/
theorem svc_single_pass (spin : Nat) (c c1 : Camera) (o : Outcome)
    (hone : c.thd_.stop_ = true ∨ longPred c.thd_.numImages_ ≤ c.thd_.imageCounter_)
    (hrun : ThreadRun spin c.thd_.startTime_ c = some (o, c1)) :
    ∃ (r : Int) (c' : Camera), svc spin c = some (r, c') ∧
      captureSteps c'.host.log = captureSteps c.host.log + 1 := by
  obtain ⟨e, c2, hpass⟩ := svcPass_leaves spin DEVICE_ERR c c1 o hone hrun
  have hloop : svcLoop spin (passBound c) DEVICE_ERR c = some (e, c2) := by
    unfold passBound svcLoop
    rw [hpass]
  obtain ⟨evs, a1, _, a3, _⟩ := svcPass_log spin _ _ _ hpass
  obtain ⟨r, c', tl, b1, b2, b3, _⟩ := svc_of_loop spin c c2 e hloop
  refine ⟨r, c', b1, ?_⟩
  rw [b2]
  simp only [Pass.cam] at a1
  rw [a1]
  simp only [captureSteps, List.count_append] at *
  rw [a3, b3]
  simp

/-- C28, counterexample: a run started for `LONG_MIN` frames on the quiet
host, where nobody requests a stop. `numImages_-1` wraps around to `LONG_MAX`,
so the loop condition holds after the first pass and after the second: the
capture step has run twice and the loop asks for a third pass. -/
theorem C28_counterexample :
    (MySequenceThread.Start (-2147483648) 100 idleCamera).thd_.numImages_ = -LONG_MAX - 1 ∧
    (MySequenceThread.Start (-2147483648) 100 idleCamera).thd_.imageCounter_ = 0 ∧
    (-2147483648 : Int) ≤ 1 ∧
    longPred (MySequenceThread.Start (-2147483648) 100 idleCamera).thd_.numImages_ = LONG_MAX ∧
    (nextPass 10 (MySequenceThread.Start (-2147483648) 100 idleCamera)).map
        (fun c => (captureSteps c.host.log, c.thd_.imageCounter_, c.thd_.stop_)) =
      some (1, 1, false) ∧
    ((nextPass 10 (MySequenceThread.Start (-2147483648) 100 idleCamera)).bind
        (nextPass 10)).map
        (fun c => (captureSteps c.host.log, c.thd_.imageCounter_, c.thd_.stop_)) =
      some (2, 2, false) := by
  decide

/-- C28, as amended: a run as `Start` leaves it, for any frame count `n`,
enters the capture step at least once before the worker returns, and so does
the run with `Stop()` issued before the first iteration; in that stopped run
the worker returns as soon as its first capture step returns, having entered
the capture step exactly once. For every frame count `n <= 1` other than
`LONG_MIN` (0 and the negative counts from `-LONG_MAX` on included) the run
that `Start` leaves returns as soon as its first capture step returns, having
entered the capture step exactly once, with or without a stop request. -/
theorem C28_capture_step_runs_at_least_once (spin : Nat) (n : Int) (intervalMs : ℚ)
    (c0 : Camera) :
    (∀ (r : Int) (c' : Camera),
      svc spin (MySequenceThread.Start n intervalMs c0) = some (r, c') →
      captureSteps (MySequenceThread.Start n intervalMs c0).host.log + 1 ≤
        captureSteps c'.host.log) ∧
    (∀ (r : Int) (c' : Camera),
      svc spin { MySequenceThread.Start n intervalMs c0 with
        thd_ := (MySequenceThread.Start n intervalMs c0).thd_.Stop } = some (r, c') →
      captureSteps (MySequenceThread.Start n intervalMs c0).host.log + 1 ≤
        captureSteps c'.host.log) ∧
    (∀ (o : Outcome) (c1 : Camera),
      ThreadRun spin (MySequenceThread.Start n intervalMs c0).thd_.startTime_
        { MySequenceThread.Start n intervalMs c0 with
          thd_ := (MySequenceThread.Start n intervalMs c0).thd_.Stop } = some (o, c1) →
      ∃ (r : Int) (c' : Camera),
        svc spin { MySequenceThread.Start n intervalMs c0 with
          thd_ := (MySequenceThread.Start n intervalMs c0).thd_.Stop } = some (r, c') ∧
        captureSteps c'.host.log =
          captureSteps (MySequenceThread.Start n intervalMs c0).host.log + 1) ∧
    (-LONG_MAX ≤ n → n ≤ 1 →
      ∀ (o : Outcome) (c1 : Camera),
        ThreadRun spin (MySequenceThread.Start n intervalMs c0).thd_.startTime_
          (MySequenceThread.Start n intervalMs c0) = some (o, c1) →
        ∃ (r : Int) (c' : Camera),
          svc spin (MySequenceThread.Start n intervalMs c0) = some (r, c') ∧
          captureSteps c'.host.log =
            captureSteps (MySequenceThread.Start n intervalMs c0).host.log + 1) := by
  refine ⟨?_, ?_, ?_, ?_⟩
  · intro r c' h
    exact svc_enters_capture_step spin (MySequenceThread.Start n intervalMs c0) c' r h
  · intro r c' h
    have k := svc_enters_capture_step spin { MySequenceThread.Start n intervalMs c0 with
      thd_ := (MySequenceThread.Start n intervalMs c0).thd_.Stop } c' r h
    exact k
  · intro o c1 hrun
    have k := svc_single_pass spin { MySequenceThread.Start n intervalMs c0 with
      thd_ := (MySequenceThread.Start n intervalMs c0).thd_.Stop } c1 o (Or.inl rfl) hrun
    exact k
  · intro hlo hhi o c1 hrun
    refine svc_single_pass spin (MySequenceThread.Start n intervalMs c0) c1 o (Or.inr ?_) hrun
    show longPred n ≤ 0
    rw [longPred_of_ge n hlo]
    omega

/-- C28, witness: a run started for 0 frames and one started for -3 frames
each return after exactly one capture step. -/
theorem C28_capture_step_runs_at_least_once_witness :
    (-LONG_MAX ≤ (0 : Int) ∧ (0 : Int) ≤ 1 ∧
      ∃ (r : Int) (c' : Camera),
        svc 10 (MySequenceThread.Start 0 100 idleCamera) = some (r, c') ∧
        captureSteps c'.host.log = 1) ∧
    (-LONG_MAX ≤ (-3 : Int) ∧ (-3 : Int) ≤ 1 ∧
      ∃ (r : Int) (c' : Camera),
        svc 10 (MySequenceThread.Start (-3) 100 idleCamera) = some (r, c') ∧
        captureSteps c'.host.log = 1) := by
  refine ⟨⟨by decide, by decide, ?_⟩, ⟨by decide, by decide, ?_⟩⟩
  · cases h : ThreadRun 10 (MySequenceThread.Start 0 100 idleCamera).thd_.startTime_
        (MySequenceThread.Start 0 100 idleCamera) with
    | none => exact absurd (congrArg Option.isSome h) (by decide)
    | some p =>
      exact (C28_capture_step_runs_at_least_once 10 0 100 idleCamera).2.2.2
        (by decide) (by decide) p.1 p.2 h
  · cases h : ThreadRun 10 (MySequenceThread.Start (-3) 100 idleCamera).thd_.startTime_
        (MySequenceThread.Start (-3) 100 idleCamera) with
    | none => exact absurd (congrArg Option.isSome h) (by decide)
    | some p =>
      exact (C28_capture_step_runs_at_least_once 10 (-3) 100 idleCamera).2.2.2
        (by decide) (by decide) p.1 p.2 h

/-! ## The requested interval -/

theorem hubError_withInterval (x : ℚ) (c : Camera) :
    hubError (c.withInterval x) = ((hubError c).1, (hubError c).2.withInterval x) := rfl

theorem GetCurrentMMTime_withInterval (x : ℚ) (c : Camera) :
    GetCurrentMMTime (c.withInterval x) =
      ((GetCurrentMMTime c).1, (GetCurrentMMTime c).2.withInterval x) := rfl

theorem emit_withInterval (x : ℚ) (c : Camera) (e : Event) :
    (c.withInterval x).emit e = (c.emit e).withInterval x := rfl

theorem GetExposure_withInterval (x : ℚ) (c : Camera) :
    GetExposure (c.withInterval x) = ((GetExposure c).1, (GetExposure c).2.withInterval x) := by
  unfold GetExposure
  rw [hubError_withInterval]
  dsimp only
  split
  · rfl
  · show (match (hubError c).2.propExposure with
        | none => ((0 : ℚ), (hubError c).2.withInterval x)
        | some v => (v, (hubError c).2.withInterval x)) = _
    cases (hubError c).2.propExposure <;> rfl

theorem GetSequenceExposure_withInterval (x : ℚ) (c : Camera) :
    GetSequenceExposure (c.withInterval x) =
      ((GetSequenceExposure c).1, (GetSequenceExposure c).2.withInterval x) := by
  unfold GetSequenceExposure
  have hl : (c.withInterval x).exposureSequence_ = c.exposureSequence_ := rfl
  rw [hl]
  split
  · exact GetExposure_withInterval x c
  · unfold Camera.withInterval
    dsimp only
    split <;> rfl

theorem pacingWait_withInterval (x : ℚ) (startTime : Int) (spin : Nat) :
    ∀ c : Camera, pacingWait startTime spin (c.withInterval x) =
      (pacingWait startTime spin c).map (Camera.withInterval x) := by
  induction spin with
  | zero => intro c; rfl
  | succ n ih =>
    intro c
    unfold pacingWait
    rw [GetCurrentMMTime_withInterval]
    dsimp only
    rw [GetSequenceExposure_withInterval]
    dsimp only
    have hic : ((GetSequenceExposure (GetCurrentMMTime c).2).2.withInterval x).imageCounter_ =
        (GetSequenceExposure (GetCurrentMMTime c).2).2.imageCounter_ := rfl
    rw [hic]
    split
    · exact ih _
    · rfl

theorem pulseTrigger_withInterval (x : ℚ) (c : Camera) :
    pulseTrigger (c.withInterval x) = (pulseTrigger c).withInterval x := by
  unfold pulseTrigger Camera.withInterval
  dsimp only
  split <;> rfl

theorem GetCameraImage_withInterval (x : ℚ) (c : Camera) :
    GetCameraImage (c.withInterval x) =
      ((GetCameraImage c).1, (GetCameraImage c).2.withInterval x) := by
  unfold GetCameraImage Camera.withInterval
  dsimp only
  split
  · rfl
  · split <;> rfl

theorem fetchUnlessFast_withInterval (x : ℚ) (c : Camera) :
    fetchUnlessFast (c.withInterval x) =
      ((fetchUnlessFast c).1, (fetchUnlessFast c).2.withInterval x) := by
  unfold fetchUnlessFast
  have hf : (c.withInterval x).fastImage_ = c.fastImage_ := rfl
  rw [hf]
  split
  · exact GetCameraImage_withInterval x c
  · rfl

theorem GetPropertyBinning_withInterval (x : ℚ) (c : Camera) :
    GetPropertyBinning (c.withInterval x) =
      ((GetPropertyBinning c).1, (GetPropertyBinning c).2.1,
        (GetPropertyBinning c).2.2.withInterval x) := by
  unfold GetPropertyBinning OnBinning
  rw [hubError_withInterval]
  dsimp only
  split <;> rfl

theorem readoutGate_withInterval (x : ℚ) (spin : Nat) :
    ∀ c : Camera, readoutGate spin (c.withInterval x) =
      (readoutGate spin c).map (Camera.withInterval x) := by
  induction spin with
  | zero => intro c; rfl
  | succ n ih =>
    intro c
    unfold readoutGate
    rw [GetCurrentMMTime_withInterval]
    dsimp only
    have h1 : (c.withInterval x).readoutUs_ = c.readoutUs_ := rfl
    have h2 : (c.withInterval x).readoutStartTime_ = c.readoutStartTime_ := rfl
    rw [h1, h2]
    split
    · exact ih _
    · rfl

theorem GetImageBuffer_withInterval (x : ℚ) (spin : Nat) (c : Camera) :
    GetImageBuffer spin (c.withInterval x) =
      (GetImageBuffer spin c).map (fun r => (r.1, r.2.withInterval x)) := by
  unfold GetImageBuffer
  rw [hubError_withInterval]
  dsimp only
  split
  · rfl
  · rw [readoutGate_withInterval]
    cases readoutGate spin (hubError c).2 <;> rfl

theorem GetImageWidth_withInterval (x : ℚ) (c : Camera) :
    GetImageWidth (c.withInterval x) =
      ((GetImageWidth c).1, (GetImageWidth c).2.withInterval x) := by
  unfold GetImageWidth
  rw [hubError_withInterval]
  dsimp only
  split <;> rfl

theorem GetImageHeight_withInterval (x : ℚ) (c : Camera) :
    GetImageHeight (c.withInterval x) =
      ((GetImageHeight c).1, (GetImageHeight c).2.withInterval x) := by
  unfold GetImageHeight
  rw [hubError_withInterval]
  dsimp only
  split <;> rfl

theorem GetImageBytesPerPixel_withInterval (x : ℚ) (c : Camera) :
    GetImageBytesPerPixel (c.withInterval x) =
      ((GetImageBytesPerPixel c).1, (GetImageBytesPerPixel c).2.withInterval x) := by
  unfold GetImageBytesPerPixel
  rw [hubError_withInterval]
  dsimp only
  split <;> rfl

theorem coreInsertImage_withInterval (x : ℚ) (f : Frame) (flag : Bool) (c : Camera) :
    coreInsertImage f flag (c.withInterval x) =
      ((coreInsertImage f flag c).1, (coreInsertImage f flag c).2.withInterval x) := rfl

theorem InsertImage_withInterval (x : ℚ) (spin : Nat) (c : Camera) :
    InsertImage spin (c.withInterval x) =
      (InsertImage spin c).map (fun r => (r.1, r.2.withInterval x)) := by
  unfold InsertImage
  rw [hubError_withInterval]
  dsimp only
  split
  · rfl
  · rw [GetCurrentMMTime_withInterval]
    dsimp only
    generalize GetCurrentMMTime (hubError c).2 = t
    have hca : ({ (t.2.withInterval x) with
        imageCounter_ := (t.2.withInterval x).imageCounter_ + 1 } : Camera) =
        ({ t.2 with imageCounter_ := t.2.imageCounter_ + 1 } : Camera).withInterval x := rfl
    rw [hca, GetPropertyBinning_withInterval]
    dsimp only
    rw [GetImageBuffer_withInterval]
    generalize GetPropertyBinning { t.2 with imageCounter_ := t.2.imageCounter_ + 1 } = gb
    cases GetImageBuffer spin gb.2.2 with
    | none => rfl
    | some p =>
      obtain ⟨pI, c3⟩ := p
      dsimp only [Option.map]
      rw [GetImageWidth_withInterval]
      dsimp only
      rw [GetImageHeight_withInterval]
      dsimp only
      rw [GetImageBytesPerPixel_withInterval]
      dsimp only
      generalize GetImageBytesPerPixel (GetImageHeight (GetImageWidth c3).2).2 = b
      generalize (GetImageHeight (GetImageWidth c3).2).1 = hh
      generalize (GetImageWidth c3).1 = ww
      unfold Camera.withInterval coreInsertImage Camera.emit
      dsimp only
      split <;> rfl

theorem ThreadRun_withInterval (x : ℚ) (spin : Nat) (startTime : Int) (c : Camera) :
    ThreadRun spin startTime (c.withInterval x) =
      (ThreadRun spin startTime c).map (fun r => (r.1, r.2.withInterval x)) := by
  unfold ThreadRun
  rw [emit_withInterval, hubError_withInterval]
  dsimp only
  split
  · rfl
  · rw [pulseTrigger_withInterval, fetchUnlessFast_withInterval]
    dsimp only
    generalize fetchUnlessFast (pulseTrigger (hubError (c.emit .threadRun)).2) = f
    obtain ⟨f1, f2⟩ := f
    cases f1 with
    | cmmError code => rfl
    | unknownException => rfl
    | done =>
      dsimp only
      rw [InsertImage_withInterval]
      cases InsertImage spin f2 with
      | none => rfl
      | some p =>
        obtain ⟨ret, c2⟩ := p
        dsimp only [Option.map]
        rw [pacingWait_withInterval]
        cases pacingWait startTime spin c2 <;> rfl

theorem pollIsStopped_withInterval (x : ℚ) (c : Camera) :
    pollIsStopped (c.withInterval x) =
      ((pollIsStopped c).1, (pollIsStopped c).2.withInterval x) := by
  unfold pollIsStopped Camera.withInterval MySequenceThread.Stop MySequenceThread.IsStopped
  dsimp only
  split <;> rfl

theorem svcPass_withInterval (x : ℚ) (spin : Nat) (ret : Int) (c : Camera) :
    svcPass spin ret (c.withInterval x) = (svcPass spin ret c).map (Pass.withInterval x) := by
  unfold svcPass
  have hs : (c.withInterval x).thd_.startTime_ = c.thd_.startTime_ := rfl
  rw [hs, ThreadRun_withInterval]
  cases ThreadRun spin c.thd_.startTime_ c with
  | none => rfl
  | some p =>
    obtain ⟨o, c1⟩ := p
    cases o with
    | cmmError code => rfl
    | unknownException => rfl
    | ret r =>
      dsimp only [Option.map]
      split
      · rw [pollIsStopped_withInterval]
        dsimp only
        split
        · have h1 : ((pollIsStopped c1).2.withInterval x).thd_.imageCounter_ =
              (pollIsStopped c1).2.thd_.imageCounter_ := rfl
          have h2 : ((pollIsStopped c1).2.withInterval x).thd_.numImages_ =
              (pollIsStopped c1).2.thd_.numImages_ := rfl
          rw [h1, h2]
          split <;> rfl
        · rfl
      · rfl

theorem svcLoop_withInterval (x : ℚ) (spin : Nat) :
    ∀ (passes : Nat) (ret : Int) (c : Camera),
      svcLoop spin passes ret (c.withInterval x) =
        (svcLoop spin passes ret c).map (fun r => (r.1, r.2.withInterval x)) := by
  intro passes
  induction passes with
  | zero => intro ret c; rfl
  | succ n ih =>
    intro ret c
    unfold svcLoop
    rw [svcPass_withInterval]
    cases svcPass spin ret c with
    | none => rfl
    | some p =>
      cases p with
      | again r c2 => exact ih r c2
      | leave e c1 => rfl

theorem svc_withInterval (x : ℚ) (spin : Nat) (c : Camera) :
    svc spin (c.withInterval x) = (svc spin c).map (fun r => (r.1, r.2.withInterval x)) := by
  unfold svc
  have hb : passBound (c.withInterval x) = passBound c := rfl
  rw [hb, svcLoop_withInterval]
  cases svcLoop spin (passBound c) DEVICE_ERR c with
  | none => rfl
  | some p =>
    obtain ⟨e, c1⟩ := p
    dsimp only [Option.map]
    cases e with
    | finished ret =>
      dsimp only
      rw [pollIsStopped_withInterval]
      dsimp only
      split <;> rfl
    | caughtCMM code => rfl
    | caughtOther ret => rfl

theorem StartSequenceAcquisition_interval (numImages : Int) (i1 i2 : ℚ)
    (stopOnOverflow : Bool) (c : Camera) :
    (StartSequenceAcquisition numImages i1 stopOnOverflow c).1 =
      (StartSequenceAcquisition numImages i2 stopOnOverflow c).1 ∧
    ∃ j : ℚ, (StartSequenceAcquisition numImages i1 stopOnOverflow c).2 =
      (StartSequenceAcquisition numImages i2 stopOnOverflow c).2.withInterval j := by
  unfold StartSequenceAcquisition
  dsimp only
  split
  · exact ⟨rfl, _, rfl⟩
  · split
    · exact ⟨rfl, _, rfl⟩
    · split
      · exact ⟨rfl, _, rfl⟩
      · exact ⟨rfl, i1, rfl⟩

/-- C27: the requested interval does not influence a run. Two calls of
`StartSequenceAcquisition` on the same camera that differ only in the interval
return the same code and leave cameras that differ at most in the field
`intervalMs_`; the worker run from the two (`svc`) returns in one exactly when
it returns in the other, with the same code and with cameras that again differ
at most in `intervalMs_`: the same log of captures and pushes, the same frame
counters, the same playback cursor, the same measured duration and the same
number of readings of the clock, of the fault injector and of the core. The
same holds for two calls of `MySequenceThread::Start`. -/
theorem C27_interval_has_no_effect (spin : Nat) (c : Camera) (numImages : Int) (i1 i2 : ℚ)
    (stopOnOverflow : Bool) :
    (StartSequenceAcquisition numImages i1 stopOnOverflow c).1 =
      (StartSequenceAcquisition numImages i2 stopOnOverflow c).1 ∧
    (svc spin (StartSequenceAcquisition numImages i1 stopOnOverflow c).2).map
        (fun r => (r.1, r.2.withInterval 0)) =
      (svc spin (StartSequenceAcquisition numImages i2 stopOnOverflow c).2).map
        (fun r => (r.1, r.2.withInterval 0)) ∧
    (∀ (r : Int) (c1 : Camera),
      svc spin (StartSequenceAcquisition numImages i1 stopOnOverflow c).2 = some (r, c1) →
      ∃ c2 : Camera,
        svc spin (StartSequenceAcquisition numImages i2 stopOnOverflow c).2 = some (r, c2) ∧
        c1.host.log = c2.host.log ∧ c1.imageCounter_ = c2.imageCounter_ ∧
        c1.thd_.imageCounter_ = c2.thd_.imageCounter_ ∧
        c1.sequenceIndex_ = c2.sequenceIndex_ ∧
        c1.thd_.actualDuration_ = c2.thd_.actualDuration_ ∧
        c1.host.clockIx = c2.host.clockIx ∧ c1.host.randIx = c2.host.randIx ∧
        c1.host.sinkIx = c2.host.sinkIx ∧ c1.host.fetchIx = c2.host.fetchIx) ∧
    svc spin (MySequenceThread.Start numImages i1 c) =
      (svc spin (MySequenceThread.Start numImages i2 c)).map
        (fun r => (r.1, r.2.withInterval i1)) := by
  obtain ⟨hcode, j, hj⟩ := StartSequenceAcquisition_interval numImages i1 i2 stopOnOverflow c
  have hsvc := svc_withInterval j spin (StartSequenceAcquisition numImages i2 stopOnOverflow c).2
  rw [← hj] at hsvc
  refine ⟨hcode, ?_, ?_, ?_⟩
  · rw [hsvc]
    cases svc spin (StartSequenceAcquisition numImages i2 stopOnOverflow c).2 <;> rfl
  · intro r c1 h
    rw [hsvc] at h
    cases h2 : svc spin (StartSequenceAcquisition numImages i2 stopOnOverflow c).2 with
    | none => rw [h2] at h; simp at h
    | some p =>
      obtain ⟨r2, c2⟩ := p
      rw [h2] at h
      have hinj := Prod.mk.inj (Option.some.inj h)
      have hr : r2 = r := hinj.1
      have hc : c2.withInterval j = c1 := hinj.2
      subst hr
      subst hc
      exact ⟨c2, rfl, rfl, rfl, rfl, rfl, rfl, rfl, rfl, rfl, rfl⟩
  · exact svc_withInterval i1 spin (MySequenceThread.Start numImages i2 c)

/-- C27, witness: two-frame runs on the initial camera requested with the
intervals 0 ms and 1000 ms both return `DEVICE_OK`, with the same log. -/
theorem C27_interval_has_no_effect_witness :
    ∃ c1 c2 : Camera,
      svc 10 (StartSequenceAcquisition 2 0 false idleCamera).2 = some (DEVICE_OK, c1) ∧
      svc 10 (StartSequenceAcquisition 2 1000 false idleCamera).2 = some (DEVICE_OK, c2) ∧
      c1.host.log = c2.host.log ∧ c1.imageCounter_ = c2.imageCounter_ := by
  have hd : (svc 10 (StartSequenceAcquisition 2 0 false idleCamera).2).map (fun x => x.1) =
      some DEVICE_OK := by decide
  cases h : svc 10 (StartSequenceAcquisition 2 0 false idleCamera).2 with
  | none => rw [h] at hd; simp at hd
  | some p =>
    obtain ⟨r, c1⟩ := p
    rw [h] at hd
    have hr : r = DEVICE_OK := by simpa using hd
    subst hr
    obtain ⟨c2, k1, k2, k3, _⟩ :=
      (C27_interval_has_no_effect 10 idleCamera 2 0 1000 false).2.2.1 DEVICE_OK c1 h
    exact ⟨c1, c2, rfl, k1, k2, k3⟩

/-! ## The median filter and the transpose -/

theorem toInt32_toUnsigned (z : Int) (h1 : -2147483648 ≤ z) (h2 : z < 2147483648) :
    toInt32 (toUnsigned z) = z := by
  unfold toInt32 toUnsigned
  split_ifs <;> omega

theorem toUnsigned_natCast (n : Nat) (h : n < 4294967296) : toUnsigned (n : Int) = n := by
  unfold toUnsigned
  omega

theorem clampWindow_eq (v : Int) (size : Nat) (hs : 1 ≤ size) (hs2 : size ≤ 2147483648) :
    clampWindow v size = (clampCoordinate v size : Int) ∧ clampCoordinate v size < size := by
  have hc : toInt32 (toUnsigned ((size : Int) - 1)) = (size : Int) - 1 :=
    toInt32_toUnsigned _ (by omega) (by omega)
  unfold clampWindow clampCoordinate
  rw [hc]
  split_ifs <;> constructor <;> omega

theorem window_index_lt (x y width height : Nat) (hx : x < width) (hy : y < height) :
    x + width * y < width * height := by
  have h1 : width * y + width ≤ width * height := by
    have : width * (y + 1) ≤ width * height := Nat.mul_le_mul_left width hy
    rw [Nat.mul_add, Nat.mul_one] at this
    exact this
  omega

theorem readWindow_eq (pI : List Nat) (width height i j : Nat)
    (hw : 1 ≤ width) (hh : 1 ≤ height) (hlen : pI.length = width * height)
    (hsize : width * height < 2147483648) (hi : i < width) (hj : j < height) :
    ∀ ds : List (Int × Int), (∀ d ∈ ds, -1 ≤ d.1 ∧ d.1 ≤ 1 ∧ -1 ≤ d.2 ∧ d.2 ≤ 1) →
      MedianFilter.readWindow pI width height i j ds =
        some (ds.map (fun d =>
          pI.getD (clampCoordinate ((i : Int) + d.1) width +
            width * clampCoordinate ((j : Int) + d.2) height) 0)) := by
  have hwle : width ≤ width * height := Nat.le_mul_of_pos_right width hh
  have hhle : height ≤ width * height := Nat.le_mul_of_pos_left height hw
  intro ds
  induction ds with
  | nil => intro _; rfl
  | cons d ds ih =>
    intro hd
    have hd0 := hd d (List.mem_cons_self _ _)
    have hx0 : toInt32 (toUnsigned ((i : Int) + d.1)) = (i : Int) + d.1 :=
      toInt32_toUnsigned _ (by omega) (by omega)
    have hy0 : toInt32 (toUnsigned ((j : Int) + d.2)) = (j : Int) + d.2 :=
      toInt32_toUnsigned _ (by omega) (by omega)
    obtain ⟨hx1, hx2⟩ := clampWindow_eq ((i : Int) + d.1) width hw (by omega)
    obtain ⟨hy1, hy2⟩ := clampWindow_eq ((j : Int) + d.2) height hh (by omega)
    have hidx := window_index_lt _ _ width height hx2 hy2
    unfold MedianFilter.readWindow
    dsimp only
    rw [hx0, hy0, hx1, hy1, toUnsigned_natCast _ (by omega), toUnsigned_natCast _ (by omega),
      Nat.mod_eq_of_lt (by omega)]
    rw [List.getElem?_eq_getElem (by omega)]
    dsimp only
    rw [ih (fun e he => hd e (List.mem_cons_of_mem _ he))]
    simp only [Option.map_some', List.map_cons]
    rw [List.getD_eq_getElem _ _ (by omega)]

theorem FindMedian_nine (values : List Nat) (h : values.length = 9) :
    MedianFilter.FindMedian values = some (fifthSmallest values) := by
  unfold MedianFilter.FindMedian fifthSmallest
  rw [h]
  have hl : (values.insertionSort (· ≤ ·)).length = 9 := by
    rw [List.length_insertionSort, h]
  have h4 : 9 >>> 1 = 4 := by decide
  rw [h4, List.getElem?_eq_getElem (by omega), List.getD_eq_getElem _ _ (by omega)]

theorem filterPixel_eq (pI : List Nat) (width height i j : Nat) (pSmooth : List Nat)
    (hw : 1 ≤ width) (hh : 1 ≤ height) (hlen : pI.length = width * height)
    (hsize : width * height < 2147483648) (hi : i < width) (hj : j < height)
    (hs : pSmooth.length = width * height) :
    MedianFilter.filterPixel pI width height i j pSmooth =
      some (pSmooth.set (i + j * width)
        (fifthSmallest (neighbourhood pI width height i j))) := by
  have hidx : i + j * width < width * height := by
    rw [Nat.mul_comm j width]
    exact window_index_lt i j width height hi hj
  unfold MedianFilter.filterPixel
  rw [readWindow_eq pI width height i j hw hh hlen hsize hi hj windowOffsets (by decide)]
  dsimp only
  rw [FindMedian_nine _ (by simp [windowOffsets])]
  dsimp only
  rw [Nat.mod_eq_of_lt (by omega), if_pos (by omega)]
  rfl

/-- A loop that writes `val j` at `idx j` for `j = 0 .. b - 1`, with distinct
indices inside the block, ends with these values at these indices and the
rest of the block as it was. -/
theorem writeRow (m L : Nat) (step : Nat → List Nat → Option (List Nat)) (idx : Nat → Nat)
    (val : Nat → Nat)
    (hstep : ∀ j s, j < m → s.length = L → step j s = some (s.set (idx j) (val j)))
    (hidx : ∀ j, j < m → idx j < L)
    (hinj : ∀ j j', j < m → j' < m → idx j = idx j' → j = j') :
    ∀ b, b ≤ m → ∀ s : List Nat, s.length = L →
      ∃ out, (List.range b).foldlM (fun s j => step j s) s = some out ∧ out.length = L ∧
        (∀ j, j < b → out[idx j]? = some (val j)) ∧
        (∀ k, (∀ j, j < b → idx j ≠ k) → out[k]? = s[k]?) := by
  intro b
  induction b with
  | zero =>
    intro _ s hs
    exact ⟨s, rfl, hs, fun j hj => absurd hj (Nat.not_lt_zero j), fun _ _ => rfl⟩
  | succ b ih =>
    intro hb s hs
    obtain ⟨out, h1, h2, h3, h4⟩ := ih (by omega) s hs
    refine ⟨out.set (idx b) (val b), ?_, ?_, ?_, ?_⟩
    · rw [List.range_succ, List.foldlM_append, h1]
      simp only [List.foldlM_cons, List.foldlM_nil, Option.bind_eq_bind, Option.some_bind]
      rw [hstep b out (by omega) h2]
      rfl
    · rw [List.length_set]; exact h2
    · intro j hj
      by_cases hjb : j = b
      · subst hjb
        rw [List.getElem?_set_self (by rw [h2]; exact hidx j (by omega))]
      · have hne : idx b ≠ idx j := fun h => hjb (hinj j b (by omega) (by omega) h.symm)
        rw [List.getElem?_set_ne hne]
        exact h3 j (by omega)
    · intro k hk
      have hne : idx b ≠ k := hk b (by omega)
      rw [List.getElem?_set_ne hne]
      exact h4 k (fun j hj => hk j (by omega))

/-- Two nested loops that write `val i j` at `idx i j`, with distinct indices
inside the block, end with these values at these indices and the rest of the
block as it was. -/
theorem writeGrid (n m L : Nat) (step : Nat → Nat → List Nat → Option (List Nat))
    (idx : Nat → Nat → Nat) (val : Nat → Nat → Nat)
    (hstep : ∀ i j s, i < n → j < m → s.length = L →
      step i j s = some (s.set (idx i j) (val i j)))
    (hidx : ∀ i j, i < n → j < m → idx i j < L)
    (hinj : ∀ i j i' j', i < n → j < m → i' < n → j' < m → idx i j = idx i' j' →
      i = i' ∧ j = j') :
    ∀ a, a ≤ n → ∀ s : List Nat, s.length = L →
      ∃ out, (List.range a).foldlM
          (fun s i => (List.range m).foldlM (fun s j => step i j s) s) s = some out ∧
        out.length = L ∧
        (∀ i j, i < a → j < m → out[idx i j]? = some (val i j)) ∧
        (∀ k, (∀ i j, i < a → j < m → idx i j ≠ k) → out[k]? = s[k]?) := by
  intro a
  induction a with
  | zero =>
    intro _ s hs
    exact ⟨s, rfl, hs, fun i j hi => absurd hi (Nat.not_lt_zero i), fun _ _ => rfl⟩
  | succ a ih =>
    intro ha s hs
    obtain ⟨out, h1, h2, h3, h4⟩ := ih (by omega) s hs
    obtain ⟨out2, r1, r2, r3, r4⟩ := writeRow m L (step a) (idx a) (val a)
      (fun j s hj hsl => hstep a j s (by omega) hj hsl)
      (fun j hj => hidx a j (by omega) hj)
      (fun j j' hj hj' h => (hinj a j a j' (by omega) hj (by omega) hj' h).2)
      m (le_refl m) out h2
    refine ⟨out2, ?_, r2, ?_, ?_⟩
    · rw [List.range_succ, List.foldlM_append, h1]
      simp only [List.foldlM_cons, List.foldlM_nil, Option.bind_eq_bind, Option.some_bind]
      rw [r1]
      rfl
    · intro i j hi hj
      by_cases hia : i = a
      · subst hia
        exact r3 j hj
      · rw [r4 (idx i j) (fun j' hj' h =>
          hia (hinj a j' i j (by omega) hj' (by omega) hj h).1.symm)]
        exact h3 i j (by omega) hj
    · intro k hk
      rw [r4 k (fun j hj => hk a j (by omega) hj)]
      exact h4 k (fun i j hi hj => hk i j (by omega) hj)

theorem sorted_nine_middle (S : List Nat) (hl : S.length = 9) (hs : S.Sorted (· ≤ ·)) :
    S.getD 4 0 ∈ S ∧
    5 ≤ S.countP (fun v => decide (v ≤ S.getD 4 0)) ∧
    5 ≤ S.countP (fun v => decide (S.getD 4 0 ≤ v)) := by
  rcases S with _ | ⟨a0, _ | ⟨a1, _ | ⟨a2, _ | ⟨a3, _ | ⟨a4, _ | ⟨a5, _ | ⟨a6, _ | ⟨a7, _ |
    ⟨a8, _ | ⟨a9, T⟩⟩⟩⟩⟩⟩⟩⟩⟩⟩ <;> simp at hl
  simp only [List.Sorted, List.pairwise_cons, List.mem_cons, List.mem_singleton,
    forall_eq_or_imp, forall_eq] at hs
  obtain ⟨⟨-, -, -, h04, -⟩, ⟨-, -, h14, -⟩, ⟨-, h24, -⟩, ⟨h34, -⟩, ⟨h45, h46, h47, h48, -⟩, -⟩ := hs
  refine ⟨by simp, ?_, ?_⟩
  · simp only [List.getD_cons_succ, List.getD_cons_zero, List.countP_cons, List.countP_nil,
      h04, h14, h24, h34, le_refl, decide_True, if_true]
    omega
  · simp only [List.getD_cons_succ, List.getD_cons_zero, List.countP_cons, List.countP_nil,
      h45, h46, h47, h48, le_refl, decide_True, if_true]
    omega

/-- The fifth smallest of nine values is one of them, at least five of the
nine are not above it and at least five are not below it. -/
theorem fifthSmallest_spec (values : List Nat) (h : values.length = 9) :
    fifthSmallest values ∈ values ∧
    5 ≤ values.countP (fun v => decide (v ≤ fifthSmallest values)) ∧
    5 ≤ values.countP (fun v => decide (fifthSmallest values ≤ v)) := by
  have hperm : (values.insertionSort (· ≤ ·)).Perm values := List.perm_insertionSort _ _
  have hsorted : (values.insertionSort (· ≤ ·)).Sorted (· ≤ ·) := List.sorted_insertionSort _ _
  have hl : (values.insertionSort (· ≤ ·)).length = 9 := by
    rw [List.length_insertionSort, h]
  obtain ⟨k1, k2, k3⟩ := sorted_nine_middle _ hl hsorted
  refine ⟨hperm.mem_iff.mp k1, ?_, ?_⟩
  · rw [← hperm.countP_eq]; exact k2
  · rw [← hperm.countP_eq]; exact k3

theorem filterLoops (pI : List Nat) (width height : Nat) (pSmooth : List Nat)
    (hw : 1 ≤ width) (hh : 1 ≤ height) (hlen : pI.length = width * height)
    (hsize : width * height < 2147483648) (hs : pSmooth.length = width * height) :
    ∃ out, (List.range width).foldlM (fun s i =>
        (List.range height).foldlM (fun s j => MedianFilter.filterPixel pI width height i j s) s)
        pSmooth = some out ∧
      out.length = width * height ∧
      ∀ i j, i < width → j < height →
        out[i + j * width]? = some (fifthSmallest (neighbourhood pI width height i j)) := by
  have hidx : ∀ i j, i < width → j < height → i + j * width < width * height := by
    intro i j hi hj
    rw [Nat.mul_comm j width]
    exact window_index_lt i j width height hi hj
  obtain ⟨out, h1, h2, h3, _⟩ := writeGrid width height (width * height)
    (fun i j s => MedianFilter.filterPixel pI width height i j s)
    (fun i j => i + j * width)
    (fun i j => fifthSmallest (neighbourhood pI width height i j))
    (fun i j s hi hj hsl => filterPixel_eq pI width height i j s hw hh hlen hsize hi hj hsl)
    hidx
    (by
      intro i j i' j' hi hj hi' hj' h
      have h : i + j * width = i' + j' * width := h
      have hmod : (i + j * width) % width = (i' + j' * width) % width := by rw [h]
      rw [Nat.add_mul_mod_self_right, Nat.add_mul_mod_self_right, Nat.mod_eq_of_lt hi,
        Nat.mod_eq_of_lt hi'] at hmod
      subst hmod
      have hj2 : j * width = j' * width := by omega
      exact ⟨rfl, Nat.eq_of_mul_eq_mul_right (by omega) hj2⟩)
    width (le_refl width) pSmooth hs
  exact ⟨out, h1, h2, h3⟩

/-- C25: `MedianFilter::Filter` on an image of at least one column and one
row that occupies less than `2^31` bytes, with a filter whose scratch block is
null with recorded size 0 or has the recorded size. When a new scratch block
is needed and `malloc` fails, the call returns `DEVICE_ERR` and the image is
as it was. Otherwise no access falls outside a buffer, the call returns
`DEVICE_OK`, and the element at `i + j*width` of the image afterwards is the
fifth smallest of the nine values the image had before at the columns `i-1`,
`i`, `i+1` and the rows `j-1`, `j`, `j+1`, each brought into range (edge
pixels duplicated): one of the nine, with at least five of them not above it
and at least five not below it. -/
theorem C25_median_filter (elemSize : Nat) (heap : Heap) (pI : List Nat) (width height : Nat)
    (m : MedianFilter) (helem : 0 < elemSize) (hw : 1 ≤ width) (hh : 1 ≤ height)
    (hlen : pI.length = width * height)
    (hsize : elemSize * width * height < 2147483648)
    (hnull : m.pSmoothedIm_ = none → m.sizeOfSmoothedIm_ = 0)
    (hcap : ∀ capacity, m.pSmoothedIm_ = some capacity → capacity = m.sizeOfSmoothedIm_) :
    (elemSize * width * height ≠ m.sizeOfSmoothedIm_ ∧ heap.mallocOk = false →
      ∃ m', MedianFilter.Filter elemSize heap pI width height m = some (DEVICE_ERR, pI, m') ∧
        m'.pSmoothedIm_ = none ∧ m'.sizeOfSmoothedIm_ = 0) ∧
    (¬ (elemSize * width * height ≠ m.sizeOfSmoothedIm_ ∧ heap.mallocOk = false) →
      ∃ out m', MedianFilter.Filter elemSize heap pI width height m =
          some (DEVICE_OK, out, m') ∧
        m'.pSmoothedIm_ = some (elemSize * width * height) ∧
        m'.sizeOfSmoothedIm_ = elemSize * width * height ∧
        out.length = width * height ∧
        ∀ i j, i < width → j < height →
          out[i + j * width]? = some (fifthSmallest (neighbourhood pI width height i j)) ∧
          fifthSmallest (neighbourhood pI width height i j) ∈
            neighbourhood pI width height i j ∧
          5 ≤ (neighbourhood pI width height i j).countP
            (fun v => decide (v ≤ fifthSmallest (neighbourhood pI width height i j))) ∧
          5 ≤ (neighbourhood pI width height i j).countP
            (fun v => decide (fifthSmallest (neighbourhood pI width height i j) ≤ v))) := by
  have hpos : 0 < width * height := Nat.mul_pos hw hh
  have hT : elemSize * width * height = elemSize * (width * height) := Nat.mul_assoc _ _ _
  have hwh : width * height < 2147483648 := by
    have : width * height ≤ elemSize * (width * height) := Nat.le_mul_of_pos_left _ helem
    omega
  have hTpos : 0 < elemSize * width * height := by
    rw [hT]; exact Nat.mul_pos helem hpos
  have hmod : (elemSize * width * height) % ULONG_MOD = elemSize * width * height :=
    Nat.mod_eq_of_lt (by unfold ULONG_MOD; omega)
  have hdiv : elemSize * width * height / elemSize = width * height := by
    rw [hT, Nat.mul_div_cancel_left _ helem]
  have hrun : ∀ m1 : MedianFilter, m1.pSmoothedIm_ = some (elemSize * width * height) →
      ∃ out, (match m1.pSmoothedIm_ with
        | none => some (DEVICE_ERR, pI, m1)
        | some capacity =>
          match (List.range width).foldlM (fun s i =>
              (List.range height).foldlM
                (fun s j => MedianFilter.filterPixel pI width height i j s) s)
              ((List.range (capacity / elemSize)).map heap.stale) with
          | none => none
          | some smoothed =>
            if elemSize * width * height / elemSize ≤ smoothed.length ∧
                elemSize * width * height / elemSize ≤ pI.length then
              some (DEVICE_OK, smoothed.take (elemSize * width * height / elemSize) ++
                pI.drop (elemSize * width * height / elemSize), m1)
            else none) = some (DEVICE_OK, out, m1) ∧
        out.length = width * height ∧
        ∀ i j, i < width → j < height →
          out[i + j * width]? = some (fifthSmallest (neighbourhood pI width height i j)) := by
    intro m1 hm1
    obtain ⟨out, h1, h2, h3⟩ := filterLoops pI width height
      ((List.range (elemSize * width * height / elemSize)).map heap.stale) hw hh hlen hwh
      (by rw [List.length_map, List.length_range, hdiv])
    refine ⟨out, ?_, h2, h3⟩
    rw [hm1]
    dsimp only
    rw [h1]
    dsimp only
    rw [hdiv, if_pos ⟨by omega, by omega⟩, List.take_of_length_le (by omega),
      List.drop_of_length_le (by omega), List.append_nil]
  have hmed : ∀ i j, (neighbourhood pI width height i j).length = 9 := by
    intro i j
    simp [neighbourhood, windowOffsets]
  constructor
  · rintro ⟨hne, hmalloc⟩
    unfold MedianFilter.Filter
    dsimp only
    rw [hmod, if_pos hne, hmalloc]
    refine ⟨_, rfl, rfl, ?_⟩
    cases hp : m.pSmoothedIm_ with
    | none => simpa using hnull hp
    | some capacity => simp
  · intro hok
    have hfinish : ∀ m1 : MedianFilter, m1.pSmoothedIm_ = some (elemSize * width * height) →
        m1.sizeOfSmoothedIm_ = elemSize * width * height →
        (if elemSize * width * height ≠ m.sizeOfSmoothedIm_ then
          (if heap.mallocOk = true then
            ({ pSmoothedIm_ := some (elemSize * width * height),
               sizeOfSmoothedIm_ := elemSize * width * height } : MedianFilter)
          else { (if m.pSmoothedIm_.isSome = true then
              ({ m with sizeOfSmoothedIm_ := 0 } : MedianFilter) else m) with
            pSmoothedIm_ := none })
        else m) = m1 →
        ∃ out m', MedianFilter.Filter elemSize heap pI width height m =
          some (DEVICE_OK, out, m') ∧
        m'.pSmoothedIm_ = some (elemSize * width * height) ∧
        m'.sizeOfSmoothedIm_ = elemSize * width * height ∧
        out.length = width * height ∧
        ∀ i j, i < width → j < height →
          out[i + j * width]? = some (fifthSmallest (neighbourhood pI width height i j)) := by
      intro m1 hm1 hm2 heq
      obtain ⟨out, h1, h2, h3⟩ := hrun m1 hm1
      refine ⟨out, m1, ?_, hm1, hm2, h2, h3⟩
      unfold MedianFilter.Filter
      dsimp only
      rw [hmod, heq]
      exact h1
    have hbase : ∃ out m', MedianFilter.Filter elemSize heap pI width height m =
          some (DEVICE_OK, out, m') ∧
        m'.pSmoothedIm_ = some (elemSize * width * height) ∧
        m'.sizeOfSmoothedIm_ = elemSize * width * height ∧
        out.length = width * height ∧
        ∀ i j, i < width → j < height →
          out[i + j * width]? = some (fifthSmallest (neighbourhood pI width height i j)) := by
      by_cases hne : elemSize * width * height ≠ m.sizeOfSmoothedIm_
      · have hmalloc : heap.mallocOk = true := by
          cases hb : heap.mallocOk
          · exact absurd ⟨hne, hb⟩ hok
          · rfl
        exact hfinish _ rfl rfl (by rw [if_pos hne, if_pos hmalloc])
      · have heq : elemSize * width * height = m.sizeOfSmoothedIm_ := not_not.mp hne
        have hsome : m.pSmoothedIm_ = some (elemSize * width * height) := by
          cases hp : m.pSmoothedIm_ with
          | none => have := hnull hp; omega
          | some capacity => rw [hcap capacity hp, heq]
        exact hfinish m hsome heq.symm (by rw [if_neg hne])
    obtain ⟨out, m', h1, k1, k2, h2, h3⟩ := hbase
    refine ⟨out, m', h1, k1, k2, h2, ?_⟩
    intro i j hi hj
    exact ⟨h3 i j hi hj, fifthSmallest_spec _ (hmed i j)⟩

/-- C25, witness: the 3 x 3 image 1 .. 9 of one-byte pixels; its centre
pixel becomes 5 and its first pixel becomes 2. -/
theorem C25_median_filter_witness :
    ∃ out m', MedianFilter.Filter 1 quietHeap [1, 2, 3, 4, 5, 6, 7, 8, 9] 3 3 newMedianFilter =
        some (DEVICE_OK, out, m') ∧
      out.length = 9 ∧ out[1 + 1 * 3]? = some 5 ∧ out[0 + 0 * 3]? = some 2 :=
  match (C25_median_filter 1 quietHeap [1, 2, 3, 4, 5, 6, 7, 8, 9] 3 3 newMedianFilter
      (by decide) (by decide) (by decide) (by decide) (by decide) (fun _ => rfl)
      (fun _ h => Option.noConfusion h)).2 (by decide) with
  | ⟨out, m', h1, _, _, h2, h3⟩ =>
    ⟨out, m', h1, h2, (h3 1 1 (by decide) (by decide)).1, (h3 0 0 (by decide) (by decide)).1⟩

theorem copyElement_square (pI : List Nat) (n ix iy : Nat) (pTmpImage : List Nat)
    (hlen : pI.length = n * n) (hsize : n * n < 4294967296) (hx : ix < n) (hy : iy < n)
    (hs : pTmpImage.length = n * n) :
    TransposeProcessor.copyElement pI n n ix iy pTmpImage =
      some (pTmpImage.set (iy + ix * n) (pI.getD (ix + iy * n) 0)) := by
  have h1 : ix + iy * n < n * n := by
    rw [Nat.mul_comm iy n]; exact window_index_lt ix iy n n hx hy
  have h2 : iy + ix * n < n * n := by
    rw [Nat.mul_comm ix n]; exact window_index_lt iy ix n n hy hx
  unfold TransposeProcessor.copyElement ULONG_MOD
  rw [Nat.mod_eq_of_lt (by omega), Nat.mod_eq_of_lt (by omega),
    List.getElem?_eq_getElem (by omega)]
  dsimp only
  rw [if_pos (by omega), List.getD_eq_getElem _ _ (by omega)]

/-- On a square image that occupies less than `2^32` bytes, with a scratch
block that is allocated or reused at the recorded size,
`TransposeRectangleOutOfPlace` stays inside the buffers, returns `DEVICE_OK`
and leaves the transpose: the element at column `x` of row `y` ends at column
`y` of row `x`. -/
theorem transpose_square (elemSize : Nat) (heap : Heap) (pI : List Nat) (n : Nat)
    (p : TransposeProcessor) (helem : 0 < elemSize) (hlen : pI.length = n * n)
    (hsize : n * n * elemSize < 4294967296)
    (havail : (p.tempSize_ ≠ n * n * elemSize ∧ heap.mallocOk = true) ∨
      (p.tempSize_ = n * n * elemSize ∧ p.pTemp_ = some (n * n * elemSize))) :
    ∃ out p', TransposeProcessor.TransposeRectangleOutOfPlace elemSize heap pI n n p =
        some (DEVICE_OK, out, p') ∧
      out.length = n * n ∧
      ∀ x y, x < n → y < n → out[y + x * n]? = some (pI.getD (x + y * n) 0) := by
  have hnn : n * n < 4294967296 := by
    have : n * n ≤ n * n * elemSize := Nat.le_mul_of_pos_right _ helem
    omega
  have hmod1 : (n * n) % 4294967296 = n * n := Nat.mod_eq_of_lt hnn
  have hmod2 : (n * n * elemSize) % ULONG_MOD = n * n * elemSize :=
    Nat.mod_eq_of_lt (by unfold ULONG_MOD; omega)
  have hdiv : n * n * elemSize / elemSize = n * n := Nat.mul_div_cancel _ helem
  obtain ⟨out, h1, h2, h3, _⟩ := writeGrid n n (n * n)
    (fun ix iy s => TransposeProcessor.copyElement pI n n ix iy s)
    (fun ix iy => iy + ix * n)
    (fun ix iy => pI.getD (ix + iy * n) 0)
    (fun ix iy s hx hy hsl => copyElement_square pI n ix iy s hlen hnn hx hy hsl)
    (fun ix iy hx hy => by
      show iy + ix * n < n * n
      rw [Nat.mul_comm ix n]; exact window_index_lt iy ix n n hy hx)
    (by
      intro i j i' j' hi hj hi' hj' h
      have h : j + i * n = j' + i' * n := h
      have hm : (j + i * n) % n = (j' + i' * n) % n := by rw [h]
      rw [Nat.add_mul_mod_self_right, Nat.add_mul_mod_self_right, Nat.mod_eq_of_lt hj,
        Nat.mod_eq_of_lt hj'] at hm
      subst hm
      have hi2 : i * n = i' * n := by omega
      exact ⟨Nat.eq_of_mul_eq_mul_right (by omega) hi2, rfl⟩)
    n (le_refl n) ((List.range (n * n * elemSize / elemSize)).map heap.stale)
    (by rw [List.length_map, List.length_range, hdiv])
  rcases havail with ⟨hne, hm⟩ | ⟨heq, hp⟩
  · refine ⟨out, { pTemp_ := some (n * n * elemSize), tempSize_ := n * n * elemSize },
      ?_, h2, h3⟩
    unfold TransposeProcessor.TransposeRectangleOutOfPlace
    dsimp only
    rw [hmod1, hmod2, if_pos hne, hm]
    dsimp only
    rw [if_pos rfl]
    dsimp only
    rw [h1]
    dsimp only
    rw [hdiv, if_pos ⟨by omega, by omega⟩, List.take_of_length_le (by omega),
      List.drop_of_length_le (by omega), List.append_nil]
  · refine ⟨out, { p with tempSize_ := n * n * elemSize }, ?_, h2, h3⟩
    unfold TransposeProcessor.TransposeRectangleOutOfPlace
    dsimp only
    rw [hmod1, hmod2, if_neg (by simp [heq]), hp]
    dsimp only
    rw [h1]
    dsimp only
    rw [hdiv, if_pos ⟨by omega, by omega⟩, List.take_of_length_le (by omega),
      List.drop_of_length_le (by omega), List.append_nil]

/-- C26, the code at failing inputs, one-byte elements, a fresh processor and
a successful `malloc`. For the 3-wide, 2-high image 0 .. 5 the write for
`ix = 2, iy = 0` goes to index `0 + 2*3 = 6` of the 6-element scratch block:
outside. For the 2-wide, 3-high image 0 .. 5 the read for `ix = 1, iy = 2`
is at index `1 + 2*3 = 7` of the 6-element image: outside. When the 2-wide,
3-high image lies in a buffer with two more elements, no access is outside
and the call returns `DEVICE_OK`, but the six elements left are 0, 3, 1, 4, 7
and a value never written, not the transpose 0, 2, 4, 1, 3, 5. -/
theorem C26_transpose_rectangle_out_of_place :
    TransposeProcessor.TransposeRectangleOutOfPlace 1 quietHeap [0, 1, 2, 3, 4, 5] 3 2
      newTransposeProcessor = none ∧
    TransposeProcessor.TransposeRectangleOutOfPlace 1 quietHeap [0, 1, 2, 3, 4, 5] 2 3
      newTransposeProcessor = none ∧
    (TransposeProcessor.TransposeRectangleOutOfPlace 1 quietHeap [0, 1, 2, 3, 4, 5, 6, 7] 2 3
      newTransposeProcessor).map (fun r => (r.1, r.2.1.take 6)) =
        some (DEVICE_OK, [0, 3, 1, 4, 7, 99]) ∧
    transposed [0, 1, 2, 3, 4, 5] 2 3 = [0, 2, 4, 1, 3, 5] ∧
    transposed [0, 1, 2, 3, 4, 5] 3 2 = [0, 3, 1, 4, 2, 5] := by
  refine ⟨?_, ?_, ?_, ?_, ?_⟩
  · exact Option.not_isSome_iff_eq_none.mp (by decide)
  · exact Option.not_isSome_iff_eq_none.mp (by decide)
  · decide
  · decide
  · decide

end Basler
